import Mathlib

/-!
# Cabbage host graph editor: node views, connector views and the connection draft

A shallow embedding of `Source/Host/GraphEditorPanel.cpp`.

* C++ `int` and `uint32` values are `Int` and `Nat`; no arithmetic in the embedded
  functions can overflow for on-screen sizes.
* `float` and `double` values are exact rationals (`ℚ`).
* A component that lives on the heap is a `Child`: its address together with its state.
  `delete` removes the child from its parent, `new` takes the next unused address.
* Painting, paths, drop shadows and listeners are not part of the state.
-/

namespace Cabbage

/-! ## Geometry -/

/-- The JUCE `Rectangle<int>`: top-left corner and size. -/
structure Rectangle where
  x : Int := 0
  y : Int := 0
  w : Int := 0
  h : Int := 0
  deriving DecidableEq, Repr

/-- The JUCE `Rectangle::contains (x, y)`. -/
def Rectangle.contains (r : Rectangle) (x y : Int) : Bool :=
  decide (r.x ≤ x) && decide (r.y ≤ y) && decide (x < r.x + r.w) && decide (y < r.y + r.h)

/-- The JUCE `roundToInt`: nearest integer, a tie going to the even neighbour. -/
def roundToInt (q : ℚ) : Int :=
  let f := q.floor
  let r := q - f
  if r < 1 / 2 then f else if 1 / 2 < r then f + 1 else if f % 2 = 0 then f else f + 1

/-- The C++ conversion `(int) f` of a float: truncation towards zero. -/
def truncToInt (q : ℚ) : Int :=
  if 0 ≤ q then q.floor else q.ceil

/-! ## The graph model, as far as the editor reads it -/

/-- The processor of a node, as far as the editor reads it: channel counts, MIDI flags,
name, the width of that name in the node view's font (`font.getStringWidth (getName())`),
channel names, and the plugin name when the processor is a `PluginWrapperProcessor`. -/
structure AudioProcessor where
  numInputChannels : Nat := 0
  numOutputChannels : Nat := 0
  acceptsMidi : Bool := false
  producesMidi : Bool := false
  name : String := ""
  nameWidth : Int := 0
  inputChannelNames : List String := []
  outputChannelNames : List String := []
  pluginName : Option String := none
  deriving DecidableEq, Repr

/-- Name of input channel `i` (`getInputChannelName`), empty when the processor gives none. -/
def AudioProcessor.getInputChannelName (pr : AudioProcessor) (i : Int) : String :=
  pr.inputChannelNames.getD i.toNat ""

/-- Name of output channel `i` (`getOutputChannelName`), empty when the processor gives none. -/
def AudioProcessor.getOutputChannelName (pr : AudioProcessor) (i : Int) : String :=
  pr.outputChannelNames.getD i.toNat ""

/-- An `AudioProcessorGraph::Node`: id, processor and stored normalized position. -/
structure Node where
  nodeId : Nat
  processor : AudioProcessor := {}
  x : ℚ := 0
  y : ℚ := 0
  deriving DecidableEq, Repr

/-- An `AudioProcessorGraph::Connection`: the 4-tuple. -/
structure Connection where
  sourceNodeId : Nat
  sourceChannelIndex : Int
  destNodeId : Nat
  destChannelIndex : Int
  deriving DecidableEq, Repr

/-- The graph model the editor is attached to (`FilterGraph& graph`): nodes and connections
in enumeration order (`getNode (i)`, `getConnection (i)`), and the last node id that was
given out.

Modelled from the spec: the allocation of node ids is in FilterGraph.cpp, which is not
among the sources; an id is unique for the lifetime of the graph, so that the graph
remembers the last id it allocated. -/
structure FilterGraph where
  nodes : List Node := []
  connections : List Connection := []
  lastNodeId : Nat := 0
  deriving DecidableEq, Repr

/-- Modelled from the spec: `FilterGraph::midiChannelNumber` is declared in FilterGraph.h,
which is not among the sources; it is the reserved sentinel channel index denoting the
MIDI channel. -/
def midiChannelNumber : Int := 0x1000

/-- Modelled from the spec: `FilterGraph::getNodeForId` is defined in FilterGraph.cpp, which
is not among the sources; it is the existence query of the graph model: the node with the
given id, if the id resolves. -/
def FilterGraph.getNodeForId (g : FilterGraph) (uid : Nat) : Option Node :=
  g.nodes.find? (fun n => n.nodeId == uid)

/-- Modelled from the spec: `FilterGraph::getNodePosition` is defined in FilterGraph.cpp,
which is not among the sources; it returns the stored normalized position of the node, and
the origin for an id that does not resolve. -/
def FilterGraph.getNodePosition (g : FilterGraph) (uid : Nat) : ℚ × ℚ :=
  match g.getNodeForId uid with
  | some n => (n.x, n.y)
  | none => (0, 0)

/-- Modelled from the spec: `FilterGraph::getConnectionBetween` is defined in
FilterGraph.cpp, which is not among the sources; it is the existence query for the exact
4-tuple. -/
def FilterGraph.getConnectionBetween (g : FilterGraph) (s : Nat) (sc : Int) (d : Nat) (dc : Int) :
    Option Connection :=
  g.connections.find? (fun c =>
    c.sourceNodeId == s && c.sourceChannelIndex == sc && c.destNodeId == d && c.destChannelIndex == dc)

/-! ## Pin views -/

/-- A `PinComponent`: the pin of channel `index` of node `filterID`, with its tooltip and
its bounds inside the node view. -/
structure PinComponent where
  filterID : Nat
  index : Int
  isInput : Bool
  tooltip : String := ""
  bounds : Rectangle := {}
  deriving DecidableEq, Repr

/-- The constructor `PinComponent::PinComponent`: the tooltip is computed when the node
resolves, and the size is 16 by 16. -/
def PinComponent.new (g : FilterGraph) (filterID : Nat) (index : Int) (isInput : Bool) :
    PinComponent :=
  let tooltip :=
    match g.getNodeForId filterID with
    | some node =>
      if index = midiChannelNumber then
        (if isInput then "MIDI Input" else "MIDI Output")
      else
        let tip :=
          if isInput then node.processor.getInputChannelName index
          else node.processor.getOutputChannelName index
        if tip.isEmpty then (if isInput then "Input " else "Output ") ++ toString (index + 1)
        else tip
    | none => ""
  { filterID := filterID, index := index, isInput := isInput, tooltip := tooltip,
    bounds := { x := 0, y := 0, w := 16, h := 16 } }

/-! ## Node views -/

/-- A `FilterComponent` (node view). `pins` are its child components, in child order.
`originalPos` is the screen position stored at the last press, and `colour` is the
component property "colour" that `paint` reads. -/
structure FilterComponent where
  filterID : Nat
  numInputs : Int := 0
  numOutputs : Int := 0
  numIns : Int := 0
  numOuts : Int := 0
  pins : List PinComponent := []
  bounds : Rectangle := {}
  name : String := ""
  filterIsPartofSelectedGroup : Bool := false
  originalPos : Int × Int := (0, 0)
  colour : String := ""
  deriving DecidableEq, Repr

/-- The member `pinSize`, set to 16 by the constructor and never written again. -/
def pinSize : Int := 16

/-- The constructor `FilterComponent::FilterComponent`. -/
def FilterComponent.new (filterID : Nat) : FilterComponent :=
  { filterID := filterID }

/-- The JUCE `proportionOfWidth`. -/
def FilterComponent.proportionOfWidth (fc : FilterComponent) (proportion : ℚ) : Int :=
  roundToInt (proportion * fc.bounds.w)

/-- The layout `FilterComponent::resized`: every pin gets its slot. -/
def FilterComponent.resized (fc : FilterComponent) : FilterComponent :=
  { fc with
    pins := fc.pins.map (fun pc =>
      let total := if pc.isInput then fc.numIns else fc.numOuts
      let index := if pc.index = midiChannelNumber then total - 1 else pc.index
      { pc with
        bounds :=
          { x := fc.proportionOfWidth (((1 + index : Int) : ℚ) / ((total : ℚ) + 1)) - pinSize / 2
            y := if pc.isInput then 0 else fc.bounds.h - pinSize
            w := pinSize
            h := pinSize } }) }

/-- The JUCE `setSize`: the `resized` callback runs when the size changes. -/
def FilterComponent.setSize (fc : FilterComponent) (w h : Int) : FilterComponent :=
  if fc.bounds.w = w ∧ fc.bounds.h = h then fc
  else FilterComponent.resized { fc with bounds := { fc.bounds with w := w, h := h } }

/-- The JUCE `setCentreRelative` for a parent of the given size. -/
def FilterComponent.setCentreRelative (fc : FilterComponent) (parentWidth parentHeight : Int)
    (x y : ℚ) : FilterComponent :=
  { fc with
    bounds :=
      { fc.bounds with
        x := roundToInt (parentWidth * x) - fc.bounds.w / 2
        y := roundToInt (parentHeight * y) - fc.bounds.h / 2 } }

/-- The pins that `FilterComponent::update` creates for a processor: the audio inputs, the
MIDI input, the audio outputs, the MIDI output. -/
def FilterComponent.makePins (g : FilterGraph) (filterID : Nat) (pr : AudioProcessor) :
    List PinComponent :=
  (List.range pr.numInputChannels).map (fun i => PinComponent.new g filterID (i : Int) true)
    ++ (if pr.acceptsMidi then [PinComponent.new g filterID midiChannelNumber true] else [])
    ++ (List.range pr.numOutputChannels).map (fun i => PinComponent.new g filterID (i : Int) false)
    ++ (if pr.producesMidi then [PinComponent.new g filterID midiChannelNumber false] else [])

/-- The method `FilterComponent::update`, for a view whose parent has the given size.
`none` is `delete this`. -/
def FilterComponent.update (g : FilterGraph) (parentWidth parentHeight : Int)
    (fc : FilterComponent) : Option FilterComponent :=
  match g.getNodeForId fc.filterID with
  | none => none
  | some f =>
    let numIns : Int := (f.processor.numInputChannels : Int) + (if f.processor.acceptsMidi then 1 else 0)
    let numOuts : Int := (f.processor.numOutputChannels : Int) + (if f.processor.producesMidi then 1 else 0)
    let w0 : Int := max 100 ((max numIns numOuts + 1) * 20)
    let textWidth := f.processor.nameWidth
    let w : Int := max w0 (16 + min textWidth 300)
    let h : Int := if textWidth > 300 then 100 else 60
    let fc1 := FilterComponent.setSize { fc with numIns := numIns, numOuts := numOuts } w h
    let fc2 :=
      { fc1 with
        name := match f.processor.pluginName with
          | some n => n
          | none => f.processor.name }
    let pos := g.getNodePosition fc.filterID
    let fc3 := fc2.setCentreRelative parentWidth parentHeight pos.1 pos.2
    if numIns ≠ fc3.numInputs ∨ numOuts ≠ fc3.numOutputs then
      some (FilterComponent.resized
        { fc3 with
          numInputs := numIns
          numOutputs := numOuts
          pins := FilterComponent.makePins g fc.filterID f.processor })
    else
      some fc3

/-- The hit test `FilterComponent::hitTest`, in the view's own coordinates. -/
def FilterComponent.hitTest (fc : FilterComponent) (x y : Int) : Bool :=
  fc.pins.any (fun pc => pc.bounds.contains x y)
    || (decide (3 ≤ x) && decide (x < fc.bounds.w - 6) && decide (pinSize ≤ y)
        && decide (y < fc.bounds.h - pinSize))

/-- The JUCE `getComponentAt` on a node view, followed by the cast to `PinComponent*`: the
topmost pin under the point, when the point is inside the view and passes its hit test. -/
def FilterComponent.getPinAt (fc : FilterComponent) (x y : Int) : Option PinComponent :=
  if decide (0 ≤ x) && decide (x < fc.bounds.w) && decide (0 ≤ y) && decide (y < fc.bounds.h)
      && fc.hitTest x y then
    fc.pins.reverse.find? (fun pc => pc.bounds.contains x y)
  else none

/-- The method `FilterComponent::getPinPos`: the centre of the first pin with this index
and direction, written over `(x, y)`; `(x, y)` is left as it is when there is no such pin. -/
def FilterComponent.getPinPos (fc : FilterComponent) (index : Int) (isInput : Bool)
    (xy : ℚ × ℚ) : ℚ × ℚ :=
  match fc.pins.find? (fun pc => pc.index == index && isInput == pc.isInput) with
  | some pc =>
    ((fc.bounds.x : ℚ) + pc.bounds.x + pc.bounds.w * (1 / 2),
     (fc.bounds.y : ℚ) + pc.bounds.y + pc.bounds.h * (1 / 2))
  | none => xy

/-! ## Connector views and the panel -/

/-- A `ConnectorComponent` (connector view): the endpoint ids and channels, the endpoint
coordinates stored by the last layout, the bounds, the tooltip, and the member `dragging`,
which the constructor leaves unset and `mouseDown` sets before any `mouseDrag` reads it. -/
structure ConnectorComponent where
  sourceFilterID : Nat := 0
  destFilterID : Nat := 0
  sourceFilterChannel : Int := 0
  destFilterChannel : Int := 0
  lastInputX : ℚ := 0
  lastInputY : ℚ := 0
  lastOutputX : ℚ := 0
  lastOutputY : ℚ := 0
  bounds : Rectangle := {}
  tooltip : String := ""
  dragging : Bool := false
  deriving DecidableEq, Repr

/-- The kinds of child component of the panel: node views, connector views, and anything
else (the lasso overlay). -/
inductive Component where
  | filter (fc : FilterComponent)
  | connector (cc : ConnectorComponent)
  | other (bounds : Rectangle)
  deriving DecidableEq, Repr

/-- A child component of the panel: the address of the object and its state. -/
structure Child where
  addr : Nat
  comp : Component
  deriving DecidableEq, Repr

/-- The `GraphEditorPanel`: its size, its children in z-order (index 0 at the back), the
`draggingConnector` pointer, and the next unused address; then the selection set
`selectedFilters` (the addresses of the selected node views, in selection order), the list
`selectedFilterCoordinates`, and the position of the panel on the screen.

Modelled from the spec: `draggingConnector` is declared in GraphEditorPanel.h, which is
not among the sources; it owns the draft view object, so that resetting it discards the
draft. -/
structure GraphEditorPanel where
  width : Int := 0
  height : Int := 0
  children : List Child := []
  draggingConnector : Option Nat := none
  nextAddr : Nat := 0
  selectedFilters : List Nat := []
  selectedFilterCoordinates : List (Int × Int) := []
  screenX : Int := 0
  screenY : Int := 0
  deriving DecidableEq, Repr

/-- The JUCE `isAlwaysOnTop`: the constructor of `ConnectorComponent` calls
`setAlwaysOnTop (true)`, no other child does. -/
def Child.isAlwaysOnTop (c : Child) : Bool :=
  match c.comp with
  | .connector _ => true
  | _ => false

/-- The JUCE `addAndMakeVisible (child)` on a list of children: an always-on-top child goes
to the end of the list; any other child goes below the always-on-top children that end
the list. -/
def addAndMakeVisible (children : List Child) (c : Child) : List Child :=
  if c.isAlwaysOnTop then children ++ [c]
  else
    let top := children.reverse.takeWhile Child.isAlwaysOnTop
    let below := children.reverse.dropWhile Child.isAlwaysOnTop
    below.reverse ++ c :: top.reverse

/-- The lookup `GraphEditorPanel::getComponentForFilter`: the topmost node view with this
id. -/
def GraphEditorPanel.getComponentForFilter (p : GraphEditorPanel) (filterID : Nat) :
    Option FilterComponent :=
  p.children.reverse.findSome? (fun c =>
    match c.comp with
    | .filter fc => if fc.filterID = filterID then some fc else none
    | _ => none)

/-- The lookup `GraphEditorPanel::getComponentForConnection`: the topmost connector view
with this 4-tuple. -/
def GraphEditorPanel.getComponentForConnection (p : GraphEditorPanel) (conn : Connection) :
    Option ConnectorComponent :=
  p.children.reverse.findSome? (fun c =>
    match c.comp with
    | .connector cc =>
      if cc.sourceFilterID = conn.sourceNodeId ∧ cc.destFilterID = conn.destNodeId
          ∧ cc.sourceFilterChannel = conn.sourceChannelIndex
          ∧ cc.destFilterChannel = conn.destChannelIndex then some cc
      else none
    | _ => none)

/-- The lookup `GraphEditorPanel::findPinAt`: the pin under the panel point `(x, y)`,
searching the node views from the top; the node view is returned with the pin
(`pin->getParentComponent()`). -/
def GraphEditorPanel.findPinAt (p : GraphEditorPanel) (x y : Int) :
    Option (FilterComponent × PinComponent) :=
  p.children.reverse.findSome? (fun c =>
    match c.comp with
    | .filter fc => (fc.getPinAt (x - fc.bounds.x) (y - fc.bounds.y)).map (fun pin => (fc, pin))
    | _ => none)

/-- The method `ConnectorComponent::getPoints` of a connector whose parent is `hostPanel`:
the stored coordinates, each end replaced by the position of its pin when the node view
and the pin exist. The result is `((x1, y1), (x2, y2))`. -/
def ConnectorComponent.getPoints (hostPanel : GraphEditorPanel) (cc : ConnectorComponent) :
    (ℚ × ℚ) × (ℚ × ℚ) :=
  let p1 : ℚ × ℚ := (cc.lastInputX, cc.lastInputY)
  let p2 : ℚ × ℚ := (cc.lastOutputX, cc.lastOutputY)
  let p1 :=
    match hostPanel.getComponentForFilter cc.sourceFilterID with
    | some srcFilterComp => srcFilterComp.getPinPos cc.sourceFilterChannel false p1
    | none => p1
  let p2 :=
    match hostPanel.getComponentForFilter cc.destFilterID with
    | some dstFilterComp => dstFilterComp.getPinPos cc.destFilterChannel true p2
    | none => p2
  (p1, p2)

/-- The layout `ConnectorComponent::resized`, as far as the state goes: the current points
are stored. -/
def ConnectorComponent.resized (hostPanel : GraphEditorPanel) (cc : ConnectorComponent) :
    ConnectorComponent :=
  let pts := cc.getPoints hostPanel
  { cc with
    lastInputX := pts.1.1
    lastInputY := pts.1.2
    lastOutputX := pts.2.1
    lastOutputY := pts.2.2 }

/-- The method `ConnectorComponent::resizeToFit`. The JUCE `setBounds` runs the `resized`
callback when the width or the height changes, not when the component only moves. -/
def ConnectorComponent.resizeToFit (hostPanel : GraphEditorPanel) (cc : ConnectorComponent) :
    ConnectorComponent :=
  let pts := cc.getPoints hostPanel
  let newBounds : Rectangle :=
    { x := truncToInt (min pts.1.1 pts.2.1) - 4
      y := truncToInt (min pts.1.2 pts.2.2) - 4
      w := truncToInt |pts.1.1 - pts.2.1| + 8
      h := truncToInt |pts.1.2 - pts.2.2| + 8 }
  if newBounds ≠ cc.bounds then
    if newBounds.w ≠ cc.bounds.w ∨ newBounds.h ≠ cc.bounds.h then
      ConnectorComponent.resized hostPanel { cc with bounds := newBounds }
    else { cc with bounds := newBounds }
  else cc.resized hostPanel

/-- The method `ConnectorComponent::update`. -/
def ConnectorComponent.update (hostPanel : GraphEditorPanel) (cc : ConnectorComponent) :
    ConnectorComponent :=
  let pts := cc.getPoints hostPanel
  if cc.lastInputX ≠ pts.1.1 ∨ cc.lastInputY ≠ pts.1.2 ∨ cc.lastOutputX ≠ pts.2.1
      ∨ cc.lastOutputY ≠ pts.2.2 then
    cc.resizeToFit hostPanel
  else cc

/-- The method `ConnectorComponent::setInput`. -/
def ConnectorComponent.setInput (hostPanel : GraphEditorPanel) (cc : ConnectorComponent)
    (sourceFilterID : Nat) (sourceFilterChannel : Int) : ConnectorComponent :=
  if cc.sourceFilterID ≠ sourceFilterID ∨ cc.sourceFilterChannel ≠ sourceFilterChannel then
    ConnectorComponent.update hostPanel
      { cc with sourceFilterID := sourceFilterID, sourceFilterChannel := sourceFilterChannel }
  else cc

/-- The method `ConnectorComponent::setOutput`. -/
def ConnectorComponent.setOutput (hostPanel : GraphEditorPanel) (cc : ConnectorComponent)
    (destFilterID : Nat) (destFilterChannel : Int) : ConnectorComponent :=
  if cc.destFilterID ≠ destFilterID ∨ cc.destFilterChannel ≠ destFilterChannel then
    ConnectorComponent.update hostPanel
      { cc with destFilterID := destFilterID, destFilterChannel := destFilterChannel }
  else cc

/-- The method `ConnectorComponent::dragStart`. -/
def ConnectorComponent.dragStart (hostPanel : GraphEditorPanel) (cc : ConnectorComponent)
    (x y : Int) : ConnectorComponent :=
  ConnectorComponent.resizeToFit hostPanel { cc with lastInputX := x, lastInputY := y }

/-- The method `ConnectorComponent::dragEnd`. -/
def ConnectorComponent.dragEnd (hostPanel : GraphEditorPanel) (cc : ConnectorComponent)
    (x y : Int) : ConnectorComponent :=
  ConnectorComponent.resizeToFit hostPanel { cc with lastOutputX := x, lastOutputY := y }

/-! ## Reconciliation: `GraphEditorPanel::updateComponents` -/

/-- First loop of `updateComponents`: every node view runs `update()`, which deletes the
view when its node is gone. One view's update reads the graph and the panel size only, so
the loop from the last child to the first is a `filterMap` over the children. -/
def GraphEditorPanel.updateFilterComponents (g : FilterGraph) (p : GraphEditorPanel) :
    GraphEditorPanel :=
  { p with
    children := p.children.filterMap (fun c =>
      match c.comp with
      | .filter fc =>
        (fc.update g p.width p.height).map (fun fc1 => { c with comp := .filter fc1 })
      | _ => some c) }

/-- Second loop of `updateComponents`: every connector view other than `draggingConnector`
is deleted when the graph has no connection between its endpoints, and runs `update()`
otherwise. `update()` reads the node views only, which this loop does not touch. -/
def GraphEditorPanel.updateConnectorComponents (g : FilterGraph) (p : GraphEditorPanel) :
    GraphEditorPanel :=
  { p with
    children := p.children.filterMap (fun c =>
      match c.comp with
      | .connector cc =>
        if p.draggingConnector = some c.addr then some c
        else if (g.getConnectionBetween cc.sourceFilterID cc.sourceFilterChannel
                  cc.destFilterID cc.destFilterChannel).isNone then none
        else some { c with comp := .connector (cc.update p) }
      | _ => some c) }

/-- Body of the third loop of `updateComponents` for the node `f`: when no node view has
its id, a view is made, added to the panel and updated. `update()` reads the graph and the
size of the panel only, so that the view is updated first and added as `update()` leaves
it; when `update()` deletes the view, the address is used up and no child is added. -/
def GraphEditorPanel.addFilterComponent (g : FilterGraph) (f : Node) (p : GraphEditorPanel) :
    GraphEditorPanel :=
  if (p.getComponentForFilter f.nodeId).isNone then
    match (FilterComponent.new f.nodeId).update g p.width p.height with
    | some comp =>
      { p with
        children := addAndMakeVisible p.children { addr := p.nextAddr, comp := .filter comp }
        nextAddr := p.nextAddr + 1 }
    | none => { p with nextAddr := p.nextAddr + 1 }
  else p

/-- Body of the fourth loop of `updateComponents` for the connection `c`: when no
connector view has its 4-tuple, a view is made, added to the panel and bound to the two
endpoints. `setInput` and `setOutput` read the node views of the panel only, which adding
the connector view does not change. -/
def GraphEditorPanel.addConnectorComponent (c : Connection) (p : GraphEditorPanel) :
    GraphEditorPanel :=
  if (p.getComponentForConnection c).isNone then
    let comp : ConnectorComponent := {}
    let comp := comp.setInput p c.sourceNodeId c.sourceChannelIndex
    let comp := comp.setOutput p c.destNodeId c.destChannelIndex
    { p with
      children := addAndMakeVisible p.children { addr := p.nextAddr, comp := .connector comp }
      nextAddr := p.nextAddr + 1 }
  else p

/-- The method `GraphEditorPanel::updateComponents`. The third and fourth loops run from
the last node (connection) of the graph to the first, which is a right fold. -/
def GraphEditorPanel.updateComponents (g : FilterGraph) (p : GraphEditorPanel) :
    GraphEditorPanel :=
  g.connections.foldr GraphEditorPanel.addConnectorComponent
    (g.nodes.foldr (GraphEditorPanel.addFilterComponent g)
      ((p.updateFilterComponents g).updateConnectorComponents g))

/-! ## The connection draft: `dragConnector` and `endDraggingConnector` -/

/-- A mouse event, with its position already relative to the panel
(`e.getEventRelativeTo (this)`). -/
structure MouseEvent where
  x : Int
  y : Int
  deriving DecidableEq, Repr

/-- The connector view that `draggingConnector` points to, when it points to a connector
view among the children. -/
def GraphEditorPanel.getDraggingConnector (p : GraphEditorPanel) : Option ConnectorComponent :=
  match p.draggingConnector with
  | none => none
  | some a =>
    p.children.findSome? (fun c =>
      match c.comp with
      | .connector cc => if c.addr = a then some cc else none
      | _ => none)

/-- The 4-tuple that `dragConnector` forms from the draft's endpoint fields and the pin
under the pointer: a free source (id 0) takes an output pin, else a free destination
(id 0) takes an input pin, else the fields are left as they are. -/
def dragTuple (cc : ConnectorComponent) (pin : PinComponent) : Connection :=
  if cc.sourceFilterID = 0 ∧ pin.isInput = false then
    { sourceNodeId := pin.filterID, sourceChannelIndex := pin.index,
      destNodeId := cc.destFilterID, destChannelIndex := cc.destFilterChannel }
  else if cc.destFilterID = 0 ∧ pin.isInput = true then
    { sourceNodeId := cc.sourceFilterID, sourceChannelIndex := cc.sourceFilterChannel,
      destNodeId := pin.filterID, destChannelIndex := pin.index }
  else
    { sourceNodeId := cc.sourceFilterID, sourceChannelIndex := cc.sourceFilterChannel,
      destNodeId := cc.destFilterID, destChannelIndex := cc.destFilterChannel }

/-- The point and the tooltip that `dragConnector` computes for the draft `cc`: the centre
and the tooltip of the pin under the pointer when `canConnect` accepts the 4-tuple, the
pointer position and no tooltip otherwise. `canConnect` is `FilterGraph::canConnect`,
which is not among the sources. -/
def GraphEditorPanel.dragTarget (canConnect : FilterGraph → Nat → Int → Nat → Int → Bool)
    (g : FilterGraph) (p : GraphEditorPanel) (e2 : MouseEvent) (cc : ConnectorComponent) :
    (Int × Int) × String :=
  match p.findPinAt e2.x e2.y with
  | some found =>
    let t := dragTuple cc found.2
    if canConnect g t.sourceNodeId t.sourceChannelIndex t.destNodeId t.destChannelIndex then
      ((found.1.bounds.x + found.2.bounds.x + found.2.bounds.w / 2,
        found.1.bounds.y + found.2.bounds.y + found.2.bounds.h / 2), found.2.tooltip)
    else ((e2.x, e2.y), "")
  | none => ((e2.x, e2.y), "")

/-- Body of `GraphEditorPanel::dragConnector` on the draft `cc`. The result of `findPinAt`
does not depend on the draft, so that it is computed on the panel as it is at entry. -/
def GraphEditorPanel.dragDraft (canConnect : FilterGraph → Nat → Int → Nat → Int → Bool)
    (g : FilterGraph) (p : GraphEditorPanel) (e2 : MouseEvent) (cc : ConnectorComponent) :
    ConnectorComponent :=
  let target := p.dragTarget canConnect g e2 cc
  if cc.sourceFilterID = 0 then
    ConnectorComponent.dragStart p { cc with tooltip := target.2 } target.1.1 target.1.2
  else
    ConnectorComponent.dragEnd p { cc with tooltip := target.2 } target.1.1 target.1.2

/-- The method `GraphEditorPanel::dragConnector`: nothing happens without a draft;
otherwise the object that `draggingConnector` points to is modified in place. -/
def GraphEditorPanel.dragConnector (canConnect : FilterGraph → Nat → Int → Nat → Int → Bool)
    (g : FilterGraph) (p : GraphEditorPanel) (e2 : MouseEvent) : GraphEditorPanel :=
  match p.draggingConnector with
  | none => p
  | some a =>
    { p with
      children := p.children.map (fun c =>
        match c.comp with
        | .connector cc =>
          if c.addr = a then { c with comp := .connector (p.dragDraft canConnect g e2 cc) }
          else c
        | _ => c) }

/-- The method `GraphEditorPanel::endDraggingConnector`. `addConnection` is
`FilterGraph::addConnection`, which is not among the sources; the result is the graph and
the panel after the call. Resetting `draggingConnector` deletes the draft, which removes the
connector view at that address from the children (the always-on-top children are the
connector views). When the pointer designates no connector view among the children the
endpoint fields cannot be read and no connection is requested. -/
def GraphEditorPanel.endDraggingConnector
    (addConnection : FilterGraph → Nat → Int → Nat → Int → FilterGraph)
    (g : FilterGraph) (p : GraphEditorPanel) (e2 : MouseEvent) : FilterGraph × GraphEditorPanel :=
  match p.draggingConnector with
  | none => (g, p)
  | some a =>
    let p1 : GraphEditorPanel :=
      { p with
        draggingConnector := none
        children := p.children.filter (fun c => !(c.isAlwaysOnTop && decide (c.addr = a))) }
    match p.getDraggingConnector with
    | none => (g, p1)
    | some cc =>
      match p1.findPinAt e2.x e2.y with
      | some (_, pin) =>
        if cc.sourceFilterID = 0 then
          if pin.isInput then (g, p1)
          else (addConnection g pin.filterID pin.index cc.destFilterID cc.destFilterChannel, p1)
        else
          if ! pin.isInput then (g, p1)
          else (addConnection g cc.sourceFilterID cc.sourceFilterChannel pin.filterID pin.index, p1)
      | none => (g, p1)

/-! ## The graph model: operations modelled from the spec -/

/-- Modelled from the spec: `FilterGraph::canConnect` is defined in FilterGraph.cpp, which
is not among the sources; it is the legality predicate of the spec, rules 1 to 5: both ids
resolve; the source channel is a valid output channel index of the source node, or the MIDI
sentinel when the node produces MIDI; the destination channel is a valid input channel
index of the destination node, or the MIDI sentinel when the node accepts MIDI; no
connection from a different source enters the destination input; the source node is not
the destination node. -/
def FilterGraph.canConnect (g : FilterGraph) (s : Nat) (sc : Int) (d : Nat) (dc : Int) : Bool :=
  match g.getNodeForId s, g.getNodeForId d with
  | some src, some dst =>
    ((decide (0 ≤ sc) && decide (sc < (src.processor.numOutputChannels : Int)))
        || (decide (sc = midiChannelNumber) && src.processor.producesMidi))
      && ((decide (0 ≤ dc) && decide (dc < (dst.processor.numInputChannels : Int)))
        || (decide (dc = midiChannelNumber) && dst.processor.acceptsMidi))
      && !(g.connections.any (fun c =>
            decide (c.destNodeId = d) && decide (c.destChannelIndex = dc)
              && !(decide (c.sourceNodeId = s) && decide (c.sourceChannelIndex = sc))))
      && !(decide (s = d))
  | _, _ => false

/-- Modelled from the spec: the result of `FilterGraph::addConnection`, which is defined in
FilterGraph.cpp, not among the sources: the request succeeds (`true`) unless `canConnect`
disallows it or the 4-tuple already exists, in which cases it is rejected (`false`). -/
def FilterGraph.addConnectionSucceeds (g : FilterGraph) (s : Nat) (sc : Int) (d : Nat)
    (dc : Int) : Bool :=
  g.canConnect s sc d dc && (g.getConnectionBetween s sc d dc).isNone

/-- Modelled from the spec: `FilterGraph::addConnection` is defined in FilterGraph.cpp,
which is not among the sources; the request is rejected (the graph is left as it is) when
`canConnect` disallows it or the 4-tuple already exists, and the connection is inserted
otherwise. -/
def FilterGraph.addConnection (g : FilterGraph) (s : Nat) (sc : Int) (d : Nat) (dc : Int) :
    FilterGraph :=
  if g.addConnectionSucceeds s sc d dc then
    { g with
      connections := g.connections ++
        [ { sourceNodeId := s, sourceChannelIndex := sc, destNodeId := d, destChannelIndex := dc } ] }
  else g

/-- Modelled from the spec: `FilterGraph::removeConnection` is defined in FilterGraph.cpp,
which is not among the sources; it removes the connection with the 4-tuple, and does
nothing when there is none. -/
def FilterGraph.removeConnection (g : FilterGraph) (s : Nat) (sc : Int) (d : Nat) (dc : Int) :
    FilterGraph :=
  { g with
    connections := g.connections.filter (fun c =>
      !(decide (c.sourceNodeId = s) && decide (c.sourceChannelIndex = sc)
        && decide (c.destNodeId = d) && decide (c.destChannelIndex = dc))) }

/-- Modelled from the spec: `removeNode` (`FilterGraph::removeFilter`, defined in
FilterGraph.cpp, which is not among the sources) removes the node and every connection
that references it, and does nothing when the id is unknown. -/
def FilterGraph.removeNode (g : FilterGraph) (n : Nat) : FilterGraph :=
  match g.getNodeForId n with
  | none => g
  | some _ =>
    { g with
      nodes := g.nodes.filter (fun f => !(decide (f.nodeId = n)))
      connections := g.connections.filter (fun c =>
        !(decide (c.sourceNodeId = n) || decide (c.destNodeId = n))) }

/-- Modelled from the spec: `FilterGraph::setNodePosition` is defined in FilterGraph.cpp,
which is not among the sources; it stores the normalized position of the node as it is
given (the graph model does not clamp it) and does nothing when the id is unknown. -/
def FilterGraph.setNodePosition (g : FilterGraph) (n : Nat) (x y : ℚ) : FilterGraph :=
  { g with nodes := g.nodes.map (fun f => if f.nodeId = n then { f with x := x, y := y } else f) }

/-! ## Starting a draft: `beginConnectorDrag` and the handlers that call it -/

/-- The connector view at the address `a`, if a child of the panel is one. -/
def GraphEditorPanel.connectorAt (p : GraphEditorPanel) (a : Nat) : Option ConnectorComponent :=
  p.children.findSome? (fun c =>
    match c.comp with
    | .connector cc => if c.addr = a then some cc else none
    | _ => none)

/-- The children without the connector view at the address `a` (`delete` of that view, or
its removal before it is put back elsewhere in the z-order). -/
def GraphEditorPanel.withoutConnectorAt (p : GraphEditorPanel) (a : Nat) : List Child :=
  p.children.filter (fun c => !(c.isAlwaysOnTop && decide (c.addr = a)))

/-- The children after the owning pointer `draggingConnector` is given the object at the
address `a` (`none` for a null pointer): the draft it held before is deleted, unless it is
that same object. -/
def GraphEditorPanel.afterDraftReset (p : GraphEditorPanel) (a : Option Nat) : List Child :=
  match p.draggingConnector with
  | some b => if a = some b then p.children else p.withoutConnectorAt b
  | none => p.children

/-- The method `GraphEditorPanel::beginConnectorDrag`. `originalComponent` is the address
of `e.originalComponent`, the component the gesture started on, and `e2` is the event
relative to the panel. When the original component is a connector view of the panel, that
view becomes the draft, is bound to the given ends and is moved to the front, which for an
always-on-top child is the end of the children; otherwise a connector view is made and
bound while it has no parent yet (so that it reads no node view), and is added at the
end. `dragConnector` runs last. -/
def GraphEditorPanel.beginConnectorDrag
    (canConnect : FilterGraph → Nat → Int → Nat → Int → Bool) (g : FilterGraph)
    (p : GraphEditorPanel) (sourceFilterID : Nat) (sourceFilterChannel : Int)
    (destFilterID : Nat) (destFilterChannel : Int) (originalComponent : Option Nat)
    (e2 : MouseEvent) : GraphEditorPanel :=
  let target : Option (Nat × ConnectorComponent) :=
    match originalComponent with
    | some a => (p.connectorAt a).map (fun cc => (a, cc))
    | none => none
  match target with
  | some t =>
    let p0 : GraphEditorPanel :=
      { p with children := p.afterDraftReset (some t.1), draggingConnector := some t.1 }
    let cc1 :=
      ConnectorComponent.setOutput p0
        (ConnectorComponent.setInput p0 t.2 sourceFilterID sourceFilterChannel)
        destFilterID destFilterChannel
    GraphEditorPanel.dragConnector canConnect g
      { p0 with children := p0.withoutConnectorAt t.1 ++ [{ addr := t.1, comp := .connector cc1 }] }
      e2
  | none =>
    let cc1 :=
      ConnectorComponent.setOutput {}
        (ConnectorComponent.setInput {} {} sourceFilterID sourceFilterChannel)
        destFilterID destFilterChannel
    GraphEditorPanel.dragConnector canConnect g
      { p with
        children :=
          addAndMakeVisible (p.afterDraftReset none) { addr := p.nextAddr, comp := .connector cc1 }
        draggingConnector := some p.nextAddr
        nextAddr := p.nextAddr + 1 }
      e2

/-- The handler `PinComponent::mouseDown` of the pin `pin`: a draft is begun with the pin
as its anchored end and the node id 0 at the other end. The event started on the pin,
which is no connector view. -/
def GraphEditorPanel.pinMouseDown (canConnect : FilterGraph → Nat → Int → Nat → Int → Bool)
    (g : FilterGraph) (p : GraphEditorPanel) (pin : PinComponent) (e2 : MouseEvent) :
    GraphEditorPanel :=
  p.beginConnectorDrag canConnect g (if pin.isInput then 0 else pin.filterID) pin.index
    (if pin.isInput then pin.filterID else 0) pin.index none e2

/-- The parts of a JUCE `MouseEvent` that the handlers of the node views and of the
connector views read: the position relative to the panel, `mouseWasClicked()` (the pointer
has not moved away from the press), `mods.isPopupMenu()`, and the distance from the start
of the drag. -/
structure GestureEvent where
  pos : MouseEvent
  mouseWasClicked : Bool := false
  isPopupMenu : Bool := false
  distanceFromDragStartX : Int := 0
  distanceFromDragStartY : Int := 0
  deriving DecidableEq, Repr

/-- The method `ConnectorComponent::getDistancesFromEnds` at the point `(x, y)` of the
connector view's own coordinates: the squares of the distance from the source end and of
the distance from the destination end. `juce_hypot` is the Euclidean norm, and the caller
only compares the two distances. -/
def ConnectorComponent.getSquaredDistancesFromEnds (hostPanel : GraphEditorPanel)
    (cc : ConnectorComponent) (x y : Int) : ℚ × ℚ :=
  let pts := cc.getPoints hostPanel
  (((x : ℚ) - (pts.1.1 - cc.bounds.x)) ^ 2 + ((y : ℚ) - (pts.1.2 - cc.bounds.y)) ^ 2,
   ((x : ℚ) - (pts.2.1 - cc.bounds.x)) ^ 2 + ((y : ℚ) - (pts.2.2 - cc.bounds.y)) ^ 2)

/-- The panel with the connector view at the address `a` replaced by `f` of it. -/
def GraphEditorPanel.modifyConnectorAt (p : GraphEditorPanel) (a : Nat)
    (f : ConnectorComponent → ConnectorComponent) : GraphEditorPanel :=
  { p with
    children := p.children.map (fun c =>
      match c.comp with
      | .connector cc => if c.addr = a then { c with comp := .connector (f cc) } else c
      | _ => c) }

/-- The handler `ConnectorComponent::mouseDown` of the connector view at the address `a`. -/
def GraphEditorPanel.connectorMouseDown (p : GraphEditorPanel) (a : Nat) : GraphEditorPanel :=
  p.modifyConnectorAt a (fun cc => { cc with dragging := false })

/-- The handler `ConnectorComponent::mouseDrag` of the connector view at the address `a`.
`removeConnection` is `FilterGraph::removeConnection` and `canConnect` is
`FilterGraph::canConnect`, which are not among the sources. The position of the event in
the connector view's own coordinates is its position in the panel less the position of the
view. Nothing happens when no connector view is at `a`. -/
def GraphEditorPanel.connectorMouseDrag
    (removeConnection : FilterGraph → Nat → Int → Nat → Int → FilterGraph)
    (canConnect : FilterGraph → Nat → Int → Nat → Int → Bool) (g : FilterGraph)
    (p : GraphEditorPanel) (a : Nat) (e : GestureEvent) : FilterGraph × GraphEditorPanel :=
  match p.connectorAt a with
  | none => (g, p)
  | some cc =>
    if !cc.dragging && !e.mouseWasClicked then
      let p1 := p.modifyConnectorAt a (fun v => { v with dragging := true })
      let g1 := removeConnection g cc.sourceFilterID cc.sourceFilterChannel cc.destFilterID
        cc.destFilterChannel
      let dist := cc.getSquaredDistancesFromEnds p1 (e.pos.x - cc.bounds.x) (e.pos.y - cc.bounds.y)
      let isNearerSource : Bool := decide (dist.1 < dist.2)
      (g1, p1.beginConnectorDrag canConnect g1
        (if isNearerSource then 0 else cc.sourceFilterID) cc.sourceFilterChannel
        (if isNearerSource then cc.destFilterID else 0) cc.destFilterChannel (some a) e.pos)
    else if cc.dragging then (g, p.dragConnector canConnect g e.pos)
    else (g, p)

/-- The handler `ConnectorComponent::mouseUp` of the connector view at the address `a`. -/
def GraphEditorPanel.connectorMouseUp
    (addConnection : FilterGraph → Nat → Int → Nat → Int → FilterGraph) (g : FilterGraph)
    (p : GraphEditorPanel) (a : Nat) (e : GestureEvent) : FilterGraph × GraphEditorPanel :=
  match p.connectorAt a with
  | none => (g, p)
  | some cc => if cc.dragging then p.endDraggingConnector addConnection g e.pos else (g, p)

/-- The node view held by a child, if the child is one. -/
def Child.asFilter (c : Child) : Option FilterComponent :=
  match c.comp with
  | .filter fc => some fc
  | _ => none

/-- The connector view held by a child, if the child is one. -/
def Child.asConnector (c : Child) : Option ConnectorComponent :=
  match c.comp with
  | .connector cc => some cc
  | _ => none

/-- The node views among the children, in z-order. -/
def nodeViews (cs : List Child) : List FilterComponent :=
  cs.filterMap Child.asFilter

/-- The connector views among the children, in z-order. -/
def connectorViews (cs : List Child) : List ConnectorComponent :=
  cs.filterMap Child.asConnector

/-- The 4-tuple a connector view is bound to. -/
def ConnectorComponent.tuple (cc : ConnectorComponent) : Connection :=
  { sourceNodeId := cc.sourceFilterID, sourceChannelIndex := cc.sourceFilterChannel,
    destNodeId := cc.destFilterID, destChannelIndex := cc.destFilterChannel }

/-- The floating endpoint of a draft: the stored input point when the source is free
(its id is 0), the stored output point otherwise. These are the fields that `dragStart`
and `dragEnd` write. -/
def ConnectorComponent.floatingEnd (cc : ConnectorComponent) : ℚ × ℚ :=
  if cc.sourceFilterID = 0 then (cc.lastInputX, cc.lastInputY)
  else (cc.lastOutputX, cc.lastOutputY)

/-- A pin is compatible with a draft when its direction matches the free end and
`canConnect` accepts the 4-tuple formed from the anchored end and the pin: an output pin
for a free source, an input pin for a free destination. -/
def isCompatiblePin (canConnect : FilterGraph → Nat → Int → Nat → Int → Bool) (g : FilterGraph)
    (cc : ConnectorComponent) (pin : PinComponent) : Bool :=
  if cc.sourceFilterID = 0 then
    !pin.isInput && canConnect g pin.filterID pin.index cc.destFilterID cc.destFilterChannel
  else
    decide (cc.destFilterID = 0) && pin.isInput
      && canConnect g cc.sourceFilterID cc.sourceFilterChannel pin.filterID pin.index

/-- The centre of a pin in panel coordinates: node view x + pin x + pin width / 2, and
likewise for y, in integer arithmetic. -/
def pinCentre (parent : FilterComponent) (pin : PinComponent) : Int × Int :=
  (parent.bounds.x + pin.bounds.x + pin.bounds.w / 2,
   parent.bounds.y + pin.bounds.y + pin.bounds.h / 2)

/-- The identity of a pin view: node id, channel index and direction. -/
def PinComponent.key (pin : PinComponent) : Nat × Int × Bool :=
  (pin.filterID, pin.index, pin.isInput)

/-- The identities of the pin views of a node view, in child order. -/
def FilterComponent.pinKeys (fc : FilterComponent) : List (Nat × Int × Bool) :=
  fc.pins.map PinComponent.key

/-- The pins that the channel counts of a processor call for: one input pin for each audio
input channel index, one MIDI input pin if and only if the processor accepts MIDI, one
output pin for each audio output channel index, and one MIDI output pin if and only if the
processor produces MIDI. -/
def expectedPinKeys (filterID : Nat) (pr : AudioProcessor) : List (Nat × Int × Bool) :=
  (List.range pr.numInputChannels).map (fun i => (filterID, (i : Int), true))
    ++ (if pr.acceptsMidi then [(filterID, midiChannelNumber, true)] else [])
    ++ (List.range pr.numOutputChannels).map (fun i => (filterID, (i : Int), false))
    ++ (if pr.producesMidi then [(filterID, midiChannelNumber, false)] else [])

/-- The number of input pins of a processor as `update` counts them. -/
def AudioProcessor.totalIns (pr : AudioProcessor) : Int :=
  (pr.numInputChannels : Int) + (if pr.acceptsMidi then 1 else 0)

/-- The number of output pins of a processor as `update` counts them. -/
def AudioProcessor.totalOuts (pr : AudioProcessor) : Int :=
  (pr.numOutputChannels : Int) + (if pr.producesMidi then 1 else 0)

/-- The width that `update` gives the view of a processor. -/
def AudioProcessor.viewWidth (pr : AudioProcessor) : Int :=
  max (max 100 ((max pr.totalIns pr.totalOuts + 1) * 20)) (16 + min pr.nameWidth 300)

/-- The height that `update` gives the view of a processor. -/
def AudioProcessor.viewHeight (pr : AudioProcessor) : Int :=
  if pr.nameWidth > 300 then 100 else 60

/-- The name that `update` gives the view of a processor. -/
def AudioProcessor.viewName (pr : AudioProcessor) : String :=
  match pr.pluginName with
  | some n => n
  | none => pr.name

/-- The view as `update` leaves it just before the test on the pin totals: pin counts
recorded, size, name and position set. -/
def FilterComponent.placed (g : FilterGraph) (parentWidth parentHeight : Int) (f : Node)
    (fc : FilterComponent) : FilterComponent :=
  FilterComponent.setCentreRelative
    { FilterComponent.setSize
        { fc with numIns := f.processor.totalIns, numOuts := f.processor.totalOuts }
        f.processor.viewWidth f.processor.viewHeight with
      name := f.processor.viewName }
    parentWidth parentHeight (g.getNodePosition fc.filterID).1 (g.getNodePosition fc.filterID).2

/-- What the first two loops of `updateComponents` make of a child of the panel `p`: a
node view is updated or deleted, a connector view that is not the draft is refreshed or
deleted, the draft and any other child are left as they are. -/
def GraphEditorPanel.keptChild (g : FilterGraph) (p : GraphEditorPanel) (c : Child) :
    Option Child :=
  match c.comp with
  | .filter fc =>
    (fc.update g p.width p.height).map (fun fc1 => { c with comp := .filter fc1 })
  | .connector cc =>
    if p.draggingConnector = some c.addr then some c
    else if (g.getConnectionBetween cc.sourceFilterID cc.sourceFilterChannel
              cc.destFilterID cc.destFilterChannel).isNone then none
    else some { c with comp := .connector (cc.update (p.updateFilterComponents g)) }
  | .other _ => some c

/-- The addresses of the children are pairwise distinct and all below the next unused
address. -/
def GraphEditorPanel.WellFormed (p : GraphEditorPanel) : Prop :=
  (p.children.map Child.addr).Nodup ∧ ∀ c ∈ p.children, c.addr < p.nextAddr

/-- A child with the layout of a connector view (stored endpoint coordinates and bounds)
set to zero: what remains of a connector view is its address, its endpoint ids and channels,
its tooltip and its member `dragging`; a node view and any other child are left whole. -/
def Child.withoutLayout (c : Child) : Child :=
  match c.comp with
  | .connector cc =>
    { c with
      comp := .connector
        { cc with
          lastInputX := 0, lastInputY := 0, lastOutputX := 0, lastOutputY := 0, bounds := {} } }
  | _ => c

/-- The panel with the layout of its connector views set to zero. -/
def GraphEditorPanel.withoutConnectorLayout (p : GraphEditorPanel) : GraphEditorPanel :=
  { p with children := p.children.map Child.withoutLayout }

/-- The panel after every connector view other than the draft has run `update()`. -/
def GraphEditorPanel.refreshConnectors (p : GraphEditorPanel) : GraphEditorPanel :=
  { p with
    children := p.children.map (fun c =>
      match c.comp with
      | .connector cc =>
        if p.draggingConnector = some c.addr then c
        else { c with comp := .connector (cc.update p) }
      | _ => c) }

/-! ## Example data -/

/-- Node 1: two audio inputs and two audio outputs. -/
def exampleNodeA : Node :=
  { nodeId := 1
    processor := { numInputChannels := 2, numOutputChannels := 2, name := "A", nameWidth := 10 }
    x := 1 / 4, y := 1 / 4 }

/-- Node 2: one audio input, and it accepts MIDI. -/
def exampleNodeB : Node :=
  { nodeId := 2
    processor := { numInputChannels := 1, acceptsMidi := true, name := "B", nameWidth := 10 }
    x := 3 / 4, y := 3 / 4 }

/-- A graph with the nodes 1 and 2 and the connection (1, 0, 2, 0). -/
def exampleGraph : FilterGraph :=
  { nodes := [exampleNodeA, exampleNodeB]
    connections := [ { sourceNodeId := 1, sourceChannelIndex := 0, destNodeId := 2, destChannelIndex := 0 } ]
    lastNodeId := 2 }

/-- The node view of node 1 of `exampleGraph` in a panel of 800 by 600. -/
def exampleViewA : FilterComponent :=
  { filterID := 1, numInputs := 2, numOutputs := 2, numIns := 2, numOuts := 2
    pins :=
      [ { filterID := 1, index := 0, isInput := true, tooltip := "Input 1", bounds := ⟨25, 0, 16, 16⟩ },
        { filterID := 1, index := 1, isInput := true, tooltip := "Input 2", bounds := ⟨59, 0, 16, 16⟩ },
        { filterID := 1, index := 0, isInput := false, tooltip := "Output 1", bounds := ⟨25, 44, 16, 16⟩ },
        { filterID := 1, index := 1, isInput := false, tooltip := "Output 2", bounds := ⟨59, 44, 16, 16⟩ } ]
    bounds := ⟨150, 120, 100, 60⟩
    name := "A" }

/-- The node view of node 2 of `exampleGraph` in a panel of 800 by 600. -/
def exampleViewB : FilterComponent :=
  { filterID := 2, numInputs := 2, numOutputs := 0, numIns := 2, numOuts := 0
    pins :=
      [ { filterID := 2, index := 0, isInput := true, tooltip := "Input 1", bounds := ⟨25, 0, 16, 16⟩ },
        { filterID := 2, index := 4096, isInput := true, tooltip := "MIDI Input", bounds := ⟨59, 0, 16, 16⟩ } ]
    bounds := ⟨550, 420, 100, 60⟩
    name := "B" }

/-- The input pin of channel 0 of `exampleViewB`. -/
def examplePinB0 : PinComponent :=
  { filterID := 2, index := 0, isInput := true, tooltip := "Input 1", bounds := ⟨25, 0, 16, 16⟩ }

/-- A view of node 2 as it was laid out while its processor had two audio inputs and no
MIDI input; in `exampleGraph` the processor has one audio input and accepts MIDI. -/
def exampleStaleView : FilterComponent :=
  { filterID := 2, numInputs := 2, numOutputs := 0, numIns := 2, numOuts := 0
    pins :=
      [ { filterID := 2, index := 0, isInput := true, tooltip := "Input 1", bounds := ⟨25, 0, 16, 16⟩ },
        { filterID := 2, index := 1, isInput := true, tooltip := "Input 2", bounds := ⟨59, 0, 16, 16⟩ } ]
    bounds := ⟨550, 420, 100, 60⟩
    name := "B" }

/-- A draft anchored at the source pin (1, 1): its destination is free. -/
def exampleDraftFromOutput : ConnectorComponent :=
  { sourceFilterID := 1, sourceFilterChannel := 1, destFilterID := 0, destFilterChannel := 1 }

/-- A draft anchored at the destination pin (2, 4096): its source is free. -/
def exampleDraftFromInput : ConnectorComponent :=
  { sourceFilterID := 0, sourceFilterChannel := 4096, destFilterID := 2, destFilterChannel := 4096 }

/-- A panel showing `exampleGraph` with the given draft in progress. -/
def examplePanel (draft : ConnectorComponent) : GraphEditorPanel :=
  { width := 800, height := 600
    children :=
      [ { addr := 0, comp := .filter exampleViewB },
        { addr := 1, comp := .filter exampleViewA },
        { addr := 2, comp := .connector
            { sourceFilterID := 1, destFilterID := 2, lastInputX := 183, lastInputY := 172,
              lastOutputX := 583, lastOutputY := 428, bounds := ⟨179, 168, 408, 264⟩ } },
        { addr := 3, comp := .connector draft } ]
    draggingConnector := some 3
    nextAddr := 4 }

/-- A panel showing `exampleGraph` with no draft in progress. -/
def exampleIdlePanel : GraphEditorPanel :=
  { width := 800, height := 600
    children :=
      [ { addr := 0, comp := .filter exampleViewB },
        { addr := 1, comp := .filter exampleViewA },
        { addr := 2, comp := .connector
            { sourceFilterID := 1, destFilterID := 2, lastInputX := 183, lastInputY := 172,
              lastOutputX := 583, lastOutputY := 428, bounds := ⟨179, 168, 408, 264⟩ } } ]
    nextAddr := 3 }

/-- A panel of 800 by 600 as it is before the first reconciliation: no children. -/
def exampleEmptyPanel : GraphEditorPanel :=
  { width := 800, height := 600 }

/-- A panel that is behind `exampleGraph`: the view of node 2, a view of a node 7 that is
gone, a connector view of the connection (7, 0, 2, 0) that is gone, a connector view of the
connection (1, 0, 2, 0) laid out at the origin, the draft `exampleDraftFromInput`; node 1
has no view. -/
def exampleStalePanel : GraphEditorPanel :=
  { width := 800, height := 600
    children :=
      [ { addr := 0, comp := .filter exampleViewB },
        { addr := 1, comp := .filter { filterID := 7 } },
        { addr := 2, comp := .connector { sourceFilterID := 7, destFilterID := 2 } },
        { addr := 3, comp := .connector { sourceFilterID := 1, destFilterID := 2 } },
        { addr := 4, comp := .connector exampleDraftFromInput } ]
    draggingConnector := some 4
    nextAddr := 5 }

/-- A stand-in for `FilterGraph::addConnection` that records every request. -/
def exampleAddConnection (g : FilterGraph) (s : Nat) (sc : Int) (d : Nat) (dc : Int) :
    FilterGraph :=
  { g with
    connections := g.connections ++
      [ { sourceNodeId := s, sourceChannelIndex := sc, destNodeId := d, destChannelIndex := dc } ] }

/-- A stand-in for `FilterGraph::canConnect`: both ids resolve and differ. -/
def exampleCanConnect (g : FilterGraph) (s : Nat) (_sc : Int) (d : Nat) (_dc : Int) : Bool :=
  (g.getNodeForId s).isSome && (g.getNodeForId d).isSome && s != d

/-! ## Moving node views: the handlers of `FilterComponent` -/

/-- The node view at the address `a`, if a child of the panel is one. -/
def GraphEditorPanel.filterAt (p : GraphEditorPanel) (a : Nat) : Option FilterComponent :=
  p.children.findSome? (fun c =>
    match c.comp with
    | .filter fc => if c.addr = a then some fc else none
    | _ => none)

/-- The panel with the node view at the address `a` replaced by `f` of it. -/
def GraphEditorPanel.modifyFilterAt (p : GraphEditorPanel) (a : Nat)
    (f : FilterComponent → FilterComponent) : GraphEditorPanel :=
  { p with
    children := p.children.map (fun c =>
      match c.comp with
      | .filter fc => if c.addr = a then { c with comp := .filter (f fc) } else c
      | _ => c) }

/-- The items of `getLassoSelection()`, in selection order: `getSelectedItem (i)` for every
`i`. The selection holds pointers to node views; a pointer that designates no node view
among the children cannot be read and is left out. -/
def GraphEditorPanel.getSelectedItems (p : GraphEditorPanel) : List FilterComponent :=
  p.selectedFilters.filterMap p.filterAt

/-- The loop of `FilterComponent::mouseDown` and of `FilterComponent::mouseDrag` over the
selection, as far as the member `filterIsPartofSelectedGroup` goes: it is set when the id
of the view is the id of a selected item, and is left as it is otherwise. -/
def GraphEditorPanel.groupFlag (p : GraphEditorPanel) (fc : FilterComponent) : Bool :=
  fc.filterIsPartofSelectedGroup || p.getSelectedItems.any (fun it => it.filterID == fc.filterID)

/-- The property "colour" of every child set to the empty string. Only the node views read
the property. -/
def GraphEditorPanel.resetColours (p : GraphEditorPanel) : GraphEditorPanel :=
  { p with
    children := p.children.map (fun c =>
      match c.comp with
      | .filter fc => { c with comp := .filter { fc with colour := "" } }
      | _ => c) }

/-- The JUCE `toFront` on the node view at the address `a`: the view moves up to just below
the always-on-top children that end the list. -/
def GraphEditorPanel.filterToFront (p : GraphEditorPanel) (a : Nat) : GraphEditorPanel :=
  match p.children.find? (fun c => !c.isAlwaysOnTop && decide (c.addr = a)) with
  | none => p
  | some this =>
    let top := p.children.reverse.takeWhile Child.isAlwaysOnTop
    let below := p.children.reverse.dropWhile Child.isAlwaysOnTop
    { p with
      children :=
        below.reverse.filter (fun c => !(!c.isAlwaysOnTop && decide (c.addr = a)))
          ++ [this] ++ top.reverse }

/-- The handler `FilterComponent::mouseDown` of the node view at the address `a`.
`removeFilter` and `disconnectFilter` are the methods of `FilterGraph`, which are not among
the sources; `menuResult` is what the popup menu returns when it is shown. The entries of
`selectedFilterCoordinates` are the `getPosition()` of the selected items: the top left
corner of each view in the panel, in pixels. `originalPos` is the top left corner of the
view on the screen. The menu items 3 to 6 open windows or save and load the state of the
processor, which leaves the graph and the panel as they are. -/
def GraphEditorPanel.filterMouseDown (removeFilter disconnectFilter : FilterGraph → Nat → FilterGraph)
    (g : FilterGraph) (p : GraphEditorPanel) (a : Nat) (e : GestureEvent) (menuResult : Int) :
    FilterGraph × GraphEditorPanel :=
  match p.filterAt a with
  | none => (g, p)
  | some fc =>
    let inGroup := p.groupFlag fc
    let p1 : GraphEditorPanel :=
      { p with
        selectedFilterCoordinates := p.getSelectedItems.map (fun it => (it.bounds.x, it.bounds.y)) }
    let p2 : GraphEditorPanel :=
      if !inGroup then { p1.resetColours with selectedFilters := [] } else p1
    let p3 := p2.modifyFilterAt a (fun v =>
      { v with
        filterIsPartofSelectedGroup := inGroup
        originalPos := (p.screenX + v.bounds.x, p.screenY + v.bounds.y) })
    let p4 := p3.filterToFront a
    if e.isPopupMenu then
      if menuResult = 1 then (removeFilter g fc.filterID, p4)
      else if menuResult = 2 then (disconnectFilter g fc.filterID, p4)
      else (g, p4)
    else (g, p4)

/-- The pixel coordinates that `FilterComponent::mouseDrag` of the view `fc` converts, one
triple `(id, cx, cy)` for each call of `graph.setNodePosition`, in call order. In the
group branch the coordinates are the recorded entry of `selectedFilterCoordinates` (the
origin when the list is too short), plus the distance from the start of the drag, plus
half the size of `fc`, the dragged view; in the other branch they are `originalPos` plus
the distance, taken to the coordinates of the panel, plus half the size of `fc`. The
sizes are never negative, so that `/` is the division of C. -/
def GraphEditorPanel.filterDragPixels (p : GraphEditorPanel) (fc : FilterComponent)
    (inGroup : Bool) (e : GestureEvent) : List (Nat × Int × Int) :=
  if inGroup then
    p.getSelectedItems.enum.map (fun it =>
      (it.2.filterID,
       (p.selectedFilterCoordinates.getD it.1 (0, 0)).1 + e.distanceFromDragStartX
         + fc.bounds.w / 2,
       (p.selectedFilterCoordinates.getD it.1 (0, 0)).2 + e.distanceFromDragStartY
         + fc.bounds.h / 2))
  else
    [(fc.filterID,
      fc.originalPos.1 + e.distanceFromDragStartX - p.screenX + fc.bounds.w / 2,
      fc.originalPos.2 + e.distanceFromDragStartY - p.screenY + fc.bounds.h / 2)]

/-- The arguments of the calls of `graph.setNodePosition` that `FilterComponent::mouseDrag`
makes: the pixel coordinates divided by the size of the panel. -/
def GraphEditorPanel.filterDragCalls (p : GraphEditorPanel) (fc : FilterComponent)
    (inGroup : Bool) (e : GestureEvent) : List (Nat × ℚ × ℚ) :=
  (p.filterDragPixels fc inGroup e).map (fun c =>
    (c.1, (c.2.1 : ℚ) / (p.width : ℚ), (c.2.2 : ℚ) / (p.height : ℚ)))

/-- A list of calls of `setNodePosition`, made in order. -/
def applyCalls (setNodePosition : FilterGraph → Nat → ℚ → ℚ → FilterGraph) (g : FilterGraph)
    (calls : List (Nat × ℚ × ℚ)) : FilterGraph :=
  calls.foldl (fun g c => setNodePosition g c.1 c.2.1 c.2.2) g

/-- The handler `FilterComponent::mouseDrag` of the node view at the address `a`.
`setNodePosition` is `FilterGraph::setNodePosition`, which is not among the sources. -/
def GraphEditorPanel.filterMouseDrag
    (setNodePosition : FilterGraph → Nat → ℚ → ℚ → FilterGraph) (g : FilterGraph)
    (p : GraphEditorPanel) (a : Nat) (e : GestureEvent) : FilterGraph × GraphEditorPanel :=
  match p.filterAt a with
  | none => (g, p)
  | some fc =>
    if e.isPopupMenu then (g, p)
    else
      let inGroup := p.groupFlag fc
      let g1 := applyCalls setNodePosition g (p.filterDragCalls fc inGroup e)
      let p1 := p.modifyFilterAt a (fun v => { v with filterIsPartofSelectedGroup := inGroup })
      (g1, p1.updateComponents g1)

/-- The method `FilterComponent::paint`, as far as the state goes: the member
`filterIsPartofSelectedGroup` is reset when the property "colour" has at most one
character. -/
def FilterComponent.paint (fc : FilterComponent) : FilterComponent :=
  if fc.colour.length > 1 then fc else { fc with filterIsPartofSelectedGroup := false }

/-- The fields of a `PluginDescription` that `createNewPlugin` writes. -/
structure PluginDescription where
  fileOrIdentifier : String := ""
  descriptiveName : String := ""
  name : String := ""
  manufacturerName : String := ""
  pluginFormatName : String := ""
  numInputChannels : Int := 0
  numOutputChannels : Int := 0
  deriving DecidableEq, Repr

/-- The method `GraphEditorPanel::createNewPlugin`. `addFilter` is `FilterGraph::addFilter`,
which is not among the sources, and `baseName` is
`File (fileName).getFileNameWithoutExtension()`. -/
def GraphEditorPanel.createNewPlugin
    (addFilter : FilterGraph → PluginDescription → ℚ → ℚ → FilterGraph) (g : FilterGraph)
    (p : GraphEditorPanel) (desc : PluginDescription) (x y : Int) (isNative : Bool)
    (fileName baseName : String) : FilterGraph :=
  if isNative then
    addFilter g
      { fileOrIdentifier := fileName
        descriptiveName := "Cabbage Plugin " ++ baseName
        name := baseName
        manufacturerName := "Cabbage Foundation"
        numInputChannels := 2
        pluginFormatName := "Cabbage"
        numOutputChannels := 2 }
      ((x : ℚ) / (p.width : ℚ)) ((y : ℚ) / (p.height : ℚ))
  else addFilter g desc ((x : ℚ) / (p.width : ℚ)) ((y : ℚ) / (p.height : ℚ))

/-- The colour that `GraphEditorPanel::mouseUp` gives to the selected node views:
`Colours::yellow.toString()`. -/
def selectedColour : String := "ffffff00"

/-- A panel showing `exampleGraph` in which the view of node 1 (at the address 1) is the
only selected item. -/
def exampleSelectionPanel : GraphEditorPanel :=
  { width := 800, height := 600
    children :=
      [ { addr := 0, comp := .filter exampleViewB },
        { addr := 1, comp := .filter { exampleViewA with colour := selectedColour } },
        { addr := 2, comp := .connector
            { sourceFilterID := 1, destFilterID := 2, lastInputX := 183, lastInputY := 172,
              lastOutputX := 583, lastOutputY := 428, bounds := ⟨179, 168, 408, 264⟩ } } ]
    nextAddr := 3
    selectedFilters := [1] }

/-- A stand-in for `FilterGraph::removeFilter` and `FilterGraph::disconnectFilter` that
leaves the graph as it is. -/
def exampleNoOp (g : FilterGraph) (_n : Nat) : FilterGraph := g


/-- The repaint of the panel, as far as the state goes: every node view runs `paint`. -/
def GraphEditorPanel.paintNodeViews (p : GraphEditorPanel) : GraphEditorPanel :=
  { p with
    children := p.children.map (fun c =>
      match c.comp with
      | .filter fc => { c with comp := .filter fc.paint }
      | _ => c) }

/-- A history of gestures on `exampleSelectionPanel`, in which the view of node 1 is
selected: a press on that view; a press on the view of node 2, which is not selected, so
that the selection is emptied and the colours are reset; the repaint of the node views,
when `painted` is set; then a press on the view of node 1 and a drag of 40 pixels to the
right. The result is the graph and the panel after the drag. -/
def exampleStaleFlagGesture (painted : Bool) : FilterGraph × GraphEditorPanel :=
  let s1 := exampleSelectionPanel.filterMouseDown exampleNoOp exampleNoOp exampleGraph 1
    { pos := ⟨200, 150⟩ } 0
  let s2 := s1.2.filterMouseDown exampleNoOp exampleNoOp s1.1 0 { pos := ⟨600, 450⟩ } 0
  let q := if painted then s2.2.paintNodeViews else s2.2
  let s3 := q.filterMouseDown exampleNoOp exampleNoOp s2.1 1 { pos := ⟨200, 150⟩ } 0
  s3.2.filterMouseDrag FilterGraph.setNodePosition s3.1 1
    { pos := ⟨240, 150⟩, distanceFromDragStartX := 40 }


/-- The panel `exampleSelectionPanel` after the press on the selected view of node 1. -/
def examplePressedPanel : GraphEditorPanel :=
  (exampleSelectionPanel.filterMouseDown exampleNoOp exampleNoOp exampleGraph 1
    { pos := ⟨200, 150⟩ } 0).2

/-- No two connections of the graph enter the same destination input: the connections are
pairwise at different `(destNodeId, destChannelIndex)`. -/
def FilterGraph.fanInFree (g : FilterGraph) : Prop :=
  g.connections.Pairwise (fun c1 c2 =>
    ¬ (c1.destNodeId = c2.destNodeId ∧ c1.destChannelIndex = c2.destChannelIndex))

/-- A graph with the nodes 1 and 3, which have audio outputs, the node 2, which has one
audio input, and no connection. -/
def exampleFanInGraph : FilterGraph :=
  { nodes :=
      [ exampleNodeA, exampleNodeB,
        { nodeId := 3
          processor := { numOutputChannels := 2, name := "C", nameWidth := 10 }
          x := 1 / 2, y := 1 / 4 } ]
    connections := []
    lastNodeId := 3 }


/-- A node after a list of calls of the modelled `setNodePosition`, made in order. -/
def Node.afterCalls (calls : List (Nat × ℚ × ℚ)) (f : Node) : Node :=
  calls.foldl (fun f c => if f.nodeId = c.1 then { f with x := c.2.1, y := c.2.2 } else f) f

/-- The graph `g2` differs from the graph `g` at most in the positions of the nodes whose
id is in `ids`. -/
def FilterGraph.sameApartFrom (ids : List Nat) (g g2 : FilterGraph) : Prop :=
  (g2.connections = g.connections ∧ g2.lastNodeId = g.lastNodeId)
    ∧ List.Forall₂ (fun f f2 : Node =>
        f2.nodeId = f.nodeId ∧ f2.processor = f.processor ∧ (f.nodeId ∉ ids → f2 = f))
      g.nodes g2.nodes

/-- The ids of the nodes for which `FilterComponent::mouseDrag` of the view `fc` calls
`setNodePosition`, in call order. -/
def GraphEditorPanel.filterDragIds (p : GraphEditorPanel) (fc : FilterComponent) : List Nat :=
  if p.groupFlag fc then p.getSelectedItems.map FilterComponent.filterID else [fc.filterID]

/-- The panel `q` gives `FilterComponent::mouseDrag` of the view at the address `a` what
the panel `p` gives it: the size and the screen position of the panel, the selection and
the recorded coordinates, the ids of the selected views, and the id, the size, the
`originalPos` and the group membership of the dragged view. -/
def GraphEditorPanel.sameForDrag (a : Nat) (p q : GraphEditorPanel) : Prop :=
  q.width = p.width ∧ q.height = p.height ∧ q.selectedFilters = p.selectedFilters
    ∧ q.selectedFilterCoordinates = p.selectedFilterCoordinates
    ∧ q.screenX = p.screenX ∧ q.screenY = p.screenY
    ∧ (∀ b ∈ p.selectedFilters,
        (q.filterAt b).map FilterComponent.filterID = (p.filterAt b).map FilterComponent.filterID)
    ∧ ∃ v v0, q.filterAt a = some v ∧ p.filterAt a = some v0 ∧ v.filterID = v0.filterID
        ∧ v.bounds.w = v0.bounds.w ∧ v.bounds.h = v0.bounds.h
        ∧ v.originalPos = v0.originalPos ∧ q.groupFlag v = p.groupFlag v0


/-! ## Adding nodes -/

/-- Modelled from the spec: `addNode` (`FilterGraph::addFilter`, defined in
FilterGraph.cpp, which is not among the sources) allocates a fresh unique id, stores the
position and returns the id. The fresh id is the successor of the last id given out. -/
def FilterGraph.addNode (g : FilterGraph) (pr : AudioProcessor) (x y : ℚ) : FilterGraph × Nat :=
  ({ g with
     nodes := g.nodes ++ [{ nodeId := g.lastNodeId + 1, processor := pr, x := x, y := y }]
     lastNodeId := g.lastNodeId + 1 },
   g.lastNodeId + 1)

/-- A sequence of `addNode` calls, made in order: the graph after the calls and the ids
returned, in call order. -/
def FilterGraph.addNodes (g : FilterGraph) (descs : List (AudioProcessor × ℚ × ℚ)) :
    FilterGraph × List Nat :=
  descs.foldl (fun s d => ((s.1.addNode d.1 d.2.1 d.2.2).1, s.2 ++ [(s.1.addNode d.1 d.2.1 d.2.2).2]))
    (g, [])

/-- The ids of the nodes of the graph are not above the last id given out. -/
def FilterGraph.idsAllocated (g : FilterGraph) : Prop :=
  ∀ f ∈ g.nodes, f.nodeId ≤ g.lastNodeId

/-- The constructor `GraphEditorPanel::GraphEditorPanel`, as far as the graph goes: it adds
the audio input, the MIDI input and the audio output filter. `addFilter` is
`FilterGraph::addFilter`, which is not among the sources, and the three processors are
those of the descriptions that `InternalPluginFormat` gives. -/
def GraphEditorPanel.construct (addFilter : FilterGraph → AudioProcessor → ℚ → ℚ → FilterGraph)
    (g : FilterGraph) (audioInputFilter midiInputFilter audioOutputFilter : AudioProcessor) :
    FilterGraph :=
  addFilter
    (addFilter (addFilter g audioInputFilter (1 / 2) (1 / 5)) midiInputFilter (3 / 10) (1 / 5))
    audioOutputFilter (1 / 2) (4 / 5)


/-- Exactly one of the two node ids of the connector view is 0, the marker of a free
end. -/
def ConnectorComponent.hasOneFreeEnd (cc : ConnectorComponent) : Bool :=
  decide (cc.sourceFilterID = 0) != decide (cc.destFilterID = 0)


/-! ## The hit test of a connector view -/

/-- The method `ConnectorComponent::hitTest` at the point `(x, y)` of the connector view's
own coordinates. `hitPathContains` is `hitPath.contains`, the test against the stroked
outline that `resized` builds with the JUCE path classes. The two distances are compared
with 7 through their squares. -/
def ConnectorComponent.hitTest (hostPanel : GraphEditorPanel) (cc : ConnectorComponent)
    (hitPathContains : Int → Int → Bool) (x y : Int) : Bool :=
  if hitPathContains x y then
    decide (49 < (cc.getSquaredDistancesFromEnds hostPanel x y).1)
      && decide (49 < (cc.getSquaredDistancesFromEnds hostPanel x y).2)
  else false

/-! ## The lasso -/

/-- The JUCE `Rectangle::intersects`. -/
def Rectangle.intersects (r other : Rectangle) : Bool :=
  decide (r.x + r.w > other.x) && decide (r.y + r.h > other.y)
    && decide (r.x < other.x + other.w) && decide (r.y < other.y + other.h)
    && decide (r.w > 0) && decide (r.h > 0)

/-- The JUCE `getBounds` of a child of the panel. -/
def Child.bounds (c : Child) : Rectangle :=
  match c.comp with
  | .filter fc => fc.bounds
  | .connector cc => cc.bounds
  | .other b => b

/-- The JUCE `Array::addIfNotAlreadyThere` and `SelectedItemSet::addToSelection`, on a
list of pointers. -/
def addIfNotAlreadyThere (l : List Nat) (a : Nat) : List Nat :=
  if a ∈ l then l else l ++ [a]

/-- The method `GraphEditorPanel::findLassoItemsInArea`: every child but the last is taken
through the cast `(FilterComponent*)`, which does not look at what the child is; when its
bounds intersect the area its pointer is added to `results` and to the selection,
otherwise it is deselected. The result is `results` and the panel after the call. -/
def GraphEditorPanel.findLassoItemsInArea (p : GraphEditorPanel) (results : List Nat)
    (area : Rectangle) : List Nat × GraphEditorPanel :=
  p.children.dropLast.foldl (fun s c =>
      if c.bounds.intersects area then
        (addIfNotAlreadyThere s.1 c.addr,
          { s.2 with selectedFilters := addIfNotAlreadyThere s.2.selectedFilters c.addr })
      else
        (s.1, { s.2 with selectedFilters := s.2.selectedFilters.filter (fun b => b != c.addr) }))
    (results, p)

/-- The idle example panel during a lasso drag over the view of node 1: the lasso overlay,
at the address 3, has the bounds of the dragged area and is below the connector view,
which is always on top. -/
def exampleLassoPanel : GraphEditorPanel :=
  { width := 800, height := 600
    children :=
      [ { addr := 0, comp := .filter exampleViewB },
        { addr := 1, comp := .filter exampleViewA },
        { addr := 3, comp := .other ⟨100, 100, 200, 100⟩ },
        { addr := 2, comp := .connector
            { sourceFilterID := 1, destFilterID := 2, lastInputX := 183, lastInputY := 172,
              lastOutputX := 583, lastOutputY := 428, bounds := ⟨179, 168, 408, 264⟩ } } ]
    nextAddr := 4 }


/-! ## The layout of the pins of a node view -/

/-- The layout slot that `FilterComponent::resized` gives a pin in a view with the totals
`numIns` and `numOuts`: its channel index, or the last slot of its direction for the MIDI
pin. -/
def PinComponent.slot (numIns numOuts : Int) (pc : PinComponent) : Int :=
  if pc.index = midiChannelNumber then (if pc.isInput then numIns else numOuts) - 1
  else pc.index

/-- A node view as the constructor and `update()` leave it: the totals recorded twice
agree, every pin has the bounds that `resized` gives it, the pins of one direction are in
different slots, and a view that has pins has totals that are not negative and is at
least 20 pixels wide for each slot and one more. -/
def FilterComponent.pinsLaidOut (fc : FilterComponent) : Prop :=
  fc.numIns = fc.numInputs ∧ fc.numOuts = fc.numOutputs
    ∧ fc.resized.pins = fc.pins
    ∧ fc.pins.Pairwise (fun a b =>
        a.isInput = b.isInput → a.slot fc.numIns fc.numOuts ≠ b.slot fc.numIns fc.numOuts)
    ∧ (fc.pins ≠ [] →
        0 ≤ fc.numIns ∧ 0 ≤ fc.numOuts ∧ 20 * (max fc.numIns fc.numOuts + 1) ≤ fc.bounds.w)

/-- A node with 4097 audio inputs that accepts MIDI: its last audio input has the index
4096, which is the MIDI channel number. -/
def exampleWideNode : Node :=
  { nodeId := 1
    processor := { numInputChannels := 4097, acceptsMidi := true, name := "W", nameWidth := 10 }
    x := 1 / 2, y := 1 / 2 }

/-- A graph with `exampleWideNode` only. -/
def exampleWideGraph : FilterGraph :=
  { nodes := [exampleWideNode], connections := [], lastNodeId := 1 }


/-! ## Plugin windows -/

/-- The enum `PluginWindow::WindowFormatType`, with the values that `getWindowFor` tests. -/
inductive WindowFormatType where
  | Normal
  | Generic
  | Programs
  | Parameters
  deriving DecidableEq, Repr

/-- The class of an editor component: the editor that the processor creates for itself, a
`GenericAudioProcessorEditor`, or a `ProgramAudioProcessorEditor`. -/
inductive EditorClass where
  | ownEditor
  | GenericAudioProcessorEditor
  | ProgramAudioProcessorEditor
  deriving DecidableEq, Repr

/-- An `AudioProcessorEditor`, as far as `getWindowFor` looks at it. -/
structure AudioProcessorEditor where
  editorClass : EditorClass
  width : Int := 0
  height : Int := 0
  name : String := ""
  deriving DecidableEq, Repr

/-- A `PluginWindow`: its address, the node that owns it (a node pointer is taken to be the
id of the node, ids being unique in a graph), its type and the editor it hosts. -/
structure PluginWindow where
  addr : Nat
  owner : Nat
  type : WindowFormatType
  editor : AudioProcessorEditor
  deriving DecidableEq, Repr

/-- The file-level state of the plugin windows: the static array `activePluginWindows`,
the next free address, and the lines given to `Logger::writeToLog`. -/
structure PluginWindows where
  activePluginWindows : List PluginWindow := []
  nextAddr : Nat := 0
  log : List String := []
  deriving DecidableEq, Repr

/-- The pointers in `activePluginWindows` are distinct: the constructor is the only code
that adds one, and it adds `this`. -/
def PluginWindows.WellFormed (st : PluginWindows) : Prop :=
  (st.activePluginWindows.map (fun w => w.addr)).Nodup

/-- What stops a run: the dereference of a null pointer. -/
inductive Fault where
  | nullPointerDereference
  deriving DecidableEq, Repr

/-- The constructor `PluginWindow::PluginWindow`: the new window is added at the end of
`activePluginWindows`. -/
def PluginWindow.new (st : PluginWindows) (pluginEditor : AudioProcessorEditor) (o : Nat)
    (t : WindowFormatType) : PluginWindow × PluginWindows :=
  let w : PluginWindow := { addr := st.nextAddr, owner := o, type := t, editor := pluginEditor }
  (w, { st with activePluginWindows := st.activePluginWindows ++ [w], nextAddr := st.nextAddr + 1 })

/-- The destructor `PluginWindow::~PluginWindow`: `removeFirstMatchingValue (this)` takes the
first entry with the address of the window out of `activePluginWindows`. -/
def PluginWindow.delete (l : List PluginWindow) (w : PluginWindow) : List PluginWindow :=
  l.eraseP (fun v => v.addr == w.addr)

/-- The loop of `closeCurrentlyOpenWindowsFor`, with `i` the value of the counter before
`--i`: the entry at `i - 1` is deleted when its owner has the id, and the loop goes on
below it. -/
def PluginWindow.closeLoop (nodeId : Nat) : Nat → List PluginWindow → List PluginWindow
  | 0, l => l
  | i + 1, l =>
    match l.get? i with
    | some w =>
      if w.owner = nodeId then PluginWindow.closeLoop nodeId i (PluginWindow.delete l w)
      else PluginWindow.closeLoop nodeId i l
    | none => PluginWindow.closeLoop nodeId i l

/-- The function `PluginWindow::closeCurrentlyOpenWindowsFor`. -/
def PluginWindow.closeCurrentlyOpenWindowsFor (st : PluginWindows) (nodeId : Nat) :
    PluginWindows :=
  { st with
    activePluginWindows :=
      PluginWindow.closeLoop nodeId st.activePluginWindows.length st.activePluginWindows }

/-- The end of `getWindowFor`: the editor for a type that has no editor yet, the name of
the plugin given to the editor, and the new window. -/
def PluginWindow.openWindow (st : PluginWindows) (node : Node) (type : WindowFormatType)
    (ui : Option AudioProcessorEditor) : Option PluginWindow × PluginWindows :=
  let ui1 : Option AudioProcessorEditor :=
    match ui with
    | some e => some e
    | none =>
      if type = .Generic ∨ type = .Parameters then
        some { editorClass := .GenericAudioProcessorEditor }
      else if type = .Programs then
        some { editorClass := .ProgramAudioProcessorEditor }
      else none
  match ui1 with
  | some e =>
    let e1 : AudioProcessorEditor :=
      match node.processor.pluginName with
      | some n => { e with name := n }
      | none => e
    let r := PluginWindow.new st e1 node.nodeId type
    (some r.1, r.2)
  | none => (none, st)

/-- The function `PluginWindow::getWindowFor`. `createEditorIfNeeded` is the JUCE method of
the processor, `none` being the null pointer. The two log lines read `ui->getWidth()` and
`ui->getHeight()` before `ui` is compared with `nullptr`. -/
def PluginWindow.getWindowFor (createEditorIfNeeded : AudioProcessor → Option AudioProcessorEditor)
    (st : PluginWindows) (node : Node) (type : WindowFormatType) :
    Except Fault (Option PluginWindow × PluginWindows) :=
  match st.activePluginWindows.reverse.find?
      (fun w => decide (w.owner = node.nodeId) && decide (w.type = type)) with
  | some w => .ok (some w, st)
  | none =>
    let processor := node.processor
    if type = .Normal then
      let ui := createEditorIfNeeded processor
      match ui with
      | none => .error .nullPointerDereference
      | some e =>
        let st1 : PluginWindows :=
          { st with
            log := st.log ++ ["Width:" ++ toString e.width, "Height:" ++ toString e.height] }
        let type1 : WindowFormatType := if ui = none then .Generic else type
        .ok (PluginWindow.openWindow st1 node type1 ui)
    else
      .ok (PluginWindow.openWindow st node type none)

/-- A processor without an editor of its own. -/
def exampleNoEditor : AudioProcessor → Option AudioProcessorEditor :=
  fun _ => none

/-- A generic window of node 1, already open. -/
def exampleOpenWindows : PluginWindows :=
  { activePluginWindows :=
      [ { addr := 0, owner := 1, type := .Generic
          editor := { editorClass := .GenericAudioProcessorEditor } },
        { addr := 1, owner := 2, type := .Generic
          editor := { editorClass := .GenericAudioProcessorEditor } },
        { addr := 2, owner := 1, type := .Programs
          editor := { editorClass := .ProgramAudioProcessorEditor } } ]
    nextAddr := 3 }


/-! ## The plant editor: `convertIntoPlant` -/

/-- What `convertIntoPlant` reads of a `CabbageGUIType` built from a line of widget text:
the rectangle of `getBounds()` and the numbers of `getNumProp` for `left`, `top`, `width`
and `height`. The class is not among the sources; the function that builds it from a line
is a parameter of the definitions below. -/
structure CabbageGUIType where
  getBounds : Rectangle
  left : Int
  top : Int
  width : Int
  height : Int
  deriving DecidableEq, Repr

/-- The rectangle `bounds` that `convertIntoPlant` computes for the plant from the lines of
`newPlantText`: it starts as `(9999, 9999, -100, -100)` and the four loops move the left
edge, the top edge, the width and the height. -/
def convertIntoPlant_bounds (cAttr : String → CabbageGUIType) (newPlantText : List String) :
    Rectangle :=
  let b0 : Rectangle := { x := 9999, y := 9999, w := -100, h := -100 }
  let b1 := newPlantText.foldl
    (fun (bounds : Rectangle) t =>
      if (cAttr t).getBounds.x < bounds.x then { bounds with x := (cAttr t).getBounds.x }
      else bounds) b0
  let b2 := newPlantText.foldl
    (fun (bounds : Rectangle) t =>
      if (cAttr t).getBounds.y < bounds.y then { bounds with y := (cAttr t).getBounds.y }
      else bounds) b1
  let b3 := newPlantText.foldl
    (fun (bounds : Rectangle) t =>
      if (cAttr t).getBounds.w + (cAttr t).getBounds.x > bounds.x + bounds.w then
        { bounds with w := (cAttr t).getBounds.w + (cAttr t).getBounds.x - bounds.x }
      else bounds) b2
  newPlantText.foldl
    (fun (bounds : Rectangle) t =>
      if (cAttr t).getBounds.h + (cAttr t).getBounds.y > bounds.y + bounds.h then
        { bounds with h := (cAttr t).getBounds.h + (cAttr t).getBounds.y - bounds.y }
      else bounds) b3

/-- The rectangle `newBounds` that `convertIntoPlant` writes into a line of the plant. -/
def convertIntoPlant_newBounds (cAttr : String → CabbageGUIType) (bounds : Rectangle)
    (t : String) : Rectangle :=
  { x := (cAttr t).left - bounds.x, y := (cAttr t).top - bounds.y
    w := (cAttr t).width, h := (cAttr t).height }

/-- The new bounds of all the lines of the plant, in the order of the lines. -/
def convertIntoPlant_allNewBounds (cAttr : String → CabbageGUIType)
    (newPlantText : List String) : List Rectangle :=
  newPlantText.map
    (convertIntoPlant_newBounds cAttr (convertIntoPlant_bounds cAttr newPlantText))

/-- The JUCE `Rectangle::contains (Rectangle)`. -/
def Rectangle.containsRectangle (r other : Rectangle) : Bool :=
  decide (r.x ≤ other.x) && decide (r.y ≤ other.y)
    && decide (r.x + r.w ≥ other.x + other.w) && decide (r.y + r.h ≥ other.y + other.h)

/-- The attributes of three example lines: bounds as written in the line. -/
def exampleAttr : String → CabbageGUIType :=
  fun t =>
    if t = "button bounds(10, 40, 80, 30)" then
      { getBounds := ⟨10, 40, 80, 30⟩, left := 10, top := 40, width := 80, height := 30 }
    else if t = "rslider bounds(120, 20, 60, 60)" then
      { getBounds := ⟨120, 20, 60, 60⟩, left := 120, top := 20, width := 60, height := 60 }
    else if t = "button bounds(10000, 10, 80, 30)" then
      { getBounds := ⟨10000, 10, 80, 30⟩, left := 10000, top := 10, width := 80, height := 30 }
    else
      { getBounds := ⟨0, 0, 0, 0⟩, left := 0, top := 0, width := 0, height := 0 }


/-! ## The z-order of a widget: `sendBack` and `sendForward` -/

/-- The JUCE `String::trim`, on the characters of the string: white space is taken off both
ends. -/
def juceTrim (s : String) : List Char :=
  ((s.toList.dropWhile Char.isWhitespace).reverse.dropWhile Char.isWhitespace).reverse

/-- The test `s.trim().substring (0, n) == lit` of the two loops that look for a line. -/
def trimmedStartIs (s : String) (n : Nat) (lit : String) : Bool :=
  (juceTrim s).take n == lit.toList

/-- The JUCE `StringArray::operator[]`: the empty string for an index that is out of
range. -/
def StringArray.get (a : List String) (i : Nat) : String :=
  a.getD i ""

/-- The JUCE `StringArray::insert`: an index past the end adds the string at the end. -/
def StringArray.insert (a : List String) (i : Nat) (s : String) : List String :=
  if i ≤ a.length then a.take i ++ s :: a.drop i else a ++ [s]

/-- The function `sendBack (toBack)` on the lines of the instrument text, for the line
numbers that `populateLineNumberArray` found: the lines given to `updateCsoundFile`, or
the lines as they were when more than one line is selected. `lineNumbers[0]` is 0 for an
empty array. With `toBack`, the loop inserts the line after the first line whose trimmed
text starts with "form"; without it, the loop runs `i` from `currentLineNumber - 1` down
to 1 and inserts the line before the first line that is not empty. -/
def sendBack (lineNumbers : List Nat) (csdArray : List String) (toBack : Bool) : List String :=
  if lineNumbers.length > 1 then csdArray
  else
    let currentLineNumber := lineNumbers.getD 0 0
    let widgetText := StringArray.get csdArray currentLineNumber
    let csdArray1 := csdArray.eraseIdx currentLineNumber
    if toBack then
      match (List.range csdArray1.length).find?
          (fun i => trimmedStartIs (StringArray.get csdArray1 i) 4 "form") with
      | some i => StringArray.insert csdArray1 (i + 1) widgetText
      | none => csdArray1
    else
      match (List.range' 1 (currentLineNumber - 1)).reverse.find?
          (fun i => !(StringArray.get csdArray1 i).isEmpty) with
      | some i => StringArray.insert csdArray1 i widgetText
      | none => csdArray1

/-- The function `sendForward (toFront)` on the lines of the instrument text. With
`toFront`, the loop inserts the line before the first line whose trimmed text starts with
the closing tag of the Cabbage section; without it, the loop runs `i` from
`currentLineNumber` upwards and inserts the line after the first line that is not blank. -/
def sendForward (lineNumbers : List Nat) (csdArray : List String) (toFront : Bool) :
    List String :=
  if lineNumbers.length > 1 then csdArray
  else
    let currentLineNumber := lineNumbers.getD 0 0
    let widgetText := StringArray.get csdArray currentLineNumber
    let csdArray1 := csdArray.eraseIdx currentLineNumber
    if toFront then
      match (List.range csdArray1.length).find?
          (fun i => trimmedStartIs (StringArray.get csdArray1 i) 10 "</Cabbage>") with
      | some i => StringArray.insert csdArray1 i widgetText
      | none => csdArray1
    else
      match (List.range' currentLineNumber (csdArray1.length - currentLineNumber)).find?
          (fun i => !(juceTrim (StringArray.get csdArray1 i)).isEmpty) with
      | some i => StringArray.insert csdArray1 (i + 1) widgetText
      | none => csdArray1

/-- An instrument text: the Cabbage section with a form and two widgets. -/
def exampleCsdArray : List String :=
  [ "<Cabbage>",
    "form caption(\"Test\") size(400, 300)",
    "button bounds(10, 10, 80, 30)",
    "rslider bounds(120, 20, 60, 60)",
    "</Cabbage>" ]


/-! ## The positions stored by the editor -/

/-- Modelled from the spec: `FilterGraph::addFilter` is defined in FilterGraph.cpp, which is
not among the sources; it creates the processor of the description (`instantiate`) and adds
a node for it with `addNode`, which stores the position as it is given. -/
def FilterGraph.addFilter (instantiate : PluginDescription → AudioProcessor) (g : FilterGraph)
    (desc : PluginDescription) (x y : ℚ) : FilterGraph :=
  (g.addNode (instantiate desc) x y).1

/-- A normalized position is in range: both coordinates are between 0 and 1. -/
def inNormalizedRange (pos : ℚ × ℚ) : Prop :=
  0 ≤ pos.1 ∧ pos.1 ≤ 1 ∧ 0 ≤ pos.2 ∧ pos.2 ≤ 1


/-! ## A gesture on a node view: drag events and repaints -/

/-- What happens between the press and the release of a gesture on a node view: a drag
event reaches `FilterComponent::mouseDrag`, or the repaint that `mouseDown` and
`mouseDrag` have asked for with `repaint()` runs, and the node views run `paint`. The
repaint runs some time after it was asked for, so that a drag event is followed by any
number of repaints, none included. -/
inductive GestureStep where
  | mouseDrag (e : GestureEvent)
  | paint
  deriving DecidableEq, Repr

/-- One step of a gesture on the node view at the address `a`. -/
def GraphEditorPanel.filterGestureStep
    (setNodePosition : FilterGraph → Nat → ℚ → ℚ → FilterGraph) (g : FilterGraph)
    (p : GraphEditorPanel) (a : Nat) : GestureStep → FilterGraph × GraphEditorPanel
  | .mouseDrag e => p.filterMouseDrag setNodePosition g a e
  | .paint => (g, p.paintNodeViews)

/-- The steps of one gesture on the node view at the address `a`, run in turn. -/
def GraphEditorPanel.filterGesture
    (setNodePosition : FilterGraph → Nat → ℚ → ℚ → FilterGraph) (g : FilterGraph)
    (p : GraphEditorPanel) (a : Nat) (steps : List GestureStep) :
    FilterGraph × GraphEditorPanel :=
  steps.foldl (fun s st => GraphEditorPanel.filterGestureStep setNodePosition s.1 s.2 a st) (g, p)

/-- A panel showing `exampleGraph` in which the view of node 2 (at the address 0) is the
only selected item, and the view of node 1 still has its member
`filterIsPartofSelectedGroup` set from an earlier gesture, made while it was selected, its
colour being reset since: no repaint of the view has run after the selection changed. -/
def exampleStaleGroupPanel : GraphEditorPanel :=
  { width := 800, height := 600
    children :=
      [ { addr := 0, comp := .filter { exampleViewB with colour := selectedColour } },
        { addr := 1, comp := .filter { exampleViewA with filterIsPartofSelectedGroup := true } },
        { addr := 2, comp := .connector
            { sourceFilterID := 1, destFilterID := 2, lastInputX := 183, lastInputY := 172,
              lastOutputX := 583, lastOutputY := 428, bounds := ⟨179, 168, 408, 264⟩ } } ]
    nextAddr := 3
    selectedFilters := [0] }

/-- The panel `exampleStaleGroupPanel` after the press on the view of node 1. -/
def exampleStaleGroupPressedPanel : GraphEditorPanel :=
  (exampleStaleGroupPanel.filterMouseDown exampleNoOp exampleNoOp exampleGraph 1
    { pos := ⟨200, 150⟩ } 0).2

/-- The panel after the presses of `exampleStaleFlagGesture` with no repaint: on
`exampleSelectionPanel`, a press on the selected view of node 1, a press on the view of
node 2, which is not selected, and a press on the view of node 1 again. -/
def exampleStalePressedPanel : GraphEditorPanel :=
  (((exampleSelectionPanel.filterMouseDown exampleNoOp exampleNoOp exampleGraph 1
        { pos := ⟨200, 150⟩ } 0).2.filterMouseDown exampleNoOp exampleNoOp exampleGraph 0
        { pos := ⟨600, 450⟩ } 0).2.filterMouseDown exampleNoOp exampleNoOp exampleGraph 1
        { pos := ⟨200, 150⟩ } 0).2


/-! ## Lemmas on the lookups -/

theorem findSome?_bind_filterMap {α β γ : Type} (f : α → Option β) (h : β → Option γ)
    (l : List α) :
    l.findSome? (fun c => (f c).bind h) = (l.filterMap f).findSome? h := by
  induction l with
  | nil => rfl
  | cons c t ih =>
    cases hc : f c with
    | none => simp [List.findSome?_cons, List.filterMap_cons, hc, ih]
    | some b => simp [List.findSome?_cons, List.filterMap_cons, hc, ih]

theorem asFilter_of_onTop (c : Child) (h : c.isAlwaysOnTop = true) : c.asFilter = none := by
  unfold Child.isAlwaysOnTop at h
  unfold Child.asFilter
  cases hc : c.comp <;> simp_all

theorem findPinAt_eq (p : GraphEditorPanel) (x y : Int) :
    p.findPinAt x y
      = (nodeViews p.children).reverse.findSome? (fun fc =>
          (fc.getPinAt (x - fc.bounds.x) (y - fc.bounds.y)).map (fun pin => (fc, pin))) := by
  unfold GraphEditorPanel.findPinAt nodeViews
  rw [← List.filterMap_reverse, ← findSome?_bind_filterMap]
  congr 1
  funext c
  unfold Child.asFilter
  cases c.comp <;> rfl

theorem getComponentForFilter_eq (p : GraphEditorPanel) (uid : Nat) :
    p.getComponentForFilter uid
      = (nodeViews p.children).reverse.findSome? (fun fc =>
          if fc.filterID = uid then some fc else none) := by
  unfold GraphEditorPanel.getComponentForFilter nodeViews
  rw [← List.filterMap_reverse, ← findSome?_bind_filterMap]
  congr 1
  funext c
  unfold Child.asFilter
  cases c.comp <;> rfl

theorem getComponentForConnection_eq (p : GraphEditorPanel) (conn : Connection) :
    p.getComponentForConnection conn
      = (connectorViews p.children).reverse.findSome? (fun cc =>
          if cc.sourceFilterID = conn.sourceNodeId ∧ cc.destFilterID = conn.destNodeId
              ∧ cc.sourceFilterChannel = conn.sourceChannelIndex
              ∧ cc.destFilterChannel = conn.destChannelIndex then some cc
          else none) := by
  unfold GraphEditorPanel.getComponentForConnection connectorViews
  rw [← List.filterMap_reverse, ← findSome?_bind_filterMap]
  congr 1
  funext c
  unfold Child.asConnector
  cases c.comp <;> rfl

theorem nodeViews_filter_onTop (cs : List Child) (q : Child → Bool) :
    nodeViews (cs.filter (fun c => !(c.isAlwaysOnTop && q c))) = nodeViews cs := by
  unfold nodeViews
  rw [List.filterMap_filter]
  apply List.filterMap_congr
  intro c _
  by_cases h : c.isAlwaysOnTop = true
  · simp [asFilter_of_onTop c h]
  · simp [h]

/-! ## The release of a draft -/

/-- C9: every release ends the draft. After `endDraggingConnector` the pointer
`draggingConnector` is null, for every graph, panel, release position and behaviour of
`addConnection`; and `endDraggingConnector` on a panel without a draft returns the graph
and the panel as they are. -/
theorem endDraggingConnector_idle
    (addConnection : FilterGraph → Nat → Int → Nat → Int → FilterGraph)
    (g : FilterGraph) (p : GraphEditorPanel) (e2 : MouseEvent) :
    (p.endDraggingConnector addConnection g e2).2.draggingConnector = none
      ∧ GraphEditorPanel.endDraggingConnector addConnection g
          { p with draggingConnector := none } e2
        = (g, { p with draggingConnector := none }) := by
  constructor
  · unfold GraphEditorPanel.endDraggingConnector
    cases hd : p.draggingConnector with
    | none => simpa using hd
    | some a =>
      simp only
      split
      · rfl
      · split
        · split
          · split <;> rfl
          · split <;> rfl
        · rfl
  · rfl

theorem findPinAt_after_delete (p : GraphEditorPanel) (a : Nat) (x y : Int) :
    GraphEditorPanel.findPinAt
        { p with
          draggingConnector := none
          children := p.children.filter (fun c => !(c.isAlwaysOnTop && decide (c.addr = a))) } x y
      = p.findPinAt x y := by
  rw [findPinAt_eq, findPinAt_eq]
  simp only
  rw [nodeViews_filter_onTop]

theorem endDraggingConnector_graph
    (addConnection : FilterGraph → Nat → Int → Nat → Int → FilterGraph)
    (g : FilterGraph) (p : GraphEditorPanel) (e2 : MouseEvent) (cc : ConnectorComponent)
    (hdraft : p.getDraggingConnector = some cc) :
    (p.endDraggingConnector addConnection g e2).1
      = match p.findPinAt e2.x e2.y with
        | some found =>
          if cc.sourceFilterID = 0 then
            if found.2.isInput then g
            else addConnection g found.2.filterID found.2.index cc.destFilterID cc.destFilterChannel
          else
            if ! found.2.isInput then g
            else addConnection g cc.sourceFilterID cc.sourceFilterChannel found.2.filterID found.2.index
        | none => g := by
  unfold GraphEditorPanel.endDraggingConnector
  cases hd : p.draggingConnector with
  | none => simp [GraphEditorPanel.getDraggingConnector, hd] at hdraft
  | some a =>
    simp only [hdraft, findPinAt_after_delete]
    cases hp : p.findPinAt e2.x e2.y with
    | none => rfl
    | some found =>
      obtain ⟨parent, pin⟩ := found
      simp only
      split
      · split <;> rfl
      · split <;> rfl

/-- C7: commit on release. A draft anchored at a source pin (the draft's source id is not
0) released over an input pin makes `endDraggingConnector` call `addConnection` with the
draft's source id and channel and the pin's `filterID` and `index`; a draft anchored at a
destination pin (the source id is the free marker 0) released over an output pin makes it
call `addConnection` with the pin's `filterID` and `index` and the draft's destination id
and channel. This holds for every behaviour of `addConnection`. -/
theorem endDraggingConnector_commit
    (addConnection : FilterGraph → Nat → Int → Nat → Int → FilterGraph)
    (g : FilterGraph) (p : GraphEditorPanel) (e2 : MouseEvent) (cc : ConnectorComponent)
    (parent : FilterComponent) (pin : PinComponent)
    (hdraft : p.getDraggingConnector = some cc)
    (hpin : p.findPinAt e2.x e2.y = some (parent, pin))
    (hdir : pin.isInput = decide (cc.sourceFilterID ≠ 0)) :
    (p.endDraggingConnector addConnection g e2).1
      = if cc.sourceFilterID = 0 then
          addConnection g pin.filterID pin.index cc.destFilterID cc.destFilterChannel
        else
          addConnection g cc.sourceFilterID cc.sourceFilterChannel pin.filterID pin.index := by
  rw [endDraggingConnector_graph addConnection g p e2 cc hdraft, hpin]
  by_cases h0 : cc.sourceFilterID = 0
  · simp [h0] at hdir
    simp [h0, hdir]
  · simp [h0] at hdir
    simp [h0, hdir]

/-- Witness of C7 (source anchored): the draft from the output pin (1, 1), released over
the input pin (2, 0), requests the connection (1, 1, 2, 0). -/
theorem endDraggingConnector_commit_witness :
    ((examplePanel exampleDraftFromOutput).endDraggingConnector exampleAddConnection
        exampleGraph ⟨580, 425⟩).1
      = exampleAddConnection exampleGraph 1 1 2 0 :=
  endDraggingConnector_commit exampleAddConnection exampleGraph
    (examplePanel exampleDraftFromOutput) ⟨580, 425⟩ exampleDraftFromOutput exampleViewB
    examplePinB0 (by decide) (by decide) (by decide)

/-- C8: silent cancel. A draft released where `findPinAt` finds no pin, or finds a pin of
the same direction as the anchored end (an output pin when the source is anchored, an
input pin when the source id is the free marker 0), leaves the graph as it is, for every
behaviour of `addConnection`: `addConnection` is not called. The function is total and
has no error result. -/
theorem endDraggingConnector_cancel
    (addConnection : FilterGraph → Nat → Int → Nat → Int → FilterGraph)
    (g : FilterGraph) (p : GraphEditorPanel) (e2 : MouseEvent) (cc : ConnectorComponent)
    (hdraft : p.getDraggingConnector = some cc)
    (hcancel : ∀ found, p.findPinAt e2.x e2.y = some found →
      found.2.isInput = decide (cc.sourceFilterID = 0)) :
    (p.endDraggingConnector addConnection g e2).1 = g := by
  rw [endDraggingConnector_graph addConnection g p e2 cc hdraft]
  cases hp : p.findPinAt e2.x e2.y with
  | none => rfl
  | some found =>
    have h := hcancel found hp
    by_cases h0 : cc.sourceFilterID = 0
    · simp [h0] at h
      simp [h0, h]
    · simp [h0] at h
      simp [h0, h]

/-- Witness of C8: the draft from the output pin (1, 1), released over the output pin
(1, 0), requests nothing, although the stand-in `addConnection` would change the graph. -/
theorem endDraggingConnector_cancel_witness :
    ((examplePanel exampleDraftFromOutput).endDraggingConnector exampleAddConnection
        exampleGraph ⟨180, 170⟩).1 = exampleGraph :=
  endDraggingConnector_cancel exampleAddConnection exampleGraph
    (examplePanel exampleDraftFromOutput) ⟨180, 170⟩ exampleDraftFromOutput
    (by decide) (by decide)

/-! ## Dragging a draft -/

theorem findSome?_map_option {α β γ : Type} (f : α → Option β) (h : β → γ) (l : List α) :
    l.findSome? (fun c => (f c).map h) = (l.findSome? f).map h := by
  induction l with
  | nil => rfl
  | cons c t ih =>
    cases hc : f c with
    | none => simp [List.findSome?_cons, hc, ih]
    | some b => simp [List.findSome?_cons, hc]

theorem getDraggingConnector_dragConnector
    (canConnect : FilterGraph → Nat → Int → Nat → Int → Bool)
    (g : FilterGraph) (p : GraphEditorPanel) (e2 : MouseEvent) :
    (p.dragConnector canConnect g e2).getDraggingConnector
      = p.getDraggingConnector.map (p.dragDraft canConnect g e2) := by
  unfold GraphEditorPanel.dragConnector GraphEditorPanel.getDraggingConnector
  cases hd : p.draggingConnector with
  | none => simp [hd]
  | some a =>
    simp only [hd]
    rw [List.findSome?_map, ← findSome?_map_option]
    congr 1
    funext c
    obtain ⟨ca, comp⟩ := c
    simp only [Function.comp]
    cases comp with
    | filter fc => simp
    | connector cc =>
      by_cases ha : ca = a
      · simp [ha]
      · simp [ha]
    | other b => simp

theorem getPoints_fst_of_none (p : GraphEditorPanel) (cc : ConnectorComponent)
    (h : p.getComponentForFilter cc.sourceFilterID = none) :
    (cc.getPoints p).1 = (cc.lastInputX, cc.lastInputY) := by
  simp [ConnectorComponent.getPoints, h]

theorem getPoints_snd_of_none (p : GraphEditorPanel) (cc : ConnectorComponent)
    (h : p.getComponentForFilter cc.destFilterID = none) :
    (cc.getPoints p).2 = (cc.lastOutputX, cc.lastOutputY) := by
  simp [ConnectorComponent.getPoints, h]

theorem resizeToFit_fields (p : GraphEditorPanel) (cc : ConnectorComponent) :
    (cc.resizeToFit p).sourceFilterID = cc.sourceFilterID
      ∧ (cc.resizeToFit p).sourceFilterChannel = cc.sourceFilterChannel
      ∧ (cc.resizeToFit p).destFilterID = cc.destFilterID
      ∧ (cc.resizeToFit p).destFilterChannel = cc.destFilterChannel
      ∧ (cc.resizeToFit p).tooltip = cc.tooltip := by
  unfold ConnectorComponent.resizeToFit ConnectorComponent.resized
  simp only
  split
  · split <;> simp
  · simp

theorem resizeToFit_input_of_none (p : GraphEditorPanel) (cc : ConnectorComponent)
    (h : p.getComponentForFilter cc.sourceFilterID = none) :
    ((cc.resizeToFit p).lastInputX, (cc.resizeToFit p).lastInputY)
      = (cc.lastInputX, cc.lastInputY) := by
  have h1 := getPoints_fst_of_none p cc h
  have h2 : ∀ b : Rectangle, (ConnectorComponent.getPoints p { cc with bounds := b }).1
      = (cc.lastInputX, cc.lastInputY) := by
    intro b
    exact getPoints_fst_of_none p { cc with bounds := b } h
  unfold ConnectorComponent.resizeToFit ConnectorComponent.resized
  simp only
  split
  · split
    · simp only [h2]
    · rfl
  · simp only [h1]

theorem resizeToFit_output_of_none (p : GraphEditorPanel) (cc : ConnectorComponent)
    (h : p.getComponentForFilter cc.destFilterID = none) :
    ((cc.resizeToFit p).lastOutputX, (cc.resizeToFit p).lastOutputY)
      = (cc.lastOutputX, cc.lastOutputY) := by
  have h1 := getPoints_snd_of_none p cc h
  have h2 : ∀ b : Rectangle, (ConnectorComponent.getPoints p { cc with bounds := b }).2
      = (cc.lastOutputX, cc.lastOutputY) := by
    intro b
    exact getPoints_snd_of_none p { cc with bounds := b } h
  unfold ConnectorComponent.resizeToFit ConnectorComponent.resized
  simp only
  split
  · split
    · simp only [h2]
    · rfl
  · simp only [h1]

theorem canConnect_dragTuple (canConnect : FilterGraph → Nat → Int → Nat → Int → Bool)
    (g : FilterGraph) (cc : ConnectorComponent) (pin : PinComponent)
    (hfree : cc.sourceFilterID = 0 ∨ cc.destFilterID = 0)
    (hcan : ∀ s sc d dc, s = 0 ∨ d = 0 → canConnect g s sc d dc = false) :
    canConnect g (dragTuple cc pin).sourceNodeId (dragTuple cc pin).sourceChannelIndex
        (dragTuple cc pin).destNodeId (dragTuple cc pin).destChannelIndex
      = isCompatiblePin canConnect g cc pin := by
  unfold dragTuple isCompatiblePin
  by_cases hs : cc.sourceFilterID = 0
  · cases hi : pin.isInput with
    | false => simp [hs, hi]
    | true =>
      by_cases hd : cc.destFilterID = 0
      · simp [hs, hi, hd, hcan]
      · simp [hs, hi, hd, hcan]
  · have hd : cc.destFilterID = 0 := by
      cases hfree with
      | inl h => exact absurd h hs
      | inr h => exact h
    cases hi : pin.isInput with
    | false => simp [hs, hi, hd, hcan]
    | true => simp [hs, hi, hd]

theorem dragDraft_result (canConnect : FilterGraph → Nat → Int → Nat → Int → Bool)
    (g : FilterGraph) (p : GraphEditorPanel) (e2 : MouseEvent) (cc : ConnectorComponent)
    (hfree : cc.sourceFilterID = 0 ∨ cc.destFilterID = 0)
    (hview : p.getComponentForFilter 0 = none) :
    (p.dragDraft canConnect g e2 cc).floatingEnd
        = (((p.dragTarget canConnect g e2 cc).1.1 : ℚ), ((p.dragTarget canConnect g e2 cc).1.2 : ℚ))
      ∧ (p.dragDraft canConnect g e2 cc).tooltip = (p.dragTarget canConnect g e2 cc).2 := by
  unfold GraphEditorPanel.dragDraft ConnectorComponent.floatingEnd
  by_cases hs : cc.sourceFilterID = 0
  · simp only [hs, if_true]
    unfold ConnectorComponent.dragStart
    constructor
    · rw [(resizeToFit_fields p _).1]
      simp only [hs, if_true]
      rw [resizeToFit_input_of_none p _ (by simpa [hs] using hview)]
    · rw [(resizeToFit_fields p _).2.2.2.2]
  · have hd : cc.destFilterID = 0 := by
      cases hfree with
      | inl h => exact absurd h hs
      | inr h => exact h
    simp only [hs, if_false]
    unfold ConnectorComponent.dragEnd
    constructor
    · rw [(resizeToFit_fields p _).1]
      simp only [hs, if_false]
      rw [resizeToFit_output_of_none p _ (by simpa [hd] using hview)]
    · rw [(resizeToFit_fields p _).2.2.2.2]

/-- C10: snapping while drafting. For a draft with a free end (source id 0 or destination
id 0), in a panel with no node view of id 0 and a `canConnect` that rejects every 4-tuple
with a node id 0, `dragConnector` leaves the draft with: the centre of the pin under the
pointer as floating endpoint and that pin's tooltip, when `findPinAt` returns a pin whose
direction matches the free end and `canConnect` accepts the 4-tuple formed from the
anchored end and the pin; the pointer position relative to the panel and an empty tooltip
in every other case. -/
theorem dragConnector_snap (canConnect : FilterGraph → Nat → Int → Nat → Int → Bool)
    (g : FilterGraph) (p : GraphEditorPanel) (e2 : MouseEvent) (cc : ConnectorComponent)
    (hdraft : p.getDraggingConnector = some cc)
    (hfree : cc.sourceFilterID = 0 ∨ cc.destFilterID = 0)
    (hview : p.getComponentForFilter 0 = none)
    (hcan : ∀ s sc d dc, s = 0 ∨ d = 0 → canConnect g s sc d dc = false) :
    (p.dragConnector canConnect g e2).getDraggingConnector
        = some (p.dragDraft canConnect g e2 cc)
      ∧ ((p.dragDraft canConnect g e2 cc).floatingEnd, (p.dragDraft canConnect g e2 cc).tooltip)
        = match p.findPinAt e2.x e2.y with
          | some found =>
            if isCompatiblePin canConnect g cc found.2 then
              ((((pinCentre found.1 found.2).1 : ℚ), ((pinCentre found.1 found.2).2 : ℚ)),
                found.2.tooltip)
            else (((e2.x : ℚ), (e2.y : ℚ)), "")
          | none => (((e2.x : ℚ), (e2.y : ℚ)), "") := by
  constructor
  · rw [getDraggingConnector_dragConnector, hdraft]
    rfl
  · obtain ⟨h1, h2⟩ := dragDraft_result canConnect g p e2 cc hfree hview
    rw [h1, h2]
    unfold GraphEditorPanel.dragTarget
    cases hp : p.findPinAt e2.x e2.y with
    | none => rfl
    | some found =>
      simp only
      rw [canConnect_dragTuple canConnect g cc found.2 hfree hcan]
      by_cases hc : isCompatiblePin canConnect g cc found.2 = true
      · simp [hc, pinCentre]
      · simp [hc]

theorem exampleCanConnect_zero (g : FilterGraph) (h0 : g.getNodeForId 0 = none)
    (s : Nat) (sc : Int) (d : Nat) (dc : Int) (h : s = 0 ∨ d = 0) :
    exampleCanConnect g s sc d dc = false := by
  unfold exampleCanConnect
  cases h with
  | inl h => subst h; simp [h0]
  | inr h => subst h; simp [h0]

/-- Witness of C10: the draft from the output pin (1, 1) dragged to (580, 425), over the
input pin (2, 0), which `exampleCanConnect` accepts. -/
theorem dragConnector_snap_witness :
    ((examplePanel exampleDraftFromOutput).dragConnector exampleCanConnect exampleGraph
          ⟨580, 425⟩).getDraggingConnector
        = some ((examplePanel exampleDraftFromOutput).dragDraft exampleCanConnect exampleGraph
            ⟨580, 425⟩ exampleDraftFromOutput)
      ∧ (((examplePanel exampleDraftFromOutput).dragDraft exampleCanConnect exampleGraph
            ⟨580, 425⟩ exampleDraftFromOutput).floatingEnd,
          ((examplePanel exampleDraftFromOutput).dragDraft exampleCanConnect exampleGraph
            ⟨580, 425⟩ exampleDraftFromOutput).tooltip)
        = (((583 : ℚ), (428 : ℚ)), "Input 1") := by
  have h := dragConnector_snap exampleCanConnect exampleGraph
    (examplePanel exampleDraftFromOutput) ⟨580, 425⟩ exampleDraftFromOutput
    (by decide) (by decide) (by decide)
    (exampleCanConnect_zero exampleGraph (by decide))
  refine ⟨h.1, h.2.trans ?_⟩
  have hp : (examplePanel exampleDraftFromOutput).findPinAt 580 425
      = some (exampleViewB, examplePinB0) := by decide
  have hc : isCompatiblePin exampleCanConnect exampleGraph exampleDraftFromOutput
      examplePinB0 = true := by decide
  simp only [hp, hc, if_true]
  norm_num [pinCentre, exampleViewB, examplePinB0]

/-! ## The pins of a node view -/

theorem pinKeys_resized (fc : FilterComponent) : fc.resized.pinKeys = fc.pinKeys := by
  simp [FilterComponent.resized, FilterComponent.pinKeys, List.map_map, Function.comp,
    PinComponent.key]

theorem pinKeys_setSize (fc : FilterComponent) (w h : Int) :
    (fc.setSize w h).pinKeys = fc.pinKeys := by
  unfold FilterComponent.setSize
  split
  · rfl
  · rw [pinKeys_resized]
    rfl

theorem key_new (g : FilterGraph) (uid : Nat) (i : Int) (b : Bool) :
    (PinComponent.new g uid i b).key = (uid, i, b) := rfl

theorem pinKeys_makePins (g : FilterGraph) (uid : Nat) (pr : AudioProcessor) :
    (FilterComponent.makePins g uid pr).map PinComponent.key = expectedPinKeys uid pr := by
  unfold FilterComponent.makePins expectedPinKeys
  simp only [List.map_append, List.map_map, Function.comp, key_new]
  congr 1
  · congr 1
    · congr 1
      split <;> simp [key_new]
  · split <;> simp [key_new]

theorem setSize_fields (fc : FilterComponent) (w h : Int) :
    (fc.setSize w h).filterID = fc.filterID ∧ (fc.setSize w h).numInputs = fc.numInputs
      ∧ (fc.setSize w h).numOutputs = fc.numOutputs ∧ (fc.setSize w h).numIns = fc.numIns
      ∧ (fc.setSize w h).numOuts = fc.numOuts ∧ (fc.setSize w h).name = fc.name
      ∧ (fc.setSize w h).bounds = { fc.bounds with w := w, h := h } := by
  unfold FilterComponent.setSize
  split
  · rename_i hwh
    refine ⟨rfl, rfl, rfl, rfl, rfl, rfl, ?_⟩
    rw [← hwh.1, ← hwh.2]
  · exact ⟨rfl, rfl, rfl, rfl, rfl, rfl, rfl⟩

theorem placed_fields (g : FilterGraph) (parentWidth parentHeight : Int) (f : Node)
    (fc : FilterComponent) :
    (fc.placed g parentWidth parentHeight f).filterID = fc.filterID
      ∧ (fc.placed g parentWidth parentHeight f).numInputs = fc.numInputs
      ∧ (fc.placed g parentWidth parentHeight f).numOutputs = fc.numOutputs
      ∧ (fc.placed g parentWidth parentHeight f).numIns = f.processor.totalIns
      ∧ (fc.placed g parentWidth parentHeight f).numOuts = f.processor.totalOuts
      ∧ (fc.placed g parentWidth parentHeight f).name = f.processor.viewName
      ∧ (fc.placed g parentWidth parentHeight f).bounds
          = { x := roundToInt (parentWidth * (g.getNodePosition fc.filterID).1)
                    - f.processor.viewWidth / 2
              y := roundToInt (parentHeight * (g.getNodePosition fc.filterID).2)
                    - f.processor.viewHeight / 2
              w := f.processor.viewWidth
              h := f.processor.viewHeight } := by
  obtain ⟨h1, h2, h3, h4, h5, _, h7⟩ := setSize_fields
    { fc with numIns := f.processor.totalIns, numOuts := f.processor.totalOuts }
    f.processor.viewWidth f.processor.viewHeight
  unfold FilterComponent.placed FilterComponent.setCentreRelative
  simp only [h1, h2, h3, h4, h5, h7]
  exact ⟨trivial, trivial, trivial, trivial, trivial, trivial, trivial⟩

theorem update_of_node (g : FilterGraph) (parentWidth parentHeight : Int)
    (fc : FilterComponent) (f : Node) (hf : g.getNodeForId fc.filterID = some f) :
    fc.update g parentWidth parentHeight
      = some
          (if f.processor.totalIns ≠ fc.numInputs ∨ f.processor.totalOuts ≠ fc.numOutputs then
            FilterComponent.resized
              { fc.placed g parentWidth parentHeight f with
                numInputs := f.processor.totalIns
                numOutputs := f.processor.totalOuts
                pins := FilterComponent.makePins g fc.filterID f.processor }
          else fc.placed g parentWidth parentHeight f) := by
  obtain ⟨_, h2, h3, _⟩ := placed_fields g parentWidth parentHeight f fc
  unfold FilterComponent.update
  simp only [hf]
  change (if f.processor.totalIns ≠ (fc.placed g parentWidth parentHeight f).numInputs
        ∨ f.processor.totalOuts ≠ (fc.placed g parentWidth parentHeight f).numOutputs then _
      else _) = _
  rw [h2, h3]
  by_cases hguard : f.processor.totalIns ≠ fc.numInputs ∨ f.processor.totalOuts ≠ fc.numOutputs
  · rw [if_pos hguard, if_pos hguard]
    rfl
  · rw [if_neg hguard, if_neg hguard]
    rfl

theorem pinKeys_placed (g : FilterGraph) (parentWidth parentHeight : Int) (f : Node)
    (fc : FilterComponent) :
    (fc.placed g parentWidth parentHeight f).pinKeys = fc.pinKeys := by
  unfold FilterComponent.placed FilterComponent.setCentreRelative
  show FilterComponent.pinKeys (FilterComponent.setSize _ _ _) = _
  rw [pinKeys_setSize]
  rfl

/-- C6, amended: the pins of a node view after `update()`. On a view whose node exists,
`update()` keeps the view, and: when the totals recorded in the view (`numInputs`,
`numOutputs`) differ from the current totals of the node (audio channels, plus one for
MIDI), or the view is newly constructed, the pin views are exactly one input pin for each
audio input channel index, one MIDI input pin if and only if the processor accepts MIDI,
one output pin for each audio output channel index, and one MIDI output pin if and only if
the processor produces MIDI; when the recorded totals equal the current totals, the
previous pin set is kept as it is. -/
theorem update_pins (g : FilterGraph) (parentWidth parentHeight : Int) (fc : FilterComponent)
    (f : Node) (hf : g.getNodeForId fc.filterID = some f) :
    (fc.update g parentWidth parentHeight).map FilterComponent.pinKeys
      = some
          (if (f.processor.totalIns ≠ fc.numInputs ∨ f.processor.totalOuts ≠ fc.numOutputs)
              ∨ fc = FilterComponent.new fc.filterID then
            expectedPinKeys fc.filterID f.processor
          else fc.pinKeys) := by
  rw [update_of_node g parentWidth parentHeight fc f hf, Option.map_some']
  congr 1
  by_cases hguard : f.processor.totalIns ≠ fc.numInputs ∨ f.processor.totalOuts ≠ fc.numOutputs
  · rw [if_pos hguard, if_pos (Or.inl hguard), pinKeys_resized]
    exact pinKeys_makePins g fc.filterID f.processor
  · rw [if_neg hguard, pinKeys_placed]
    by_cases hnew : fc = FilterComponent.new fc.filterID
    · rw [if_pos (Or.inr hnew)]
      have hi : fc.numInputs = 0 := by rw [hnew]; rfl
      have ho : fc.numOutputs = 0 := by rw [hnew]; rfl
      have hp : fc.pins = [] := by rw [hnew]; rfl
      have hti : f.processor.totalIns = 0 := by
        by_contra h
        exact hguard (Or.inl (by rw [hi]; exact h))
      have hto : f.processor.totalOuts = 0 := by
        by_contra h
        exact hguard (Or.inr (by rw [ho]; exact h))
      unfold AudioProcessor.totalIns at hti
      unfold AudioProcessor.totalOuts at hto
      have h1 : f.processor.numInputChannels = 0 ∧ f.processor.acceptsMidi = false := by
        cases hm : f.processor.acceptsMidi with
        | false => rw [hm] at hti; exact ⟨by simpa using hti, rfl⟩
        | true => rw [hm] at hti; simp only [if_true] at hti; omega
      have h2 : f.processor.numOutputChannels = 0 ∧ f.processor.producesMidi = false := by
        cases hm : f.processor.producesMidi with
        | false => rw [hm] at hto; exact ⟨by simpa using hto, rfl⟩
        | true => rw [hm] at hto; simp only [if_true] at hto; omega
      simp [FilterComponent.pinKeys, hp, expectedPinKeys, h1.1, h1.2, h2.1, h2.2]
    · rw [if_neg (by tauto)]

/-- Witness of C6 (amended): a newly constructed view of node 1 of `exampleGraph` gets two
input pins and two output pins. -/
theorem update_pins_witness :
    ((FilterComponent.new 1).update exampleGraph 800 600).map FilterComponent.pinKeys
      = some [(1, 0, true), (1, 1, true), (1, 0, false), (1, 1, false)] :=
  (update_pins exampleGraph 800 600 (FilterComponent.new 1) exampleNodeA rfl).trans (by decide)

/-- C6 as stated fails: the view `exampleStaleView` of node 2 records two input pins, and
the processor of node 2 now has one audio input and accepts MIDI, which is two input pins
again. `update()` keeps the pins of the audio inputs 0 and 1, and the view has no MIDI
input pin. -/
theorem update_pins_stale :
    (exampleGraph.getNodeForId 2).map
        (fun f => (f.processor.numInputChannels, f.processor.acceptsMidi,
          expectedPinKeys 2 f.processor))
        = some (1, true, [(2, 0, true), (2, midiChannelNumber, true)])
      ∧ (exampleStaleView.update exampleGraph 800 600).map FilterComponent.pinKeys
        = some [(2, 0, true), (2, 1, true)]
      ∧ (exampleStaleView.update exampleGraph 800 600).map FilterComponent.pinKeys
        ≠ (exampleGraph.getNodeForId 2).map (fun f => expectedPinKeys 2 f.processor) := by
  refine ⟨by decide, ?_, ?_⟩
  · decide
  · decide

/-! ## Adding a child -/

theorem children_split (cs : List Child) :
    cs = (cs.reverse.dropWhile Child.isAlwaysOnTop).reverse
          ++ (cs.reverse.takeWhile Child.isAlwaysOnTop).reverse := by
  have h := List.takeWhile_append_dropWhile Child.isAlwaysOnTop cs.reverse
  have h2 := congrArg List.reverse h
  rw [List.reverse_append, List.reverse_reverse] at h2
  exact h2.symm

theorem mem_addAndMakeVisible (cs : List Child) (c x : Child) :
    x ∈ addAndMakeVisible cs c ↔ x ∈ cs ∨ x = c := by
  unfold addAndMakeVisible
  split
  · simp
  · simp only [List.mem_append, List.mem_cons]
    conv_rhs => rw [children_split cs]
    simp only [List.mem_append]
    tauto

theorem asFilter_top_nil (cs : List Child) :
    nodeViews (cs.reverse.takeWhile Child.isAlwaysOnTop).reverse = [] := by
  unfold nodeViews
  rw [List.filterMap_eq_nil_iff]
  intro c hc
  rw [List.mem_reverse] at hc
  exact asFilter_of_onTop c (List.mem_takeWhile_imp hc)

theorem nodeViews_addAndMakeVisible (cs : List Child) (c : Child) :
    nodeViews (addAndMakeVisible cs c) = nodeViews cs ++ c.asFilter.toList := by
  unfold addAndMakeVisible
  split
  · rename_i h
    simp [nodeViews, asFilter_of_onTop c h]
  · have h1 := asFilter_top_nil cs
    have h2 : nodeViews cs = nodeViews (cs.reverse.dropWhile Child.isAlwaysOnTop).reverse := by
      conv_lhs => rw [children_split cs]
      unfold nodeViews at h1 ⊢
      rw [List.filterMap_append, h1, List.append_nil]
    rw [h2]
    unfold nodeViews at h1 ⊢
    rw [List.filterMap_append, List.filterMap_cons]
    cases hc : c.asFilter with
    | none => simp [h1]
    | some fc => simp [h1]

theorem update_eq_none_iff (g : FilterGraph) (w h : Int) (fc : FilterComponent) :
    fc.update g w h = none ↔ g.getNodeForId fc.filterID = none := by
  cases hf : g.getNodeForId fc.filterID with
  | none => simp [FilterComponent.update, hf]
  | some f => simp [update_of_node g w h fc f hf]

theorem resized_fields (fc : FilterComponent) :
    fc.resized.filterID = fc.filterID ∧ fc.resized.numInputs = fc.numInputs
      ∧ fc.resized.numOutputs = fc.numOutputs ∧ fc.resized.numIns = fc.numIns
      ∧ fc.resized.numOuts = fc.numOuts ∧ fc.resized.name = fc.name
      ∧ fc.resized.bounds = fc.bounds :=
  ⟨rfl, rfl, rfl, rfl, rfl, rfl, rfl⟩

theorem update_fields (g : FilterGraph) (w h : Int) (fc fc1 : FilterComponent) (f : Node)
    (hf : g.getNodeForId fc.filterID = some f) (hu : fc.update g w h = some fc1) :
    fc1.filterID = fc.filterID ∧ fc1.numInputs = f.processor.totalIns
      ∧ fc1.numOutputs = f.processor.totalOuts ∧ fc1.numIns = f.processor.totalIns
      ∧ fc1.numOuts = f.processor.totalOuts ∧ fc1.name = f.processor.viewName
      ∧ fc1.bounds
          = { x := roundToInt (w * (g.getNodePosition fc.filterID).1) - f.processor.viewWidth / 2
              y := roundToInt (h * (g.getNodePosition fc.filterID).2) - f.processor.viewHeight / 2
              w := f.processor.viewWidth
              h := f.processor.viewHeight } := by
  obtain ⟨h1, h2, h3, h4, h5, h6, h7⟩ := placed_fields g w h f fc
  rw [update_of_node g w h fc f hf] at hu
  injection hu with hu
  by_cases hguard : f.processor.totalIns ≠ fc.numInputs ∨ f.processor.totalOuts ≠ fc.numOutputs
  · rw [if_pos hguard] at hu
    subst hu
    exact ⟨h1, rfl, rfl, h4, h5, h6, h7⟩
  · rw [if_neg hguard] at hu
    subst hu
    have h8 : f.processor.totalIns = fc.numInputs := by
      by_contra hne
      exact hguard (Or.inl hne)
    have h9 : f.processor.totalOuts = fc.numOutputs := by
      by_contra hne
      exact hguard (Or.inr hne)
    exact ⟨h1, by rw [h2, h8], by rw [h3, h9], h4, h5, h6, h7⟩

theorem update_filterID (g : FilterGraph) (w h : Int) (fc fc1 : FilterComponent)
    (hu : fc.update g w h = some fc1) : fc1.filterID = fc.filterID := by
  cases hf : g.getNodeForId fc.filterID with
  | none =>
    rw [(update_eq_none_iff g w h fc).mpr hf] at hu
    exact absurd hu (by simp)
  | some f => exact (update_fields g w h fc fc1 f hf hu).1

theorem placed_of_fields (g : FilterGraph) (w h : Int) (f : Node) (fc : FilterComponent)
    (h4 : fc.numIns = f.processor.totalIns) (h5 : fc.numOuts = f.processor.totalOuts)
    (h6 : fc.name = f.processor.viewName)
    (h7 : fc.bounds
          = { x := roundToInt (w * (g.getNodePosition fc.filterID).1) - f.processor.viewWidth / 2
              y := roundToInt (h * (g.getNodePosition fc.filterID).2) - f.processor.viewHeight / 2
              w := f.processor.viewWidth
              h := f.processor.viewHeight }) :
    fc.placed g w h f = fc := by
  have hw : fc.bounds.w = f.processor.viewWidth := by rw [h7]
  have hh : fc.bounds.h = f.processor.viewHeight := by rw [h7]
  have hx : fc.bounds.x
      = roundToInt (w * (g.getNodePosition fc.filterID).1) - f.processor.viewWidth / 2 := by
    rw [h7]
  have hy : fc.bounds.y
      = roundToInt (h * (g.getNodePosition fc.filterID).2) - f.processor.viewHeight / 2 := by
    rw [h7]
  unfold FilterComponent.placed FilterComponent.setCentreRelative FilterComponent.setSize
  simp only [hw, hh, and_self, if_true]
  cases fc with
  | mk uid ni no nis nos pins bounds name grp opos col =>
    cases bounds with
    | mk bx bY bw bh =>
      simp only at h4 h5 h6 hw hh hx hy
      subst h4 h5 h6 hw hh
      simp only [FilterComponent.mk.injEq, Rectangle.mk.injEq, true_and, and_true]
      exact ⟨hx.symm, hy.symm⟩

/-- The result of `update()` is left as it is by a second `update()`. -/
theorem update_idem (g : FilterGraph) (w h : Int) (fc fc1 : FilterComponent)
    (hu : fc.update g w h = some fc1) : fc1.update g w h = some fc1 := by
  cases hf : g.getNodeForId fc.filterID with
  | none =>
    rw [(update_eq_none_iff g w h fc).mpr hf] at hu
    exact absurd hu (by simp)
  | some f =>
    obtain ⟨h1, h2, h3, h4, h5, h6, h7⟩ := update_fields g w h fc fc1 f hf hu
    have hf1 : g.getNodeForId fc1.filterID = some f := by rw [h1]; exact hf
    rw [update_of_node g w h fc1 f hf1]
    have hguard : ¬ (f.processor.totalIns ≠ fc1.numInputs ∨ f.processor.totalOuts ≠ fc1.numOutputs) := by
      rw [h2, h3]
      simp
    rw [if_neg hguard]
    congr 1
    apply placed_of_fields g w h f fc1 h4 h5 h6
    rw [h1]
    exact h7

/-! ## The first two loops of `updateComponents` -/

theorem children_kept (g : FilterGraph) (p : GraphEditorPanel) :
    ((p.updateFilterComponents g).updateConnectorComponents g).children
      = p.children.filterMap (p.keptChild g) := by
  unfold GraphEditorPanel.updateConnectorComponents
  simp only
  conv_lhs =>
    arg 2
    unfold GraphEditorPanel.updateFilterComponents
  simp only
  rw [List.filterMap_filterMap]
  apply List.filterMap_congr
  intro c _
  obtain ⟨a, comp⟩ := c
  unfold GraphEditorPanel.keptChild
  cases comp with
  | filter fc =>
    simp only
    cases fc.update g p.width p.height <;> rfl
  | connector cc => rfl
  | other b => rfl

theorem kept_frame (g : FilterGraph) (p : GraphEditorPanel) :
    ((p.updateFilterComponents g).updateConnectorComponents g).width = p.width
      ∧ ((p.updateFilterComponents g).updateConnectorComponents g).height = p.height
      ∧ ((p.updateFilterComponents g).updateConnectorComponents g).draggingConnector
          = p.draggingConnector
      ∧ ((p.updateFilterComponents g).updateConnectorComponents g).nextAddr = p.nextAddr :=
  ⟨rfl, rfl, rfl, rfl⟩

theorem keptChild_addr (g : FilterGraph) (p : GraphEditorPanel) (c x : Child)
    (h : p.keptChild g c = some x) : x.addr = c.addr := by
  obtain ⟨a, comp⟩ := c
  unfold GraphEditorPanel.keptChild at h
  cases comp with
  | filter fc =>
    simp only at h
    cases hu : fc.update g p.width p.height with
    | none => simp [hu] at h
    | some fc1 =>
      simp [hu] at h
      rw [← h]
  | connector cc =>
    simp only at h
    split at h
    · injection h with h; rw [← h]
    · split at h
      · exact absurd h (by simp)
      · injection h with h; rw [← h]
  | other b =>
    simp only at h
    injection h with h; rw [← h]

theorem keptChild_filter (g : FilterGraph) (p : GraphEditorPanel) (a : Nat)
    (fc : FilterComponent) :
    p.keptChild g ⟨a, .filter fc⟩
      = (fc.update g p.width p.height).map (fun fc1 => ⟨a, .filter fc1⟩) := rfl

theorem keptChild_asFilter (g : FilterGraph) (p : GraphEditorPanel) (c x : Child)
    (fc1 : FilterComponent) (h : p.keptChild g c = some x) (hx : x.comp = .filter fc1) :
    ∃ fc, c = ⟨x.addr, .filter fc⟩ ∧ fc.update g p.width p.height = some fc1 := by
  obtain ⟨a, comp⟩ := c
  unfold GraphEditorPanel.keptChild at h
  cases comp with
  | filter fc =>
    simp only at h
    cases hu : fc.update g p.width p.height with
    | none => simp [hu] at h
    | some fc2 =>
      simp [hu] at h
      subst h
      simp only [Component.filter.injEq] at hx
      subst hx
      exact ⟨fc, rfl, hu⟩
  | connector cc =>
    simp only at h
    split at h
    · injection h with h; subst h; simp at hx
    · split at h
      · exact absurd h (by simp)
      · injection h with h; subst h; simp at hx
  | other b =>
    simp only at h
    injection h with h; subst h; simp at hx

theorem update_tuple (p : GraphEditorPanel) (cc : ConnectorComponent) :
    (cc.update p).tuple = cc.tuple ∧ (cc.update p).tooltip = cc.tooltip := by
  unfold ConnectorComponent.update
  simp only
  split
  · obtain ⟨h1, h2, h3, h4, h5⟩ := resizeToFit_fields p cc
    simp [ConnectorComponent.tuple, h1, h2, h3, h4, h5]
  · exact ⟨rfl, rfl⟩

theorem keptChild_asConnector (g : FilterGraph) (p : GraphEditorPanel) (c x : Child)
    (cc1 : ConnectorComponent) (h : p.keptChild g c = some x) (hx : x.comp = .connector cc1) :
    ∃ cc, c = ⟨x.addr, .connector cc⟩ ∧ cc1.tuple = cc.tuple
      ∧ (p.draggingConnector = some x.addr
          ∨ (g.getConnectionBetween cc.sourceFilterID cc.sourceFilterChannel
              cc.destFilterID cc.destFilterChannel).isSome) := by
  obtain ⟨a, comp⟩ := c
  unfold GraphEditorPanel.keptChild at h
  cases comp with
  | filter fc =>
    simp only at h
    cases hu : fc.update g p.width p.height with
    | none => simp [hu] at h
    | some fc2 =>
      simp [hu] at h
      subst h
      simp at hx
  | connector cc =>
    simp only at h
    split at h
    · rename_i hd
      injection h with h; subst h
      simp only [Component.connector.injEq] at hx
      subst hx
      exact ⟨cc, rfl, rfl, Or.inl hd⟩
    · split at h
      · exact absurd h (by simp)
      · rename_i hc
        injection h with h; subst h
        simp only [Component.connector.injEq] at hx
        subst hx
        refine ⟨cc, rfl, (update_tuple _ cc).1, Or.inr ?_⟩
        cases hg : g.getConnectionBetween cc.sourceFilterID cc.sourceFilterChannel
            cc.destFilterID cc.destFilterChannel with
        | none => simp [hg] at hc
        | some _ => rfl
  | other b =>
    simp only at h
    injection h with h; subst h; simp at hx

theorem getComponentForFilter_isSome_iff (p : GraphEditorPanel) (uid : Nat) :
    (p.getComponentForFilter uid).isSome
      ↔ ∃ x ∈ p.children, ∃ fc, x.comp = .filter fc ∧ fc.filterID = uid := by
  unfold GraphEditorPanel.getComponentForFilter
  rw [List.findSome?_isSome_iff]
  constructor
  · rintro ⟨x, hx, h⟩
    rw [List.mem_reverse] at hx
    refine ⟨x, hx, ?_⟩
    cases hc : x.comp with
    | filter fc =>
      rw [hc] at h
      simp only at h
      by_cases hid : fc.filterID = uid
      · exact ⟨fc, rfl, hid⟩
      · simp [hid] at h
    | connector cc => rw [hc] at h; simp at h
    | other b => rw [hc] at h; simp at h
  · rintro ⟨x, hx, fc, hc, hid⟩
    refine ⟨x, List.mem_reverse.mpr hx, ?_⟩
    rw [hc]
    simp [hid]

theorem getComponentForFilter_eq_none_iff (p : GraphEditorPanel) (uid : Nat) :
    p.getComponentForFilter uid = none
      ↔ ∀ x ∈ p.children, ∀ fc, x.comp = .filter fc → fc.filterID ≠ uid := by
  rw [← Option.not_isSome_iff_eq_none, getComponentForFilter_isSome_iff]
  constructor
  · intro h x hx fc hc hid
    exact h ⟨x, hx, fc, hc, hid⟩
  · rintro h ⟨x, hx, fc, hc, hid⟩
    exact h x hx fc hc hid

theorem getComponentForConnection_isSome_iff (p : GraphEditorPanel) (conn : Connection) :
    (p.getComponentForConnection conn).isSome
      ↔ ∃ x ∈ p.children, ∃ cc, x.comp = .connector cc ∧ cc.tuple = conn := by
  unfold GraphEditorPanel.getComponentForConnection
  rw [List.findSome?_isSome_iff]
  constructor
  · rintro ⟨x, hx, h⟩
    rw [List.mem_reverse] at hx
    refine ⟨x, hx, ?_⟩
    cases hc : x.comp with
    | filter fc => rw [hc] at h; simp at h
    | connector cc =>
      rw [hc] at h
      simp only at h
      split at h
      · rename_i ht
        refine ⟨cc, rfl, ?_⟩
        obtain ⟨conn1, conn2, conn3, conn4⟩ := conn
        simp only at ht
        simp [ConnectorComponent.tuple, ht.1, ht.2.1, ht.2.2.1, ht.2.2.2]
      · simp at h
    | other b => rw [hc] at h; simp at h
  · rintro ⟨x, hx, cc, hc, ht⟩
    refine ⟨x, List.mem_reverse.mpr hx, ?_⟩
    rw [hc]
    subst ht
    simp [ConnectorComponent.tuple]

theorem getComponentForConnection_eq_none_iff (p : GraphEditorPanel) (conn : Connection) :
    p.getComponentForConnection conn = none
      ↔ ∀ x ∈ p.children, ∀ cc, x.comp = .connector cc → cc.tuple ≠ conn := by
  rw [← Option.not_isSome_iff_eq_none, getComponentForConnection_isSome_iff]
  constructor
  · intro h x hx cc hc ht
    exact h ⟨x, hx, cc, hc, ht⟩
  · rintro h ⟨x, hx, cc, hc, ht⟩
    exact h x hx cc hc ht

/-! ## The third loop of `updateComponents` -/

theorem addFilterComponent_frame (g : FilterGraph) (f : Node) (q : GraphEditorPanel) :
    (q.addFilterComponent g f).width = q.width ∧ (q.addFilterComponent g f).height = q.height
      ∧ (q.addFilterComponent g f).draggingConnector = q.draggingConnector
      ∧ q.nextAddr ≤ (q.addFilterComponent g f).nextAddr := by
  unfold GraphEditorPanel.addFilterComponent
  split
  · split
    · exact ⟨rfl, rfl, rfl, Nat.le_succ _⟩
    · exact ⟨rfl, rfl, rfl, Nat.le_succ _⟩
  · exact ⟨rfl, rfl, rfl, Nat.le_refl _⟩

theorem mem_addFilterComponent (g : FilterGraph) (f : Node) (q : GraphEditorPanel) (x : Child) :
    x ∈ (q.addFilterComponent g f).children
      ↔ x ∈ q.children
        ∨ (q.getComponentForFilter f.nodeId = none
            ∧ ∃ fc, (FilterComponent.new f.nodeId).update g q.width q.height = some fc
              ∧ x = ⟨q.nextAddr, .filter fc⟩) := by
  unfold GraphEditorPanel.addFilterComponent
  cases hv : q.getComponentForFilter f.nodeId with
  | some v => simp
  | none =>
    simp only [Option.isNone_none, if_true, true_and]
    cases hu : (FilterComponent.new f.nodeId).update g q.width q.height with
    | none => simp
    | some fc =>
      simp only [mem_addAndMakeVisible, Option.some.injEq]
      constructor
      · rintro (h | h)
        · exact Or.inl h
        · exact Or.inr ⟨fc, rfl, h⟩
      · rintro (h | ⟨fc1, h1, h2⟩)
        · exact Or.inl h
        · subst h1
          exact Or.inr h2

theorem addFilterComponent_nextAddr (g : FilterGraph) (f : Node) (q : GraphEditorPanel)
    (h : q.getComponentForFilter f.nodeId = none) :
    (q.addFilterComponent g f).nextAddr = q.nextAddr + 1 := by
  unfold GraphEditorPanel.addFilterComponent
  rw [h]
  simp only [Option.isNone_none, if_true]
  split <;> rfl

theorem loop3_frame (g : FilterGraph) (ns : List Node) (q : GraphEditorPanel) :
    (ns.foldr (GraphEditorPanel.addFilterComponent g) q).width = q.width
      ∧ (ns.foldr (GraphEditorPanel.addFilterComponent g) q).height = q.height
      ∧ (ns.foldr (GraphEditorPanel.addFilterComponent g) q).draggingConnector
          = q.draggingConnector
      ∧ q.nextAddr ≤ (ns.foldr (GraphEditorPanel.addFilterComponent g) q).nextAddr := by
  induction ns with
  | nil => exact ⟨rfl, rfl, rfl, Nat.le_refl _⟩
  | cons n ns ih =>
    obtain ⟨h1, h2, h3, h4⟩ := ih
    obtain ⟨k1, k2, k3, k4⟩ := addFilterComponent_frame g n
      (ns.foldr (GraphEditorPanel.addFilterComponent g) q)
    rw [List.foldr_cons]
    exact ⟨k1.trans h1, k2.trans h2, k3.trans h3, Nat.le_trans h4 k4⟩

theorem loop3_mono (g : FilterGraph) (ns : List Node) (q : GraphEditorPanel) (x : Child)
    (hx : x ∈ q.children) : x ∈ (ns.foldr (GraphEditorPanel.addFilterComponent g) q).children := by
  induction ns with
  | nil => exact hx
  | cons n ns ih =>
    rw [List.foldr_cons, mem_addFilterComponent]
    exact Or.inl ih

theorem loop3_mem (g : FilterGraph) (ns : List Node) (q : GraphEditorPanel) (x : Child)
    (hx : x ∈ (ns.foldr (GraphEditorPanel.addFilterComponent g) q).children) :
    x ∈ q.children
      ∨ (q.nextAddr ≤ x.addr
          ∧ x.addr < (ns.foldr (GraphEditorPanel.addFilterComponent g) q).nextAddr
          ∧ ∃ fc, x.comp = .filter fc
            ∧ (FilterComponent.new fc.filterID).update g q.width q.height = some fc
            ∧ (∃ f ∈ ns, f.nodeId = fc.filterID)
            ∧ q.getComponentForFilter fc.filterID = none) := by
  induction ns with
  | nil => exact Or.inl hx
  | cons n ns ih =>
    rw [List.foldr_cons, mem_addFilterComponent] at hx
    obtain ⟨k1, k2, k3, k4⟩ := addFilterComponent_frame g n
      (ns.foldr (GraphEditorPanel.addFilterComponent g) q)
    obtain ⟨h1, h2, h3, h4⟩ := loop3_frame g ns q
    rw [List.foldr_cons]
    cases hx with
    | inl hx =>
      cases ih hx with
      | inl h => exact Or.inl h
      | inr h =>
        obtain ⟨a1, a2, fc, a3, a4, ⟨f, a5, a6⟩, a7⟩ := h
        exact Or.inr ⟨a1, Nat.lt_of_lt_of_le a2 k4, fc, a3, a4,
          ⟨f, List.mem_cons_of_mem _ a5, a6⟩, a7⟩
    | inr hx =>
      obtain ⟨hnone, fc, hu, hxe⟩ := hx
      rw [h1, h2] at hu
      have hid : fc.filterID = n.nodeId := update_filterID g _ _ _ fc hu
      have hlt : (ns.foldr (GraphEditorPanel.addFilterComponent g) q).nextAddr
          < ((ns.foldr (GraphEditorPanel.addFilterComponent g) q).addFilterComponent g n).nextAddr := by
        rw [addFilterComponent_nextAddr g n _ hnone]
        exact Nat.lt_succ_self _
      refine Or.inr ⟨?_, ?_, fc, ?_, ?_, ⟨n, List.mem_cons_self _ _, hid.symm⟩, ?_⟩
      · rw [hxe]; exact h4
      · rw [hxe]; exact hlt
      · rw [hxe]
      · rw [hid]; exact hu
      · rw [getComponentForFilter_eq_none_iff] at hnone ⊢
        intro y hy fcy hcy
        rw [hid]
        exact hnone y (loop3_mono g ns q y hy) fcy hcy

theorem getNodeForId_isSome_of_mem (g : FilterGraph) (f : Node) (hf : f ∈ g.nodes) :
    (g.getNodeForId f.nodeId).isSome := by
  unfold FilterGraph.getNodeForId
  rw [List.find?_isSome]
  exact ⟨f, hf, by simp⟩

theorem loop3_cover (g : FilterGraph) (ns : List Node) (q : GraphEditorPanel) (f : Node)
    (hf : f ∈ ns) (hres : (g.getNodeForId f.nodeId).isSome) :
    ((ns.foldr (GraphEditorPanel.addFilterComponent g) q).getComponentForFilter f.nodeId).isSome := by
  induction ns with
  | nil => exact absurd hf (List.not_mem_nil _)
  | cons n ns ih =>
    rw [List.foldr_cons, getComponentForFilter_isSome_iff]
    rcases List.mem_cons.mp hf with h | h
    · subst h
      cases hv : (ns.foldr (GraphEditorPanel.addFilterComponent g) q).getComponentForFilter f.nodeId with
      | some v =>
        have hs : ((ns.foldr (GraphEditorPanel.addFilterComponent g)
            q).getComponentForFilter f.nodeId).isSome := by rw [hv]; rfl
        rw [getComponentForFilter_isSome_iff] at hs
        obtain ⟨x, hx, fc, hc, hid⟩ := hs
        exact ⟨x, (mem_addFilterComponent g f _ x).mpr (Or.inl hx), fc, hc, hid⟩
      | none =>
        cases hu : (FilterComponent.new f.nodeId).update g
            (ns.foldr (GraphEditorPanel.addFilterComponent g) q).width
            (ns.foldr (GraphEditorPanel.addFilterComponent g) q).height with
        | none =>
          rw [update_eq_none_iff] at hu
          have : (FilterComponent.new f.nodeId).filterID = f.nodeId := rfl
          rw [this] at hu
          rw [hu] at hres
          exact absurd hres (by simp)
        | some fc =>
          refine ⟨⟨_, .filter fc⟩, (mem_addFilterComponent g f _ _).mpr
            (Or.inr ⟨hv, fc, hu, rfl⟩), fc, rfl, ?_⟩
          exact update_filterID g _ _ _ fc hu
    · have hs := ih h
      rw [getComponentForFilter_isSome_iff] at hs
      obtain ⟨x, hx, fc, hc, hid⟩ := hs
      exact ⟨x, (mem_addFilterComponent g n _ x).mpr (Or.inl hx), fc, hc, hid⟩

/-! ## The fourth loop of `updateComponents` -/

theorem update_fields_connector (p : GraphEditorPanel) (cc : ConnectorComponent) :
    (cc.update p).sourceFilterID = cc.sourceFilterID
      ∧ (cc.update p).sourceFilterChannel = cc.sourceFilterChannel
      ∧ (cc.update p).destFilterID = cc.destFilterID
      ∧ (cc.update p).destFilterChannel = cc.destFilterChannel := by
  unfold ConnectorComponent.update
  simp only
  split
  · obtain ⟨h1, h2, h3, h4, _⟩ := resizeToFit_fields p cc
    exact ⟨h1, h2, h3, h4⟩
  · exact ⟨rfl, rfl, rfl, rfl⟩

theorem setInput_fields (p : GraphEditorPanel) (cc : ConnectorComponent) (s : Nat) (sc : Int) :
    (cc.setInput p s sc).sourceFilterID = s ∧ (cc.setInput p s sc).sourceFilterChannel = sc
      ∧ (cc.setInput p s sc).destFilterID = cc.destFilterID
      ∧ (cc.setInput p s sc).destFilterChannel = cc.destFilterChannel := by
  unfold ConnectorComponent.setInput
  split
  · obtain ⟨h1, h2, h3, h4⟩ := update_fields_connector p
      { cc with sourceFilterID := s, sourceFilterChannel := sc }
    exact ⟨h1, h2, h3, h4⟩
  · rename_i h
    have h1 : cc.sourceFilterID = s := by
      by_contra hne
      exact h (Or.inl hne)
    have h2 : cc.sourceFilterChannel = sc := by
      by_contra hne
      exact h (Or.inr hne)
    exact ⟨h1, h2, rfl, rfl⟩

theorem setOutput_fields (p : GraphEditorPanel) (cc : ConnectorComponent) (d : Nat) (dc : Int) :
    (cc.setOutput p d dc).sourceFilterID = cc.sourceFilterID
      ∧ (cc.setOutput p d dc).sourceFilterChannel = cc.sourceFilterChannel
      ∧ (cc.setOutput p d dc).destFilterID = d ∧ (cc.setOutput p d dc).destFilterChannel = dc := by
  unfold ConnectorComponent.setOutput
  split
  · obtain ⟨h1, h2, h3, h4⟩ := update_fields_connector p
      { cc with destFilterID := d, destFilterChannel := dc }
    exact ⟨h1, h2, h3, h4⟩
  · rename_i h
    have h1 : cc.destFilterID = d := by
      by_contra hne
      exact h (Or.inl hne)
    have h2 : cc.destFilterChannel = dc := by
      by_contra hne
      exact h (Or.inr hne)
    exact ⟨rfl, rfl, h1, h2⟩

theorem bound_tuple (p : GraphEditorPanel) (cc : ConnectorComponent) (c : Connection) :
    ((cc.setInput p c.sourceNodeId c.sourceChannelIndex).setOutput p c.destNodeId
        c.destChannelIndex).tuple = c := by
  obtain ⟨h1, h2, h3, h4⟩ := setOutput_fields p
    (cc.setInput p c.sourceNodeId c.sourceChannelIndex) c.destNodeId c.destChannelIndex
  obtain ⟨k1, k2, _, _⟩ := setInput_fields p cc c.sourceNodeId c.sourceChannelIndex
  unfold ConnectorComponent.tuple
  rw [h1, h2, h3, h4, k1, k2]

theorem addConnectorComponent_frame (c : Connection) (q : GraphEditorPanel) :
    (q.addConnectorComponent c).width = q.width ∧ (q.addConnectorComponent c).height = q.height
      ∧ (q.addConnectorComponent c).draggingConnector = q.draggingConnector
      ∧ q.nextAddr ≤ (q.addConnectorComponent c).nextAddr := by
  unfold GraphEditorPanel.addConnectorComponent
  split
  · exact ⟨rfl, rfl, rfl, Nat.le_succ _⟩
  · exact ⟨rfl, rfl, rfl, Nat.le_refl _⟩

theorem addConnectorComponent_nextAddr (c : Connection) (q : GraphEditorPanel)
    (h : q.getComponentForConnection c = none) :
    (q.addConnectorComponent c).nextAddr = q.nextAddr + 1 := by
  unfold GraphEditorPanel.addConnectorComponent
  rw [h]
  rfl

theorem mem_addConnectorComponent (c : Connection) (q : GraphEditorPanel) (x : Child) :
    x ∈ (q.addConnectorComponent c).children
      ↔ x ∈ q.children
        ∨ (q.getComponentForConnection c = none
            ∧ x = ⟨q.nextAddr, .connector
                ((({} : ConnectorComponent).setInput q c.sourceNodeId
                  c.sourceChannelIndex).setOutput q c.destNodeId c.destChannelIndex)⟩) := by
  unfold GraphEditorPanel.addConnectorComponent
  cases hv : q.getComponentForConnection c with
  | some v => simp
  | none =>
    simp only [Option.isNone_none, if_true, true_and]
    rw [mem_addAndMakeVisible]

theorem loop4_frame (cs : List Connection) (q : GraphEditorPanel) :
    (cs.foldr GraphEditorPanel.addConnectorComponent q).width = q.width
      ∧ (cs.foldr GraphEditorPanel.addConnectorComponent q).height = q.height
      ∧ (cs.foldr GraphEditorPanel.addConnectorComponent q).draggingConnector
          = q.draggingConnector
      ∧ q.nextAddr ≤ (cs.foldr GraphEditorPanel.addConnectorComponent q).nextAddr := by
  induction cs with
  | nil => exact ⟨rfl, rfl, rfl, Nat.le_refl _⟩
  | cons c cs ih =>
    obtain ⟨h1, h2, h3, h4⟩ := ih
    obtain ⟨k1, k2, k3, k4⟩ := addConnectorComponent_frame c
      (cs.foldr GraphEditorPanel.addConnectorComponent q)
    rw [List.foldr_cons]
    exact ⟨k1.trans h1, k2.trans h2, k3.trans h3, Nat.le_trans h4 k4⟩

theorem loop4_mono (cs : List Connection) (q : GraphEditorPanel) (x : Child)
    (hx : x ∈ q.children) : x ∈ (cs.foldr GraphEditorPanel.addConnectorComponent q).children := by
  induction cs with
  | nil => exact hx
  | cons c cs ih =>
    rw [List.foldr_cons, mem_addConnectorComponent]
    exact Or.inl ih

theorem loop4_mem (cs : List Connection) (q : GraphEditorPanel) (x : Child)
    (hx : x ∈ (cs.foldr GraphEditorPanel.addConnectorComponent q).children) :
    x ∈ q.children
      ∨ (q.nextAddr ≤ x.addr
          ∧ x.addr < (cs.foldr GraphEditorPanel.addConnectorComponent q).nextAddr
          ∧ ∃ cc, x.comp = .connector cc ∧ cc.tuple ∈ cs
            ∧ q.getComponentForConnection cc.tuple = none) := by
  induction cs with
  | nil => exact Or.inl hx
  | cons c cs ih =>
    rw [List.foldr_cons, mem_addConnectorComponent] at hx
    obtain ⟨_, _, _, k4⟩ := addConnectorComponent_frame c
      (cs.foldr GraphEditorPanel.addConnectorComponent q)
    obtain ⟨_, _, _, h4⟩ := loop4_frame cs q
    rw [List.foldr_cons]
    cases hx with
    | inl hx =>
      cases ih hx with
      | inl h => exact Or.inl h
      | inr h =>
        obtain ⟨a1, a2, cc, a3, a4, a5⟩ := h
        exact Or.inr ⟨a1, Nat.lt_of_lt_of_le a2 k4, cc, a3, List.mem_cons_of_mem _ a4, a5⟩
    | inr hx =>
      obtain ⟨hnone, hxe⟩ := hx
      have ht := bound_tuple (cs.foldr GraphEditorPanel.addConnectorComponent q) {} c
      refine Or.inr ⟨?_, ?_,
        (({} : ConnectorComponent).setInput (cs.foldr GraphEditorPanel.addConnectorComponent q)
          c.sourceNodeId c.sourceChannelIndex).setOutput
          (cs.foldr GraphEditorPanel.addConnectorComponent q) c.destNodeId c.destChannelIndex,
        ?_, ?_, ?_⟩
      · rw [hxe]; exact h4
      · rw [hxe, addConnectorComponent_nextAddr c _ hnone]
        exact Nat.lt_succ_self _
      · rw [hxe]
      · rw [ht]; exact List.mem_cons_self _ _
      · rw [ht]
        rw [getComponentForConnection_eq_none_iff] at hnone ⊢
        intro y hy ccy hcy
        exact hnone y (loop4_mono cs q y hy) ccy hcy

theorem loop4_cover (cs : List Connection) (q : GraphEditorPanel) (c : Connection)
    (hc : c ∈ cs) :
    ((cs.foldr GraphEditorPanel.addConnectorComponent q).getComponentForConnection c).isSome := by
  induction cs with
  | nil => exact absurd hc (List.not_mem_nil _)
  | cons c1 cs ih =>
    rw [List.foldr_cons, getComponentForConnection_isSome_iff]
    rcases List.mem_cons.mp hc with h | h
    · subst h
      cases hv : (cs.foldr GraphEditorPanel.addConnectorComponent q).getComponentForConnection c with
      | some v =>
        have hs : ((cs.foldr GraphEditorPanel.addConnectorComponent
            q).getComponentForConnection c).isSome := by rw [hv]; rfl
        rw [getComponentForConnection_isSome_iff] at hs
        obtain ⟨x, hx, cc, hcc, ht⟩ := hs
        exact ⟨x, (mem_addConnectorComponent c _ x).mpr (Or.inl hx), cc, hcc, ht⟩
      | none =>
        exact ⟨_, (mem_addConnectorComponent c _ _).mpr (Or.inr ⟨hv, rfl⟩), _, rfl,
          bound_tuple _ {} c⟩
    · have hs := ih h
      rw [getComponentForConnection_isSome_iff] at hs
      obtain ⟨x, hx, cc, hcc, ht⟩ := hs
      exact ⟨x, (mem_addConnectorComponent c1 _ x).mpr (Or.inl hx), cc, hcc, ht⟩

/-! ## The children after `updateComponents` -/

theorem mem_kept (g : FilterGraph) (p : GraphEditorPanel) (c x : Child) (hc : c ∈ p.children)
    (hk : p.keptChild g c = some x) : x ∈ (p.updateComponents g).children := by
  unfold GraphEditorPanel.updateComponents
  apply loop4_mono
  apply loop3_mono
  rw [children_kept, List.mem_filterMap]
  exact ⟨c, hc, hk⟩

theorem updateComponents_frame (g : FilterGraph) (p : GraphEditorPanel) :
    (p.updateComponents g).width = p.width ∧ (p.updateComponents g).height = p.height
      ∧ (p.updateComponents g).draggingConnector = p.draggingConnector
      ∧ p.nextAddr ≤ (p.updateComponents g).nextAddr := by
  unfold GraphEditorPanel.updateComponents
  obtain ⟨h1, h2, h3, h4⟩ := loop4_frame g.connections
    (g.nodes.foldr (GraphEditorPanel.addFilterComponent g)
      ((p.updateFilterComponents g).updateConnectorComponents g))
  obtain ⟨k1, k2, k3, k4⟩ := loop3_frame g g.nodes
    ((p.updateFilterComponents g).updateConnectorComponents g)
  obtain ⟨m1, m2, m3, m4⟩ := kept_frame g p
  refine ⟨h1.trans (k1.trans m1), h2.trans (k2.trans m2), h3.trans (k3.trans m3), ?_⟩
  rw [m4] at k4
  exact Nat.le_trans k4 h4

/-- Every child after `updateComponents` is a child from before as the first two loops
leave it, or a node view made by the third loop, or a connector view made by the fourth. -/
theorem mem_updateComponents (g : FilterGraph) (p : GraphEditorPanel) (x : Child)
    (hx : x ∈ (p.updateComponents g).children) :
    (∃ c ∈ p.children, p.keptChild g c = some x)
      ∨ (p.nextAddr ≤ x.addr
          ∧ ∃ fc, x.comp = .filter fc
            ∧ (FilterComponent.new fc.filterID).update g p.width p.height = some fc
            ∧ (∃ f ∈ g.nodes, f.nodeId = fc.filterID)
            ∧ ((p.updateFilterComponents g).updateConnectorComponents g).getComponentForFilter
                fc.filterID = none)
      ∨ (p.nextAddr ≤ x.addr
          ∧ ∃ cc, x.comp = .connector cc ∧ cc.tuple ∈ g.connections
            ∧ (g.nodes.foldr (GraphEditorPanel.addFilterComponent g)
                ((p.updateFilterComponents g).updateConnectorComponents g)).getComponentForConnection
                cc.tuple = none) := by
  unfold GraphEditorPanel.updateComponents at hx
  obtain ⟨k1, k2, k3, k4⟩ := loop3_frame g g.nodes
    ((p.updateFilterComponents g).updateConnectorComponents g)
  obtain ⟨m1, m2, m3, m4⟩ := kept_frame g p
  rcases loop4_mem g.connections _ x hx with h | h
  · rcases loop3_mem g g.nodes _ x h with h | h
    · rw [children_kept, List.mem_filterMap] at h
      exact Or.inl h
    · obtain ⟨a1, _, fc, a3, a4, a5, a6⟩ := h
      rw [m4] at a1
      rw [m1, m2] at a4
      exact Or.inr (Or.inl ⟨a1, fc, a3, a4, a5, a6⟩)
  · obtain ⟨a1, _, cc, a3, a4, a5⟩ := h
    rw [m4] at k4
    exact Or.inr (Or.inr ⟨Nat.le_trans k4 a1, cc, a3, a4, a5⟩)

theorem wellFormed_unique (p : GraphEditorPanel) (hwf : p.WellFormed) (c1 c2 : Child)
    (h1 : c1 ∈ p.children) (h2 : c2 ∈ p.children) (h : c1.addr = c2.addr) : c1 = c2 :=
  List.inj_on_of_nodup_map hwf.1 h1 h2 h

theorem getConnectionBetween_isSome_iff (g : FilterGraph) (c : Connection) :
    (g.getConnectionBetween c.sourceNodeId c.sourceChannelIndex c.destNodeId
        c.destChannelIndex).isSome ↔ c ∈ g.connections := by
  unfold FilterGraph.getConnectionBetween
  rw [List.find?_isSome]
  constructor
  · rintro ⟨x, hx, h⟩
    simp only [Bool.and_eq_true, beq_iff_eq] at h
    obtain ⟨⟨⟨h1, h2⟩, h3⟩, h4⟩ := h
    have : x = c := by
      cases x; cases c
      simp only at h1 h2 h3 h4
      subst h1 h2 h3 h4
      rfl
    rw [← this]
    exact hx
  · intro h
    exact ⟨c, h, by simp⟩

theorem kept_filter_none_iff (g : FilterGraph) (p : GraphEditorPanel) (uid : Nat)
    (hres : (g.getNodeForId uid).isSome) :
    ((p.updateFilterComponents g).updateConnectorComponents g).getComponentForFilter uid = none
      ↔ p.getComponentForFilter uid = none := by
  rw [getComponentForFilter_eq_none_iff, getComponentForFilter_eq_none_iff, children_kept]
  constructor
  · intro h x hx fc hc hid
    have hx2 : x = ⟨x.addr, .filter fc⟩ := by cases x; simp only at hc; rw [hc]
    cases hu : fc.update g p.width p.height with
    | none =>
      rw [update_eq_none_iff, hid] at hu
      rw [hu] at hres
      exact absurd hres (by simp)
    | some fc1 =>
      have hk : p.keptChild g x = some ⟨x.addr, .filter fc1⟩ := by
        rw [hx2, keptChild_filter, hu]
        rfl
      have := h ⟨x.addr, .filter fc1⟩ (List.mem_filterMap.mpr ⟨x, hx, hk⟩) fc1 rfl
      exact this ((update_filterID g _ _ fc fc1 hu).trans hid)
  · intro h x hx fc1 hc hid
    rw [List.mem_filterMap] at hx
    obtain ⟨c, hcm, hk⟩ := hx
    obtain ⟨fc, hce, hu⟩ := keptChild_asFilter g p c x fc1 hk hc
    refine h c hcm fc (by rw [hce]) ?_
    rw [← update_filterID g _ _ fc fc1 hu]
    exact hid

theorem loop3_connection_none_iff (g : FilterGraph) (ns : List Node) (q : GraphEditorPanel)
    (t : Connection) :
    (ns.foldr (GraphEditorPanel.addFilterComponent g) q).getComponentForConnection t = none
      ↔ q.getComponentForConnection t = none := by
  rw [getComponentForConnection_eq_none_iff, getComponentForConnection_eq_none_iff]
  constructor
  · intro h x hx cc hc
    exact h x (loop3_mono g ns q x hx) cc hc
  · intro h x hx cc hc
    rcases loop3_mem g ns q x hx with hm | ⟨_, _, fc, hfc, _⟩
    · exact h x hm cc hc
    · rw [hc] at hfc
      exact absurd hfc (by simp)

theorem kept_connection_none_iff (g : FilterGraph) (p : GraphEditorPanel) (t : Connection)
    (ht : t ∈ g.connections) :
    ((p.updateFilterComponents g).updateConnectorComponents g).getComponentForConnection t = none
      ↔ p.getComponentForConnection t = none := by
  rw [getComponentForConnection_eq_none_iff, getComponentForConnection_eq_none_iff, children_kept]
  constructor
  · intro h x hx cc hc htc
    have hx2 : x = ⟨x.addr, .connector cc⟩ := by cases x; simp only at hc; rw [hc]
    have hsome : (g.getConnectionBetween cc.sourceFilterID cc.sourceFilterChannel
        cc.destFilterID cc.destFilterChannel).isSome := by
      have := (getConnectionBetween_isSome_iff g t).mpr ht
      rw [← htc] at this
      exact this
    by_cases hd : p.draggingConnector = some x.addr
    · have hk : p.keptChild g x = some x := by
        rw [hx2]
        unfold GraphEditorPanel.keptChild
        simp only [hd, if_true]
      exact h x (List.mem_filterMap.mpr ⟨x, hx, hk⟩) cc hc htc
    · have hk : p.keptChild g x
          = some ⟨x.addr, .connector (cc.update (p.updateFilterComponents g))⟩ := by
        rw [hx2]
        unfold GraphEditorPanel.keptChild
        simp only [hd, if_false]
        cases hg : g.getConnectionBetween cc.sourceFilterID cc.sourceFilterChannel
            cc.destFilterID cc.destFilterChannel with
        | none => rw [hg] at hsome; exact absurd hsome (by simp)
        | some _ => rfl
      exact h _ (List.mem_filterMap.mpr ⟨x, hx, hk⟩) _ rfl
        ((update_tuple _ cc).1.trans htc)
  · intro h x hx cc1 hc htc
    rw [List.mem_filterMap] at hx
    obtain ⟨c, hcm, hk⟩ := hx
    obtain ⟨cc, hce, htup, _⟩ := keptChild_asConnector g p c x cc1 hk hc
    exact h c hcm cc (by rw [hce]) (htup.symm.trans htc)

/-! ## Reconciliation of the node views and of the connector views -/

/-- C2: stale node views are destroyed, not reported. In a well-formed panel, for a node
view at address `a`: after `updateComponents` every node view has an id that resolves in
the graph; when the id of the view at `a` resolves, the view is still a child at address
`a`, as `update()` leaves it; when it does not resolve, no child has address `a` any more.
`updateComponents` is total and has no error result. -/
theorem updateComponents_node_view (g : FilterGraph) (p : GraphEditorPanel) (a : Nat)
    (fc : FilterComponent) (hwf : p.WellFormed)
    (hmem : (⟨a, .filter fc⟩ : Child) ∈ p.children) :
    (∀ x ∈ (p.updateComponents g).children, ∀ v, x.comp = .filter v →
        (g.getNodeForId v.filterID).isSome)
      ∧ (if (g.getNodeForId fc.filterID).isSome then
          ∃ fc1, fc.update g p.width p.height = some fc1
            ∧ (⟨a, .filter fc1⟩ : Child) ∈ (p.updateComponents g).children
        else ∀ x ∈ (p.updateComponents g).children, x.addr ≠ a) := by
  constructor
  · intro x hx v hv
    rcases mem_updateComponents g p x hx with ⟨c, _, hk⟩ | ⟨_, fc1, h1, _, ⟨f, hf, hid⟩, _⟩
        | ⟨_, cc, h1, _⟩
    · obtain ⟨fc0, _, hu⟩ := keptChild_asFilter g p c x v hk hv
      have hne : g.getNodeForId fc0.filterID ≠ none := by
        intro hnone
        rw [(update_eq_none_iff g _ _ fc0).mpr hnone] at hu
        exact absurd hu (by simp)
      rw [update_filterID g _ _ fc0 v hu]
      exact Option.ne_none_iff_isSome.mp hne
    · rw [hv] at h1
      simp only [Component.filter.injEq] at h1
      rw [h1, ← hid]
      exact getNodeForId_isSome_of_mem g f hf
    · rw [hv] at h1
      exact absurd h1 (by simp)
  · by_cases hres : (g.getNodeForId fc.filterID).isSome
    · rw [if_pos hres]
      cases hu : fc.update g p.width p.height with
      | none =>
        rw [update_eq_none_iff] at hu
        rw [hu] at hres
        exact absurd hres (by simp)
      | some fc1 =>
        refine ⟨fc1, rfl, mem_kept g p _ _ hmem ?_⟩
        rw [keptChild_filter, hu]
        rfl
    · rw [if_neg hres]
      intro x hx hxa
      rcases mem_updateComponents g p x hx with ⟨c, hc, hk⟩ | ⟨hge, _⟩ | ⟨hge, _⟩
      · have hca : c.addr = a := (keptChild_addr g p c x hk).symm.trans hxa
        have hceq : c = ⟨a, .filter fc⟩ := wellFormed_unique p hwf _ _ hc hmem hca
        rw [hceq, keptChild_filter] at hk
        have hnone : fc.update g p.width p.height = none := by
          rw [update_eq_none_iff]
          exact Option.not_isSome_iff_eq_none.mp hres
        rw [hnone] at hk
        exact absurd hk (by simp)
      · have := hwf.2 _ hmem
        simp only at this
        omega
      · have := hwf.2 _ hmem
        simp only at this
        omega

/-- C3: reconciliation of the connector views. In a well-formed panel, for a connector
view at address `a`: when it is the draft (`draggingConnector`), it is still a child after
`updateComponents`, unchanged, whatever the graph contains; otherwise, when
`getConnectionBetween` finds a connection with its 4-tuple, it is still a child at address
`a`, refreshed by `update()`, and when `getConnectionBetween` finds none, no child has
address `a` any more. -/
theorem updateComponents_connector_view (g : FilterGraph) (p : GraphEditorPanel) (a : Nat)
    (cc : ConnectorComponent) (hwf : p.WellFormed)
    (hmem : (⟨a, .connector cc⟩ : Child) ∈ p.children) :
    if p.draggingConnector = some a then
      (⟨a, .connector cc⟩ : Child) ∈ (p.updateComponents g).children
    else if (g.getConnectionBetween cc.sourceFilterID cc.sourceFilterChannel cc.destFilterID
        cc.destFilterChannel).isSome then
      (⟨a, .connector (cc.update (p.updateFilterComponents g))⟩ : Child)
        ∈ (p.updateComponents g).children
    else ∀ x ∈ (p.updateComponents g).children, x.addr ≠ a := by
  by_cases hd : p.draggingConnector = some a
  · rw [if_pos hd]
    apply mem_kept g p _ _ hmem
    unfold GraphEditorPanel.keptChild
    simp only [hd, if_true]
  · rw [if_neg hd]
    cases hg : g.getConnectionBetween cc.sourceFilterID cc.sourceFilterChannel cc.destFilterID
        cc.destFilterChannel with
    | some conn =>
      simp only [Option.isSome_some, if_true]
      apply mem_kept g p _ _ hmem
      unfold GraphEditorPanel.keptChild
      simp only [hd, if_false, hg]
      rfl
    | none =>
      simp only [Option.isSome_none, Bool.false_eq_true, if_false]
      intro x hx hxa
      rcases mem_updateComponents g p x hx with ⟨c, hc, hk⟩ | ⟨hge, _⟩ | ⟨hge, _⟩
      · have hca : c.addr = a := (keptChild_addr g p c x hk).symm.trans hxa
        have hceq : c = ⟨a, .connector cc⟩ := wellFormed_unique p hwf _ _ hc hmem hca
        rw [hceq] at hk
        unfold GraphEditorPanel.keptChild at hk
        simp only [hd, if_false, hg] at hk
        exact absurd hk (by simp)
      · have := hwf.2 _ hmem
        simp only at this
        omega
      · have := hwf.2 _ hmem
        simp only at this
        omega

/-- Witness of C2: in `exampleStalePanel` the view at address 1 is the view of node 7, which
`exampleGraph` does not have; after `updateComponents` no child has address 1. -/
theorem updateComponents_node_view_witness :
    (∀ x ∈ (exampleStalePanel.updateComponents exampleGraph).children, ∀ v,
        x.comp = .filter v → (exampleGraph.getNodeForId v.filterID).isSome)
      ∧ ∀ x ∈ (exampleStalePanel.updateComponents exampleGraph).children, x.addr ≠ 1 := by
  have h := updateComponents_node_view exampleGraph exampleStalePanel 1 { filterID := 7 }
    ⟨by decide, by decide⟩ (by decide)
  refine ⟨h.1, ?_⟩
  have h2 := h.2
  rw [if_neg (by decide)] at h2
  exact h2

/-- Witness of C3: in `exampleStalePanel` the connector view at address 2 is bound to
(7, 0, 2, 0), is not the draft, and `exampleGraph` has no such connection; after
`updateComponents` no child has address 2. -/
theorem updateComponents_connector_view_witness :
    (exampleStalePanel.updateComponents exampleGraph).children.filter
      (fun x => decide (x.addr = 2)) = [] := by
  have h := updateComponents_connector_view exampleGraph exampleStalePanel 2
    { sourceFilterID := 7, destFilterID := 2 } ⟨by decide, by decide⟩ (by decide)
  rw [if_neg (by decide), if_neg (by decide)] at h
  rw [List.filter_eq_nil_iff]
  intro x hx
  simpa using h x hx

/-! ## Counting the node views of one id -/

theorem mem_nodeViews (cs : List Child) (v : FilterComponent) :
    v ∈ nodeViews cs ↔ ∃ x ∈ cs, x.comp = .filter v := by
  unfold nodeViews
  rw [List.mem_filterMap]
  constructor
  · rintro ⟨x, hx, h⟩
    refine ⟨x, hx, ?_⟩
    unfold Child.asFilter at h
    cases hc : x.comp with
    | filter fc => rw [hc] at h; simp only [Option.some.injEq] at h; rw [h]
    | connector cc => rw [hc] at h; simp at h
    | other b => rw [hc] at h; simp at h
  · rintro ⟨x, hx, h⟩
    refine ⟨x, hx, ?_⟩
    unfold Child.asFilter
    rw [h]

theorem nodeViews_kept (g : FilterGraph) (p : GraphEditorPanel) :
    nodeViews ((p.updateFilterComponents g).updateConnectorComponents g).children
      = (nodeViews p.children).filterMap (FilterComponent.update g p.width p.height) := by
  rw [children_kept]
  unfold nodeViews
  rw [List.filterMap_filterMap, List.filterMap_filterMap]
  apply List.filterMap_congr
  intro c _
  obtain ⟨a, comp⟩ := c
  cases comp with
  | filter fc =>
    simp only [keptChild_filter, Child.asFilter, Option.some_bind]
    cases fc.update g p.width p.height <;> rfl
  | connector cc =>
    unfold GraphEditorPanel.keptChild
    simp only [Child.asFilter, Option.none_bind]
    split
    · rfl
    · split <;> rfl
  | other b => rfl

theorem countP_filterMap_update_le (g : FilterGraph) (w h : Int) (uid : Nat)
    (l : List FilterComponent) :
    (l.filterMap (FilterComponent.update g w h)).countP (fun v => decide (v.filterID = uid))
      ≤ l.countP (fun v => decide (v.filterID = uid)) := by
  induction l with
  | nil => simp
  | cons fc t ih =>
    cases hu : fc.update g w h with
    | none =>
      rw [List.filterMap_cons_none hu, List.countP_cons]
      omega
    | some fc1 =>
      have hid := update_filterID g w h fc fc1 hu
      rw [List.filterMap_cons_some hu, List.countP_cons, List.countP_cons]
      simp only [hid]
      omega

theorem nodeViews_addFilterComponent (g : FilterGraph) (f : Node) (q : GraphEditorPanel) :
    nodeViews (q.addFilterComponent g f).children
      = nodeViews q.children
          ++ (if q.getComponentForFilter f.nodeId = none then
                ((FilterComponent.new f.nodeId).update g q.width q.height).toList
              else []) := by
  unfold GraphEditorPanel.addFilterComponent
  cases hv : q.getComponentForFilter f.nodeId with
  | some v => simp
  | none =>
    simp only [Option.isNone_none, if_true]
    cases hu : (FilterComponent.new f.nodeId).update g q.width q.height with
    | none => simp
    | some fc =>
      simp only [nodeViews_addAndMakeVisible]
      rfl

theorem nodeViews_addConnectorComponent (c : Connection) (q : GraphEditorPanel) :
    nodeViews (q.addConnectorComponent c).children = nodeViews q.children := by
  unfold GraphEditorPanel.addConnectorComponent
  split
  · simp only [nodeViews_addAndMakeVisible]
    simp [Child.asFilter]
  · rfl

theorem nodeViews_loop4 (cs : List Connection) (q : GraphEditorPanel) :
    nodeViews (cs.foldr GraphEditorPanel.addConnectorComponent q).children
      = nodeViews q.children := by
  induction cs with
  | nil => rfl
  | cons c cs ih => rw [List.foldr_cons, nodeViews_addConnectorComponent, ih]

theorem getComponentForFilter_none_iff_count (q : GraphEditorPanel) (uid : Nat) :
    q.getComponentForFilter uid = none
      ↔ (nodeViews q.children).countP (fun v => decide (v.filterID = uid)) = 0 := by
  rw [getComponentForFilter_eq_none_iff, List.countP_eq_zero]
  constructor
  · intro h v hv
    rw [mem_nodeViews] at hv
    obtain ⟨x, hx, hc⟩ := hv
    simpa using h x hx v hc
  · intro h x hx fc hc
    have := h fc ((mem_nodeViews _ _).mpr ⟨x, hx, hc⟩)
    simpa using this

theorem loop3_count (g : FilterGraph) (ns : List Node) (q : GraphEditorPanel)
    (hq : ∀ uid, (nodeViews q.children).countP (fun v => decide (v.filterID = uid)) ≤ 1)
    (uid : Nat) :
    (nodeViews (ns.foldr (GraphEditorPanel.addFilterComponent g) q).children).countP
        (fun v => decide (v.filterID = uid)) ≤ 1 := by
  induction ns generalizing uid with
  | nil => exact hq uid
  | cons n ns ih =>
    rw [List.foldr_cons, nodeViews_addFilterComponent, List.countP_append]
    by_cases hnone : (ns.foldr (GraphEditorPanel.addFilterComponent g)
        q).getComponentForFilter n.nodeId = none
    · rw [if_pos hnone]
      cases hu : (FilterComponent.new n.nodeId).update g
          (ns.foldr (GraphEditorPanel.addFilterComponent g) q).width
          (ns.foldr (GraphEditorPanel.addFilterComponent g) q).height with
      | none =>
        simp only [Option.toList, List.countP_nil, Nat.add_zero]
        exact ih uid
      | some fc =>
        have hid : fc.filterID = n.nodeId := update_filterID g _ _ _ fc hu
        simp only [Option.toList, List.countP_cons, List.countP_nil, Nat.zero_add]
        by_cases he : fc.filterID = uid
        · have h0 := (getComponentForFilter_none_iff_count _ _).mp hnone
          rw [← hid, he] at h0
          simp [he, h0]
        · simp only [he, decide_False, Bool.false_eq_true, if_false, Nat.add_zero]
          exact ih uid
    · rw [if_neg hnone]
      simp only [List.countP_nil, Nat.add_zero]
      exact ih uid

theorem updateComponents_count (g : FilterGraph) (p : GraphEditorPanel)
    (hp : ∀ uid, (nodeViews p.children).countP (fun v => decide (v.filterID = uid)) ≤ 1)
    (uid : Nat) :
    (nodeViews (p.updateComponents g).children).countP (fun v => decide (v.filterID = uid))
      ≤ 1 := by
  unfold GraphEditorPanel.updateComponents
  rw [nodeViews_loop4]
  apply loop3_count
  intro u
  rw [nodeViews_kept]
  exact Nat.le_trans (countP_filterMap_update_le g _ _ u _) (hp u)

theorem updateComponents_cover_nodes (g : FilterGraph) (p : GraphEditorPanel) (f : Node)
    (hf : f ∈ g.nodes) : ((p.updateComponents g).getComponentForFilter f.nodeId).isSome := by
  unfold GraphEditorPanel.updateComponents
  have h := loop3_cover g g.nodes ((p.updateFilterComponents g).updateConnectorComponents g) f hf
    (getNodeForId_isSome_of_mem g f hf)
  rw [getComponentForFilter_isSome_iff] at h ⊢
  obtain ⟨x, hx, fc, hc, hid⟩ := h
  exact ⟨x, loop4_mono _ _ x hx, fc, hc, hid⟩

/-! ## Coverage of the graph by the views -/

/-- C4: every node gets a node view. In a well-formed panel, for every node `f` of the
graph, after `updateComponents`: a node view has the id of `f`; there is exactly one such
view if no id had more than one view before the pass; a node view with the id of `f` was
made by the pass (its address is not below the panel's next unused address at entry) if
and only if `getComponentForFilter` found no view for `f` at entry; and every node view
made by the pass is a newly constructed view populated by `update()`. -/
theorem updateComponents_node_coverage (g : FilterGraph) (p : GraphEditorPanel) (f : Node)
    (hwf : p.WellFormed) (hf : f ∈ g.nodes) :
    ((p.updateComponents g).getComponentForFilter f.nodeId).isSome
      ∧ ((∀ uid, (nodeViews p.children).countP (fun v => decide (v.filterID = uid)) ≤ 1) →
          (nodeViews (p.updateComponents g).children).countP
            (fun v => decide (v.filterID = f.nodeId)) = 1)
      ∧ ((∃ x ∈ (p.updateComponents g).children, p.nextAddr ≤ x.addr
            ∧ ∃ v, x.comp = .filter v ∧ v.filterID = f.nodeId)
          ↔ p.getComponentForFilter f.nodeId = none)
      ∧ (∀ x ∈ (p.updateComponents g).children, p.nextAddr ≤ x.addr → ∀ v,
          x.comp = .filter v →
            (FilterComponent.new v.filterID).update g p.width p.height = some v) := by
  have hcover := updateComponents_cover_nodes g p f hf
  have hres := getNodeForId_isSome_of_mem g f hf
  refine ⟨hcover, ?_, ?_, ?_⟩
  · intro hp
    have hle := updateComponents_count g p hp f.nodeId
    have hpos : 0 < (nodeViews (p.updateComponents g).children).countP
        (fun v => decide (v.filterID = f.nodeId)) := by
      rw [Nat.pos_iff_ne_zero]
      intro h0
      rw [← getComponentForFilter_none_iff_count] at h0
      rw [h0] at hcover
      exact absurd hcover (by simp)
    omega
  · constructor
    · rintro ⟨x, hx, hge, v, hv, hid⟩
      rcases mem_updateComponents g p x hx with ⟨c, hc, hk⟩ | ⟨_, fc, h1, _, _, hnone⟩
          | ⟨_, cc, h1, _⟩
      · have h1 := keptChild_addr g p c x hk
        have h2 := hwf.2 c hc
        omega
      · rw [hv] at h1
        simp only [Component.filter.injEq] at h1
        rw [← h1, hid] at hnone
        exact (kept_filter_none_iff g p f.nodeId hres).mp hnone
      · rw [hv] at h1
        exact absurd h1 (by simp)
    · intro hnone
      rw [getComponentForFilter_isSome_iff] at hcover
      obtain ⟨x, hx, v, hv, hid⟩ := hcover
      rcases mem_updateComponents g p x hx with ⟨c, hc, hk⟩ | ⟨hge, _⟩ | ⟨_, cc, h1, _⟩
      · obtain ⟨fc, hce, hu⟩ := keptChild_asFilter g p c x v hk hv
        rw [getComponentForFilter_eq_none_iff] at hnone
        have := hnone c hc fc (by rw [hce])
        exact absurd ((update_filterID g _ _ fc v hu).symm.trans hid) this
      · exact ⟨x, hx, hge, v, hv, hid⟩
      · rw [hv] at h1
        exact absurd h1 (by simp)
  · intro x hx hge v hv
    rcases mem_updateComponents g p x hx with ⟨c, hc, hk⟩ | ⟨_, fc, h1, hu, _⟩ | ⟨_, cc, h1, _⟩
    · have h1 := keptChild_addr g p c x hk
      have h2 := hwf.2 c hc
      omega
    · rw [hv] at h1
      simp only [Component.filter.injEq] at h1
      rw [h1]
      exact hu
    · rw [hv] at h1
      exact absurd h1 (by simp)

/-- Witness of C4: node 1 of `exampleGraph` has no view in `exampleStalePanel`, whose views
have pairwise distinct ids. -/
theorem updateComponents_node_coverage_witness :
    ((exampleStalePanel.updateComponents exampleGraph).getComponentForFilter
          exampleNodeA.nodeId).isSome
      ∧ ((∀ uid, (nodeViews exampleStalePanel.children).countP
            (fun v => decide (v.filterID = uid)) ≤ 1) →
          (nodeViews (exampleStalePanel.updateComponents exampleGraph).children).countP
            (fun v => decide (v.filterID = exampleNodeA.nodeId)) = 1)
      ∧ ((∃ x ∈ (exampleStalePanel.updateComponents exampleGraph).children,
            exampleStalePanel.nextAddr ≤ x.addr
            ∧ ∃ v, x.comp = .filter v ∧ v.filterID = exampleNodeA.nodeId)
          ↔ exampleStalePanel.getComponentForFilter exampleNodeA.nodeId = none)
      ∧ (∀ x ∈ (exampleStalePanel.updateComponents exampleGraph).children,
          exampleStalePanel.nextAddr ≤ x.addr → ∀ v, x.comp = .filter v →
            (FilterComponent.new v.filterID).update exampleGraph exampleStalePanel.width
              exampleStalePanel.height = some v) :=
  updateComponents_node_coverage exampleGraph exampleStalePanel exampleNodeA
    ⟨by decide, by decide⟩ (List.mem_cons_self _ _)

/-- C5: every connection gets a connector view. In a well-formed panel, for every
connection `c` of the graph, after `updateComponents`: a connector view is bound to the
4-tuple of `c`; and a connector view bound to that 4-tuple was made by the pass (its
address is not below the panel's next unused address at entry) if and only if
`getComponentForConnection` found no view for `c` at entry. -/
theorem updateComponents_connection_coverage (g : FilterGraph) (p : GraphEditorPanel)
    (c : Connection) (hwf : p.WellFormed) (hc : c ∈ g.connections) :
    (∃ x ∈ (p.updateComponents g).children, ∃ cc, x.comp = .connector cc
        ∧ cc.sourceFilterID = c.sourceNodeId ∧ cc.sourceFilterChannel = c.sourceChannelIndex
        ∧ cc.destFilterID = c.destNodeId ∧ cc.destFilterChannel = c.destChannelIndex)
      ∧ ((∃ x ∈ (p.updateComponents g).children, p.nextAddr ≤ x.addr
            ∧ ∃ cc, x.comp = .connector cc ∧ cc.tuple = c)
          ↔ p.getComponentForConnection c = none) := by
  have hcover : ((p.updateComponents g).getComponentForConnection c).isSome := by
    unfold GraphEditorPanel.updateComponents
    exact loop4_cover g.connections _ c hc
  rw [getComponentForConnection_isSome_iff] at hcover
  constructor
  · obtain ⟨x, hx, cc, hcc, ht⟩ := hcover
    refine ⟨x, hx, cc, hcc, ?_⟩
    rw [← ht]
    exact ⟨rfl, rfl, rfl, rfl⟩
  · constructor
    · rintro ⟨x, hx, hge, cc, hcc, ht⟩
      rcases mem_updateComponents g p x hx with ⟨c0, hc0, hk⟩ | ⟨_, fc, h1, _⟩
          | ⟨_, cc1, h1, _, hnone⟩
      · have h1 := keptChild_addr g p c0 x hk
        have h2 := hwf.2 c0 hc0
        omega
      · rw [hcc] at h1
        exact absurd h1 (by simp)
      · rw [hcc] at h1
        simp only [Component.connector.injEq] at h1
        rw [← h1, ht, loop3_connection_none_iff] at hnone
        exact (kept_connection_none_iff g p c hc).mp hnone
    · intro hnone
      obtain ⟨x, hx, cc, hcc, ht⟩ := hcover
      rcases mem_updateComponents g p x hx with ⟨c0, hc0, hk⟩ | ⟨_, fc, h1, _⟩ | ⟨hge, _⟩
      · obtain ⟨cc0, hce, htup, _⟩ := keptChild_asConnector g p c0 x cc hk hcc
        rw [getComponentForConnection_eq_none_iff] at hnone
        have := hnone c0 hc0 cc0 (by rw [hce])
        exact absurd (htup.symm.trans ht) this
      · rw [hcc] at h1
        exact absurd h1 (by simp)
      · exact ⟨x, hx, hge, cc, hcc, ht⟩

/-- Witness of C5: the connection (1, 0, 2, 0) of `exampleGraph` on the empty panel. -/
theorem updateComponents_connection_coverage_witness :
    (∃ x ∈ (exampleEmptyPanel.updateComponents exampleGraph).children, ∃ cc,
        x.comp = .connector cc
        ∧ cc.sourceFilterID = 1 ∧ cc.sourceFilterChannel = 0
        ∧ cc.destFilterID = 2 ∧ cc.destFilterChannel = 0)
      ∧ ((∃ x ∈ (exampleEmptyPanel.updateComponents exampleGraph).children,
            exampleEmptyPanel.nextAddr ≤ x.addr
            ∧ ∃ cc, x.comp = .connector cc ∧ cc.tuple = ⟨1, 0, 2, 0⟩)
          ↔ exampleEmptyPanel.getComponentForConnection ⟨1, 0, 2, 0⟩ = none) :=
  updateComponents_connection_coverage exampleGraph exampleEmptyPanel ⟨1, 0, 2, 0⟩
    ⟨by decide, by decide⟩ (List.mem_cons_self _ _)

/-! ## Running `updateComponents` twice -/

theorem filterMap_eq_map_of {α β : Type} (f : α → Option β) (r : α → β) (l : List α)
    (h : ∀ x ∈ l, f x = some (r x)) : l.filterMap f = l.map r := by
  induction l with
  | nil => rfl
  | cons x t ih =>
    rw [List.filterMap_cons_some (h x (List.mem_cons_self _ _)), List.map_cons,
      ih (fun y hy => h y (List.mem_cons_of_mem _ hy))]

theorem updateFilterComponents_of_fixed (g : FilterGraph) (q : GraphEditorPanel)
    (h1 : ∀ x ∈ q.children, ∀ v, x.comp = .filter v → v.update g q.width q.height = some v) :
    q.updateFilterComponents g = q := by
  unfold GraphEditorPanel.updateFilterComponents
  have : q.children.filterMap (fun c =>
      match c.comp with
      | .filter fc =>
        (fc.update g q.width q.height).map (fun fc1 => { c with comp := .filter fc1 })
      | _ => some c) = q.children.map id := by
    apply filterMap_eq_map_of
    intro x hx
    obtain ⟨a, comp⟩ := x
    cases comp with
    | filter fc =>
      simp only
      rw [h1 _ hx fc rfl]
      rfl
    | connector cc => rfl
    | other b => rfl
  rw [this, List.map_id]

theorem updateConnectorComponents_of_settled (g : FilterGraph) (q : GraphEditorPanel)
    (h2 : ∀ x ∈ q.children, ∀ cc, x.comp = .connector cc → q.draggingConnector ≠ some x.addr →
      (g.getConnectionBetween cc.sourceFilterID cc.sourceFilterChannel cc.destFilterID
        cc.destFilterChannel).isSome) :
    q.updateConnectorComponents g = q.refreshConnectors := by
  unfold GraphEditorPanel.updateConnectorComponents GraphEditorPanel.refreshConnectors
  congr 1
  apply filterMap_eq_map_of
  intro x hx
  obtain ⟨a, comp⟩ := x
  cases comp with
  | filter fc => rfl
  | connector cc =>
    simp only
    by_cases hd : q.draggingConnector = some a
    · rw [if_pos hd, if_pos hd]
    · rw [if_neg hd, if_neg hd]
      have := h2 _ hx cc rfl hd
      cases hg : g.getConnectionBetween cc.sourceFilterID cc.sourceFilterChannel
          cc.destFilterID cc.destFilterChannel with
      | none => rw [hg] at this; exact absurd this (by simp)
      | some _ => rfl
  | other b => rfl

theorem mem_refreshConnectors_filter (q : GraphEditorPanel) (x : Child) (v : FilterComponent)
    (hx : x ∈ q.children) (hv : x.comp = .filter v) : x ∈ q.refreshConnectors.children := by
  unfold GraphEditorPanel.refreshConnectors
  simp only
  rw [List.mem_map]
  refine ⟨x, hx, ?_⟩
  rw [hv]

theorem mem_refreshConnectors_connector (q : GraphEditorPanel) (x : Child)
    (cc : ConnectorComponent) (hx : x ∈ q.children) (hc : x.comp = .connector cc) :
    ∃ y ∈ q.refreshConnectors.children, ∃ cc1, y.comp = .connector cc1 ∧ cc1.tuple = cc.tuple := by
  unfold GraphEditorPanel.refreshConnectors
  simp only
  by_cases hd : q.draggingConnector = some x.addr
  · refine ⟨x, List.mem_map.mpr ⟨x, hx, ?_⟩, cc, hc, rfl⟩
    rw [hc]
    simp only [hd, if_true]
  · refine ⟨⟨x.addr, .connector (cc.update q)⟩, List.mem_map.mpr ⟨x, hx, ?_⟩, _, rfl,
      (update_tuple q cc).1⟩
    rw [hc]
    simp only [hd, if_false]

theorem loop3_of_covered (g : FilterGraph) (ns : List Node) (q : GraphEditorPanel)
    (h : ∀ f ∈ ns, (q.getComponentForFilter f.nodeId).isSome) :
    ns.foldr (GraphEditorPanel.addFilterComponent g) q = q := by
  induction ns with
  | nil => rfl
  | cons n ns ih =>
    rw [List.foldr_cons, ih (fun f hf => h f (List.mem_cons_of_mem _ hf))]
    unfold GraphEditorPanel.addFilterComponent
    have := h n (List.mem_cons_self _ _)
    cases hv : q.getComponentForFilter n.nodeId with
    | none => rw [hv] at this; exact absurd this (by simp)
    | some v => rfl

theorem loop4_of_covered (cs : List Connection) (q : GraphEditorPanel)
    (h : ∀ c ∈ cs, (q.getComponentForConnection c).isSome) :
    cs.foldr GraphEditorPanel.addConnectorComponent q = q := by
  induction cs with
  | nil => rfl
  | cons c cs ih =>
    rw [List.foldr_cons, ih (fun c1 hc1 => h c1 (List.mem_cons_of_mem _ hc1))]
    unfold GraphEditorPanel.addConnectorComponent
    have := h c (List.mem_cons_self _ _)
    cases hv : q.getComponentForConnection c with
    | none => rw [hv] at this; exact absurd this (by simp)
    | some v => rfl

/-- On a panel that is level with the graph, `updateComponents` does nothing but run
`update()` on the connector views. -/
theorem updateComponents_of_settled (g : FilterGraph) (q : GraphEditorPanel)
    (h1 : ∀ x ∈ q.children, ∀ v, x.comp = .filter v → v.update g q.width q.height = some v)
    (h2 : ∀ x ∈ q.children, ∀ cc, x.comp = .connector cc → q.draggingConnector ≠ some x.addr →
      (g.getConnectionBetween cc.sourceFilterID cc.sourceFilterChannel cc.destFilterID
        cc.destFilterChannel).isSome)
    (h3 : ∀ f ∈ g.nodes, (q.getComponentForFilter f.nodeId).isSome)
    (h4 : ∀ c ∈ g.connections, (q.getComponentForConnection c).isSome) :
    q.updateComponents g = q.refreshConnectors := by
  unfold GraphEditorPanel.updateComponents
  rw [updateFilterComponents_of_fixed g q h1, updateConnectorComponents_of_settled g q h2]
  rw [loop3_of_covered, loop4_of_covered]
  · intro c hc
    have := h4 c hc
    rw [getComponentForConnection_isSome_iff] at this ⊢
    obtain ⟨x, hx, cc, hcc, ht⟩ := this
    obtain ⟨y, hy, cc1, hy1, ht1⟩ := mem_refreshConnectors_connector q x cc hx hcc
    exact ⟨y, hy, cc1, hy1, ht1.trans ht⟩
  · intro f hf
    have := h3 f hf
    rw [getComponentForFilter_isSome_iff] at this ⊢
    obtain ⟨x, hx, v, hv, hid⟩ := this
    exact ⟨x, mem_refreshConnectors_filter q x v hx hv, v, hv, hid⟩

theorem updateComponents_settled (g : FilterGraph) (p : GraphEditorPanel) :
    (p.updateComponents g).updateComponents g = (p.updateComponents g).refreshConnectors := by
  obtain ⟨hw, hh, hd, _⟩ := updateComponents_frame g p
  apply updateComponents_of_settled
  · intro x hx v hv
    rw [hw, hh]
    rcases mem_updateComponents g p x hx with ⟨c, _, hk⟩ | ⟨_, fc, h1, hu, _⟩ | ⟨_, cc, h1, _⟩
    · obtain ⟨fc0, _, hu⟩ := keptChild_asFilter g p c x v hk hv
      exact update_idem g _ _ fc0 v hu
    · rw [hv] at h1
      simp only [Component.filter.injEq] at h1
      rw [h1]
      exact update_idem g _ _ _ fc hu
    · rw [hv] at h1
      exact absurd h1 (by simp)
  · intro x hx cc hcc hdrag
    rw [hd] at hdrag
    rcases mem_updateComponents g p x hx with ⟨c, _, hk⟩ | ⟨_, fc, h1, _⟩ | ⟨_, cc1, h1, ht, _⟩
    · obtain ⟨cc0, _, htup, hor⟩ := keptChild_asConnector g p c x cc hk hcc
      rcases hor with h | h
      · exact absurd h hdrag
      · have h5 : (g.getConnectionBetween cc.tuple.sourceNodeId cc.tuple.sourceChannelIndex
            cc.tuple.destNodeId cc.tuple.destChannelIndex).isSome := by
          rw [htup]
          exact h
        exact h5
    · rw [hcc] at h1
      exact absurd h1 (by simp)
    · rw [hcc] at h1
      simp only [Component.connector.injEq] at h1
      rw [← h1] at ht
      exact (getConnectionBetween_isSome_iff g cc.tuple).mpr ht
  · intro f hf
    exact updateComponents_cover_nodes g p f hf
  · intro c hc
    unfold GraphEditorPanel.updateComponents
    exact loop4_cover g.connections _ c hc

theorem resizeToFit_dragging (p : GraphEditorPanel) (cc : ConnectorComponent) :
    (cc.resizeToFit p).dragging = cc.dragging := by
  unfold ConnectorComponent.resizeToFit ConnectorComponent.resized
  simp only
  split
  · split <;> rfl
  · rfl

theorem update_dragging (p : GraphEditorPanel) (cc : ConnectorComponent) :
    (cc.update p).dragging = cc.dragging := by
  unfold ConnectorComponent.update
  simp only
  split
  · exact resizeToFit_dragging p cc
  · rfl

theorem withoutLayout_refresh (q : GraphEditorPanel) :
    q.refreshConnectors.withoutConnectorLayout = q.withoutConnectorLayout := by
  unfold GraphEditorPanel.refreshConnectors GraphEditorPanel.withoutConnectorLayout
  simp only [List.map_map]
  congr 1
  apply List.map_congr_left
  intro x _
  obtain ⟨a, comp⟩ := x
  cases comp with
  | filter fc => rfl
  | connector cc =>
    simp only [Function.comp]
    by_cases hd : q.draggingConnector = some a
    · rw [if_pos hd]
    · rw [if_neg hd]
      obtain ⟨h1, h2, h3, h4⟩ := update_fields_connector q cc
      have h5 := (update_tuple q cc).2
      have h6 := update_dragging q cc
      unfold Child.withoutLayout
      simp only [h1, h2, h3, h4, h5, h6]
  | other b => rfl

/-- C1, amended: a second `updateComponents` with no change of the graph in between
creates no view object and destroys none, leaves every node view as it is (pins, size,
position, name), leaves the endpoint ids, the channels and the tooltip of every connector
view as they are, and leaves the draft pointer and the panel size as they are. What it
may change is the layout of connector views other than the draft (stored endpoint
coordinates and bounds), which it brings up to date by one more `update()`. -/
theorem updateComponents_idempotent (g : FilterGraph) (p : GraphEditorPanel) :
    (p.updateComponents g).updateComponents g = (p.updateComponents g).refreshConnectors
      ∧ ((p.updateComponents g).updateComponents g).withoutConnectorLayout
          = (p.updateComponents g).withoutConnectorLayout := by
  have h := updateComponents_settled g p
  refine ⟨h, ?_⟩
  rw [h, withoutLayout_refresh]

/-- C1 as stated fails. `exampleStalePanel` has a connector view of (1, 0, 2, 0) and no
view of node 1. The first `updateComponents` refreshes the connector view before it makes
the view of node 1, so that the source end stays at the origin; the second run moves the
source end to the output pin (183, 172) of the new node view: the two runs leave different
view states. -/
theorem updateComponents_twice_differs :
    ((exampleStalePanel.updateComponents exampleGraph).updateComponents exampleGraph)
        ≠ exampleStalePanel.updateComponents exampleGraph
      ∧ (connectorViews (exampleStalePanel.updateComponents exampleGraph).children).map
          (fun cc => (cc.tuple, (cc.lastInputX, cc.lastInputY), (cc.lastOutputX, cc.lastOutputY)))
        = [(⟨1, 0, 2, 0⟩, (0, 0), (583, 428)), (⟨0, 4096, 2, 4096⟩, (0, 0), (0, 0))]
      ∧ (connectorViews
            ((exampleStalePanel.updateComponents exampleGraph).updateComponents
              exampleGraph).children).map
          (fun cc => (cc.tuple, (cc.lastInputX, cc.lastInputY), (cc.lastOutputX, cc.lastOutputY)))
        = [(⟨1, 0, 2, 0⟩, (183, 172), (583, 428)), (⟨0, 4096, 2, 4096⟩, (0, 0), (0, 0))] := by
  decide!


/-! ## Starting a draft -/

theorem getDraggingConnector_eq (p : GraphEditorPanel) :
    p.getDraggingConnector = p.draggingConnector.bind p.connectorAt := by
  unfold GraphEditorPanel.getDraggingConnector GraphEditorPanel.connectorAt
  cases p.draggingConnector <;> rfl

theorem connectorAt_append_new (q : GraphEditorPanel) (l : List Child) (a : Nat)
    (cc : ConnectorComponent) (hq : q.children = l ++ [{ addr := a, comp := .connector cc }])
    (h : ∀ c ∈ l, c.isAlwaysOnTop = true → c.addr ≠ a) : q.connectorAt a = some cc := by
  have hnone : ({ q with children := l } : GraphEditorPanel).connectorAt a = none := by
    unfold GraphEditorPanel.connectorAt
    rw [List.findSome?_eq_none_iff]
    intro c hc
    have hc2 := h c hc
    obtain ⟨ca, comp⟩ := c
    cases comp with
    | filter fc => rfl
    | connector v =>
      have hne : ca ≠ a := hc2 rfl
      simp [hne]
    | other b => rfl
  unfold GraphEditorPanel.connectorAt at hnone ⊢
  rw [hq, List.findSome?_append, hnone]
  simp

theorem dragDraft_fields (canConnect : FilterGraph → Nat → Int → Nat → Int → Bool)
    (g : FilterGraph) (p : GraphEditorPanel) (e2 : MouseEvent) (cc : ConnectorComponent) :
    (p.dragDraft canConnect g e2 cc).tuple = cc.tuple
      ∧ (p.dragDraft canConnect g e2 cc).dragging = cc.dragging := by
  unfold GraphEditorPanel.dragDraft ConnectorComponent.tuple
  simp only
  split
  · unfold ConnectorComponent.dragStart
    obtain ⟨h1, h2, h3, h4, _⟩ := resizeToFit_fields p
      { cc with tooltip := (p.dragTarget canConnect g e2 cc).2,
                lastInputX := (p.dragTarget canConnect g e2 cc).1.1,
                lastInputY := (p.dragTarget canConnect g e2 cc).1.2 }
    rw [h1, h2, h3, h4, resizeToFit_dragging]
    exact ⟨rfl, rfl⟩
  · unfold ConnectorComponent.dragEnd
    obtain ⟨h1, h2, h3, h4, _⟩ := resizeToFit_fields p
      { cc with tooltip := (p.dragTarget canConnect g e2 cc).2,
                lastOutputX := (p.dragTarget canConnect g e2 cc).1.1,
                lastOutputY := (p.dragTarget canConnect g e2 cc).1.2 }
    rw [h1, h2, h3, h4, resizeToFit_dragging]
    exact ⟨rfl, rfl⟩

theorem setInput_dragging (p : GraphEditorPanel) (cc : ConnectorComponent) (s : Nat) (sc : Int) :
    (cc.setInput p s sc).dragging = cc.dragging := by
  unfold ConnectorComponent.setInput
  split
  · rw [update_dragging]
  · rfl

theorem setOutput_dragging (p : GraphEditorPanel) (cc : ConnectorComponent) (d : Nat) (dc : Int) :
    (cc.setOutput p d dc).dragging = cc.dragging := by
  unfold ConnectorComponent.setOutput
  split
  · rw [update_dragging]
  · rfl

theorem dragConnector_draggingConnector
    (canConnect : FilterGraph → Nat → Int → Nat → Int → Bool)
    (g : FilterGraph) (p : GraphEditorPanel) (e2 : MouseEvent) :
    (p.dragConnector canConnect g e2).draggingConnector = p.draggingConnector := by
  unfold GraphEditorPanel.dragConnector
  cases hd : p.draggingConnector with
  | none => simp [hd]
  | some a => simp [hd]

theorem mem_afterDraftReset (p : GraphEditorPanel) (a : Option Nat) (c : Child)
    (hc : c ∈ p.afterDraftReset a) : c ∈ p.children := by
  unfold GraphEditorPanel.afterDraftReset at hc
  cases hd : p.draggingConnector with
  | none => simpa [hd] using hc
  | some b =>
    simp only [hd] at hc
    split at hc
    · exact hc
    · unfold GraphEditorPanel.withoutConnectorAt at hc
      exact (List.mem_filter.mp hc).1

/-- The draft after `beginConnectorDrag`: a connector view is the draft, and it is bound to
the four arguments. -/
theorem beginConnectorDrag_draft (canConnect : FilterGraph → Nat → Int → Nat → Int → Bool)
    (g : FilterGraph) (p : GraphEditorPanel) (s : Nat) (sc : Int) (d : Nat) (dc : Int)
    (oc : Option Nat) (e2 : MouseEvent) (hwf : p.WellFormed) :
    (p.beginConnectorDrag canConnect g s sc d dc oc e2).getDraggingConnector.map
        ConnectorComponent.tuple
      = some { sourceNodeId := s, sourceChannelIndex := sc, destNodeId := d,
               destChannelIndex := dc } := by
  unfold GraphEditorPanel.beginConnectorDrag
  simp only
  split
  · rename_i t _
    rw [getDraggingConnector_dragConnector, getDraggingConnector_eq]
    simp only [Option.some_bind]
    rw [connectorAt_append_new _ _ t.1 _ rfl]
    · simp only [Option.map_some']
      rw [(dragDraft_fields _ _ _ _ _).1]
      exact congrArg some (bound_tuple _ _ ⟨s, sc, d, dc⟩)
    · intro c hc htop
      unfold GraphEditorPanel.withoutConnectorAt at hc
      have h2 := (List.mem_filter.mp hc).2
      intro heq
      simp [htop, heq] at h2
  · rw [getDraggingConnector_dragConnector, getDraggingConnector_eq]
    simp only [Option.some_bind]
    rw [connectorAt_append_new _ (p.afterDraftReset none) p.nextAddr _ rfl]
    · simp only [Option.map_some']
      rw [(dragDraft_fields _ _ _ _ _).1]
      exact congrArg some (bound_tuple _ _ ⟨s, sc, d, dc⟩)
    · intro c hc _
      exact Nat.ne_of_lt (hwf.2 c (mem_afterDraftReset p none c hc))

/-- C11: the press on a pin begins a draft. After `PinComponent::mouseDown` on a pin
of the node `n` and channel `c`, in a panel whose children have distinct addresses below
the next unused one, `draggingConnector` points to a connector view among the children
(a draft exists) and that view is bound to the source `(n, c)` and the destination node id
0 for an output pin, and to the destination `(n, c)` and the source node id 0 for an input
pin. -/
theorem pinMouseDown_draft (canConnect : FilterGraph → Nat → Int → Nat → Int → Bool)
    (g : FilterGraph) (p : GraphEditorPanel) (pin : PinComponent) (e2 : MouseEvent)
    (hwf : p.WellFormed) :
    (p.pinMouseDown canConnect g pin e2).getDraggingConnector.map ConnectorComponent.tuple
      = some (if pin.isInput then
                { sourceNodeId := 0, sourceChannelIndex := pin.index,
                  destNodeId := pin.filterID, destChannelIndex := pin.index }
              else
                { sourceNodeId := pin.filterID, sourceChannelIndex := pin.index,
                  destNodeId := 0, destChannelIndex := pin.index }) := by
  unfold GraphEditorPanel.pinMouseDown
  rw [beginConnectorDrag_draft canConnect g p _ _ _ _ none e2 hwf]
  cases pin.isInput <;> rfl

/-- Witness of C11: in the idle example panel, the press on the input pin (2, 0) leaves a
draft bound to the destination (2, 0) with the source node id 0. -/
theorem pinMouseDown_draft_witness :
    (exampleIdlePanel.pinMouseDown exampleCanConnect exampleGraph examplePinB0
        ⟨580, 425⟩).getDraggingConnector.map ConnectorComponent.tuple
      = some { sourceNodeId := 0, sourceChannelIndex := 0, destNodeId := 2,
               destChannelIndex := 0 } :=
  pinMouseDown_draft exampleCanConnect exampleGraph exampleIdlePanel examplePinB0 ⟨580, 425⟩
    (by unfold GraphEditorPanel.WellFormed; decide)


/-! ## Dragging a connector view away from one of its ends -/

theorem connectorAt_modifyConnectorAt (p : GraphEditorPanel) (a : Nat)
    (f : ConnectorComponent → ConnectorComponent) :
    (p.modifyConnectorAt a f).connectorAt a = (p.connectorAt a).map f := by
  unfold GraphEditorPanel.modifyConnectorAt GraphEditorPanel.connectorAt
  simp only
  rw [List.findSome?_map, ← findSome?_map_option]
  congr 1
  funext c
  obtain ⟨ca, comp⟩ := c
  simp only [Function.comp]
  cases comp with
  | filter fc => simp
  | connector cc =>
    by_cases ha : ca = a
    · simp [ha]
    · simp [ha]
  | other b => simp

theorem nodeViews_modifyConnectorAt (p : GraphEditorPanel) (a : Nat)
    (f : ConnectorComponent → ConnectorComponent) :
    nodeViews (p.modifyConnectorAt a f).children = nodeViews p.children := by
  unfold GraphEditorPanel.modifyConnectorAt nodeViews
  simp only
  rw [List.filterMap_map]
  apply List.filterMap_congr
  intro c _
  obtain ⟨ca, comp⟩ := c
  simp only [Function.comp]
  cases comp with
  | filter fc => rfl
  | connector cc =>
    by_cases ha : ca = a
    · simp [ha, Child.asFilter]
    · simp [ha, Child.asFilter]
  | other b => rfl

theorem getPoints_congr (p q : GraphEditorPanel) (cc : ConnectorComponent)
    (h : nodeViews q.children = nodeViews p.children) : cc.getPoints q = cc.getPoints p := by
  unfold ConnectorComponent.getPoints
  rw [getComponentForFilter_eq q, getComponentForFilter_eq q, getComponentForFilter_eq p,
    getComponentForFilter_eq p, h]

theorem connectorAt_dragConnector (canConnect : FilterGraph → Nat → Int → Nat → Int → Bool)
    (g : FilterGraph) (q : GraphEditorPanel) (e2 : MouseEvent) (a : Nat) :
    (q.dragConnector canConnect g e2).connectorAt a
      = (q.connectorAt a).map (fun v =>
          if q.draggingConnector = some a then q.dragDraft canConnect g e2 v else v) := by
  unfold GraphEditorPanel.dragConnector
  cases hd : q.draggingConnector with
  | none => simp
  | some b =>
    simp only
    unfold GraphEditorPanel.connectorAt
    simp only
    rw [List.findSome?_map, ← findSome?_map_option]
    congr 1
    funext c
    obtain ⟨ca, comp⟩ := c
    simp only [Function.comp]
    cases comp with
    | filter fc => simp
    | connector cc =>
      by_cases ha : ca = a
      · subst ha
        by_cases hb : ca = b
        · subst hb
          simp
        · have hab : ¬ b = ca := fun h => hb h.symm
          simp [hb, hab]
      · by_cases hb : ca = b
        · subst hb
          simp [ha]
        · simp [ha, hb]
    | other b => simp

/-- The draft after `beginConnectorDrag` on an event that started on the connector view
at the address `a`: that same object is the draft, bound to the four arguments. -/
theorem beginConnectorDrag_regrab (canConnect : FilterGraph → Nat → Int → Nat → Int → Bool)
    (g : FilterGraph) (p : GraphEditorPanel) (s : Nat) (sc : Int) (d : Nat) (dc : Int)
    (a : Nat) (v : ConnectorComponent) (e2 : MouseEvent) (hv : p.connectorAt a = some v) :
    (p.beginConnectorDrag canConnect g s sc d dc (some a) e2).draggingConnector = some a
      ∧ ∃ w, (p.beginConnectorDrag canConnect g s sc d dc (some a) e2).connectorAt a = some w
          ∧ w.tuple = { sourceNodeId := s, sourceChannelIndex := sc, destNodeId := d,
                        destChannelIndex := dc }
          ∧ w.dragging = v.dragging := by
  unfold GraphEditorPanel.beginConnectorDrag
  simp only [hv, Option.map_some']
  refine ⟨by rw [dragConnector_draggingConnector], ?_⟩
  rw [connectorAt_dragConnector]
  rw [connectorAt_append_new _ _ a _ rfl]
  · simp only [Option.map_some', if_true]
    refine ⟨_, rfl, ?_, ?_⟩
    · rw [(dragDraft_fields _ _ _ _ _).1]
      exact bound_tuple _ _ ⟨s, sc, d, dc⟩
    · rw [(dragDraft_fields _ _ _ _ _).2, setOutput_dragging, setInput_dragging]
  · intro c hc htop
    unfold GraphEditorPanel.withoutConnectorAt at hc
    have h2 := (List.mem_filter.mp hc).2
    intro heq
    simp [htop, heq] at h2

theorem getSquaredDistancesFromEnds_congr (p q : GraphEditorPanel) (cc : ConnectorComponent)
    (x y : Int) (h : nodeViews q.children = nodeViews p.children) :
    cc.getSquaredDistancesFromEnds q x y = cc.getSquaredDistancesFromEnds p x y := by
  unfold ConnectorComponent.getSquaredDistancesFromEnds
  rw [getPoints_congr p q cc h]

/-- The first moved drag event on a connector view that is not being dragged. -/
theorem connectorMouseDrag_first
    (removeConnection : FilterGraph → Nat → Int → Nat → Int → FilterGraph)
    (canConnect : FilterGraph → Nat → Int → Nat → Int → Bool) (g : FilterGraph)
    (q : GraphEditorPanel) (a : Nat) (e : GestureEvent) (v : ConnectorComponent)
    (hv : q.connectorAt a = some v) (hd : v.dragging = false)
    (he : e.mouseWasClicked = false) :
    (q.connectorMouseDrag removeConnection canConnect g a e).1
        = removeConnection g v.sourceFilterID v.sourceFilterChannel v.destFilterID
            v.destFilterChannel
      ∧ (q.connectorMouseDrag removeConnection canConnect g a e).2.draggingConnector = some a
      ∧ ∃ w, (q.connectorMouseDrag removeConnection canConnect g a e).2.connectorAt a = some w
          ∧ w.dragging = true
          ∧ w.tuple
              = if (v.getSquaredDistancesFromEnds q (e.pos.x - v.bounds.x)
                      (e.pos.y - v.bounds.y)).1
                    < (v.getSquaredDistancesFromEnds q (e.pos.x - v.bounds.x)
                        (e.pos.y - v.bounds.y)).2 then
                  { sourceNodeId := 0, sourceChannelIndex := v.sourceFilterChannel,
                    destNodeId := v.destFilterID, destChannelIndex := v.destFilterChannel }
                else
                  { sourceNodeId := v.sourceFilterID, sourceChannelIndex := v.sourceFilterChannel,
                    destNodeId := 0, destChannelIndex := v.destFilterChannel } := by
  unfold GraphEditorPanel.connectorMouseDrag
  simp only [hv, hd, he, Bool.not_false, Bool.and_self, if_true]
  have h1 := connectorAt_modifyConnectorAt q a (fun v => { v with dragging := true })
  rw [hv] at h1
  simp only [Option.map_some'] at h1
  have hdist := getSquaredDistancesFromEnds_congr q
    (q.modifyConnectorAt a (fun v => { v with dragging := true })) v (e.pos.x - v.bounds.x)
    (e.pos.y - v.bounds.y) (nodeViews_modifyConnectorAt q a _)
  rw [hdist]
  by_cases hn : (v.getSquaredDistancesFromEnds q (e.pos.x - v.bounds.x) (e.pos.y - v.bounds.y)).1
      < (v.getSquaredDistancesFromEnds q (e.pos.x - v.bounds.x) (e.pos.y - v.bounds.y)).2
  · simp only [hn, decide_True, if_true]
    obtain ⟨r1, w, hw1, hw2, hw3⟩ := beginConnectorDrag_regrab canConnect
      (removeConnection g v.sourceFilterID v.sourceFilterChannel v.destFilterID
        v.destFilterChannel)
      (q.modifyConnectorAt a (fun v => { v with dragging := true }))
      0 v.sourceFilterChannel v.destFilterID v.destFilterChannel a _ e.pos h1
    exact ⟨trivial, r1, w, hw1, hw3, hw2⟩
  · simp only [hn, decide_False, if_false, Bool.false_eq_true]
    obtain ⟨r1, w, hw1, hw2, hw3⟩ := beginConnectorDrag_regrab canConnect
      (removeConnection g v.sourceFilterID v.sourceFilterChannel v.destFilterID
        v.destFilterChannel)
      (q.modifyConnectorAt a (fun v => { v with dragging := true }))
      v.sourceFilterID v.sourceFilterChannel 0 v.destFilterChannel a _ e.pos h1
    exact ⟨trivial, r1, w, hw1, hw3, hw2⟩

theorem filterToFront_frame (p : GraphEditorPanel) (a : Nat) :
    (p.filterToFront a).width = p.width ∧ (p.filterToFront a).height = p.height
      ∧ (p.filterToFront a).draggingConnector = p.draggingConnector
      ∧ (p.filterToFront a).nextAddr = p.nextAddr
      ∧ (p.filterToFront a).selectedFilters = p.selectedFilters
      ∧ (p.filterToFront a).selectedFilterCoordinates = p.selectedFilterCoordinates
      ∧ (p.filterToFront a).screenX = p.screenX ∧ (p.filterToFront a).screenY = p.screenY := by
  unfold GraphEditorPanel.filterToFront
  split <;> exact ⟨rfl, rfl, rfl, rfl, rfl, rfl, rfl, rfl⟩

/-- C16, evaluated: the view of node 1 is pressed while it is selected, the selection is
then emptied by a press on another view, and the view of node 1 is pressed again and
dragged by 40 pixels. When no repaint has run in between, the member
`filterIsPartofSelectedGroup` of the view is still set, `mouseDrag` takes the group branch
over the empty selection and `setNodePosition` is not called: the graph is left as it is
and node 1 stays at (1/4, 1/4). When the repaint has run, the same gesture moves node 1
to (3/10, 1/4). -/
theorem filterMouseDrag_stale_flag :
    (exampleStaleFlagGesture false).1 = exampleGraph
      ∧ (exampleStaleFlagGesture false).1.getNodePosition 1 = (1 / 4, 1 / 4)
      ∧ (exampleStaleFlagGesture true).1.getNodePosition 1 = (3 / 10, 1 / 4) := by
  decide!


/-! ## The positions written by a drag -/

theorem filterMouseDrag_graph (setNodePosition : FilterGraph → Nat → ℚ → ℚ → FilterGraph)
    (g : FilterGraph) (p : GraphEditorPanel) (a : Nat) (fc : FilterComponent) (e : GestureEvent)
    (hfc : p.filterAt a = some fc) (he : e.isPopupMenu = false) :
    (p.filterMouseDrag setNodePosition g a e).1
      = applyCalls setNodePosition g (p.filterDragCalls fc (p.groupFlag fc) e) := by
  unfold GraphEditorPanel.filterMouseDrag
  simp only [hfc, he]
  rfl

theorem normalized_in_range_iff (c w : Int) (hw : 0 < w) :
    (0 ≤ (c : ℚ) / (w : ℚ) ∧ (c : ℚ) / (w : ℚ) ≤ 1) ↔ (0 ≤ c ∧ c ≤ w) := by
  have hw0 : (0 : ℚ) < (w : ℚ) := by exact_mod_cast hw
  rw [div_nonneg_iff, div_le_one hw0]
  constructor
  · rintro ⟨h1, h2⟩
    refine ⟨?_, by exact_mod_cast h2⟩
    cases h1 with
    | inl h => exact_mod_cast h.1
    | inr h => exact absurd h.2 (not_le.mpr hw0)
  · rintro ⟨h1, h2⟩
    exact ⟨Or.inl ⟨by exact_mod_cast h1, le_of_lt hw0⟩, by exact_mod_cast h2⟩

/-- Counterexample to C17 as stated: the view of node 1, which is not selected, pressed and
dragged by 250 pixels to the left, has its centre 50 pixels left of the panel, and the
position written is (-1/16, 1/4). -/
theorem filterMouseDrag_out_of_range :
    ((exampleIdlePanel.filterMouseDown exampleNoOp exampleNoOp exampleGraph 1
          { pos := ⟨200, 150⟩ } 0).2.filterMouseDrag FilterGraph.setNodePosition exampleGraph 1
          { pos := ⟨-50, 150⟩, distanceFromDragStartX := -250 }).1.getNodePosition 1
        = (-1 / 16, 1 / 4)
      ∧ ¬ (0 ≤ (((exampleIdlePanel.filterMouseDown exampleNoOp exampleNoOp exampleGraph 1
          { pos := ⟨200, 150⟩ } 0).2.filterMouseDrag FilterGraph.setNodePosition exampleGraph 1
          { pos := ⟨-50, 150⟩, distanceFromDragStartX := -250 }).1.getNodePosition 1).1) := by
  decide!


/-! ## Removing a node -/

theorem removeNode_connections (g : FilterGraph) (n : Nat) (hn : (g.getNodeForId n).isSome)
    (c : Connection) (hc : c ∈ (g.removeNode n).connections) :
    c.sourceNodeId ≠ n ∧ c.destNodeId ≠ n := by
  unfold FilterGraph.removeNode at hc
  cases hg : g.getNodeForId n with
  | none => rw [hg] at hn; exact absurd hn (by simp)
  | some f =>
    rw [hg] at hc
    simp only [List.mem_filter] at hc
    have h := hc.2
    simp only [Bool.not_eq_true', Bool.or_eq_false_iff, decide_eq_false_iff_not] at h
    exact h

theorem removeNode_of_none (g : FilterGraph) (n : Nat) (hn : g.getNodeForId n = none) :
    g.removeNode n = g := by
  unfold FilterGraph.removeNode
  rw [hn]

/-- After a reconciliation pass on a graph with no connection at the node `n`, a connector
view with an end at `n` can only be the draft, which the pass leaves alone. -/
theorem updateComponents_no_reference (g : FilterGraph) (q : GraphEditorPanel) (n : Nat)
    (hg : ∀ c ∈ g.connections, c.sourceNodeId ≠ n ∧ c.destNodeId ≠ n)
    (x : Child) (hx : x ∈ (q.updateComponents g).children) (cc : ConnectorComponent)
    (hc : x.comp = .connector cc) (href : cc.sourceFilterID = n ∨ cc.destFilterID = n) :
    q.draggingConnector = some x.addr := by
  have hno : cc.tuple ∉ g.connections := by
    intro hmem
    obtain ⟨h1, h2⟩ := hg _ hmem
    cases href with
    | inl h => exact h1 h
    | inr h => exact h2 h
  rcases mem_updateComponents g q x hx with ⟨c, _, hk⟩ | ⟨_, fc, hfc, _⟩ | ⟨_, cc2, hc2, hmem, _⟩
  · obtain ⟨cc0, _, htuple, hcase⟩ := keptChild_asConnector g q c x cc hk hc
    cases hcase with
    | inl h => exact h
    | inr h =>
      have := (getConnectionBetween_isSome_iff g cc0.tuple).mp h
      rw [← htuple] at this
      exact absurd this hno
  · rw [hc] at hfc
    exact absurd hfc (by simp)
  · rw [hc] at hc2
    simp only [Component.connector.injEq] at hc2
    rw [← hc2] at hmem
    exact absurd hmem hno

theorem filterMouseDown_frame (removeFilter disconnectFilter : FilterGraph → Nat → FilterGraph)
    (g : FilterGraph) (p : GraphEditorPanel) (a : Nat) (e : GestureEvent) (menuResult : Int) :
    (p.filterMouseDown removeFilter disconnectFilter g a e menuResult).2.draggingConnector
        = p.draggingConnector
      ∧ (p.filterMouseDown removeFilter disconnectFilter g a e menuResult).2.width = p.width
      ∧ (p.filterMouseDown removeFilter disconnectFilter g a e menuResult).2.height = p.height
      ∧ (p.filterMouseDown removeFilter disconnectFilter g a e menuResult).2.nextAddr
          = p.nextAddr := by
  unfold GraphEditorPanel.filterMouseDown
  cases hfc : p.filterAt a with
  | none => exact ⟨rfl, rfl, rfl, rfl⟩
  | some fc =>
    simp only
    have key : ∀ q : GraphEditorPanel, q.draggingConnector = p.draggingConnector →
        q.width = p.width → q.height = p.height → q.nextAddr = p.nextAddr →
        ((q.modifyFilterAt a (fun v =>
          { v with
            filterIsPartofSelectedGroup := p.groupFlag fc
            originalPos := (p.screenX + v.bounds.x, p.screenY + v.bounds.y) })).filterToFront
            a).draggingConnector = p.draggingConnector
        ∧ ((q.modifyFilterAt a (fun v =>
          { v with
            filterIsPartofSelectedGroup := p.groupFlag fc
            originalPos := (p.screenX + v.bounds.x, p.screenY + v.bounds.y) })).filterToFront
            a).width = p.width
        ∧ ((q.modifyFilterAt a (fun v =>
          { v with
            filterIsPartofSelectedGroup := p.groupFlag fc
            originalPos := (p.screenX + v.bounds.x, p.screenY + v.bounds.y) })).filterToFront
            a).height = p.height
        ∧ ((q.modifyFilterAt a (fun v =>
          { v with
            filterIsPartofSelectedGroup := p.groupFlag fc
            originalPos := (p.screenX + v.bounds.x, p.screenY + v.bounds.y) })).filterToFront
            a).nextAddr = p.nextAddr := by
      intro q h1 h2 h3 h4
      obtain ⟨f1, f2, f3, f4, _⟩ := filterToFront_frame (q.modifyFilterAt a (fun v =>
          { v with
            filterIsPartofSelectedGroup := p.groupFlag fc
            originalPos := (p.screenX + v.bounds.x, p.screenY + v.bounds.y) })) a
      rw [f1, f2, f3, f4]
      exact ⟨h1, h2, h3, h4⟩
    have key2 := key (if (!p.groupFlag fc) = true then
        { GraphEditorPanel.resetColours
            { p with
              selectedFilterCoordinates :=
                p.getSelectedItems.map (fun it => (it.bounds.x, it.bounds.y)) } with
          selectedFilters := [] }
      else
        { p with
          selectedFilterCoordinates :=
            p.getSelectedItems.map (fun it => (it.bounds.x, it.bounds.y)) })
      (by split <;> rfl) (by split <;> rfl) (by split <;> rfl) (by split <;> rfl)
    split
    · split
      · exact key2
      · split <;> exact key2
    · exact key2

theorem filterMouseDown_delete (removeFilter disconnectFilter : FilterGraph → Nat → FilterGraph)
    (g : FilterGraph) (p : GraphEditorPanel) (a : Nat) (fc : FilterComponent) (e : GestureEvent)
    (hfc : p.filterAt a = some fc) (hpop : e.isPopupMenu = true) :
    (p.filterMouseDown removeFilter disconnectFilter g a e 1).1 = removeFilter g fc.filterID := by
  unfold GraphEditorPanel.filterMouseDown
  simp [hfc, hpop]

theorem mem_connectorViews (cs : List Child) (v : ConnectorComponent) :
    v ∈ connectorViews cs ↔ ∃ x ∈ cs, x.comp = .connector v := by
  unfold connectorViews
  rw [List.mem_filterMap]
  constructor
  · rintro ⟨x, hx, h⟩
    refine ⟨x, hx, ?_⟩
    unfold Child.asConnector at h
    cases hc : x.comp with
    | filter fc => rw [hc] at h; simp at h
    | connector cc => rw [hc] at h; simp only [Option.some.injEq] at h; rw [h]
    | other b => rw [hc] at h; simp at h
  · rintro ⟨x, hx, h⟩
    refine ⟨x, hx, ?_⟩
    unfold Child.asConnector
    rw [h]

/-- C18: cascade. In a graph whose connections have both ends at existing nodes,
`removeNode (n)` leaves no connection with the source or the destination `n`, and changes
nothing when `n` is not present. "Delete this filter" on the view of the node `n` calls
`removeFilter (n)`; after a reconciliation pass on the graph it leaves, a connector view
with an end at `n` can only be the draft, so that there is none when no draft is in
progress. -/
theorem removeNode_cascade (disconnectFilter : FilterGraph → Nat → FilterGraph)
    (g : FilterGraph) (n : Nat) (p : GraphEditorPanel) (a : Nat) (fc : FilterComponent)
    (e : GestureEvent)
    (hvalid : ∀ c ∈ g.connections,
      (g.getNodeForId c.sourceNodeId).isSome ∧ (g.getNodeForId c.destNodeId).isSome)
    (hfc : p.filterAt a = some fc) (hpop : e.isPopupMenu = true) :
    (∀ c ∈ (g.removeNode n).connections, c.sourceNodeId ≠ n ∧ c.destNodeId ≠ n)
      ∧ (g.getNodeForId n = none → g.removeNode n = g)
      ∧ (p.filterMouseDown FilterGraph.removeNode disconnectFilter g a e 1).1
          = g.removeNode fc.filterID
      ∧ (∀ x ∈ ((p.filterMouseDown FilterGraph.removeNode disconnectFilter g a e 1).2.updateComponents
              (p.filterMouseDown FilterGraph.removeNode disconnectFilter g a e 1).1).children,
          ∀ cc, x.comp = .connector cc →
            cc.sourceFilterID = fc.filterID ∨ cc.destFilterID = fc.filterID →
            p.draggingConnector = some x.addr)
      ∧ (p.draggingConnector = none →
          ∀ cc ∈ connectorViews
              ((p.filterMouseDown FilterGraph.removeNode disconnectFilter g a e 1).2.updateComponents
                (p.filterMouseDown FilterGraph.removeNode disconnectFilter g a e 1).1).children,
            cc.sourceFilterID ≠ fc.filterID ∧ cc.destFilterID ≠ fc.filterID) := by
  have hcas : ∀ m, ∀ c ∈ (g.removeNode m).connections, c.sourceNodeId ≠ m ∧ c.destNodeId ≠ m := by
    intro m c hc
    cases hm : g.getNodeForId m with
    | some f => exact removeNode_connections g m (by rw [hm]; rfl) c hc
    | none =>
      rw [removeNode_of_none g m hm] at hc
      obtain ⟨h1, h2⟩ := hvalid c hc
      constructor
      · intro h
        rw [h, hm] at h1
        exact absurd h1 (by simp)
      · intro h
        rw [h, hm] at h2
        exact absurd h2 (by simp)
  have hdel := filterMouseDown_delete FilterGraph.removeNode disconnectFilter g p a fc e hfc hpop
  have hdraft := (filterMouseDown_frame FilterGraph.removeNode disconnectFilter g p a e 1).1
  have hview : ∀ x ∈ ((p.filterMouseDown FilterGraph.removeNode disconnectFilter g a e
        1).2.updateComponents
        (p.filterMouseDown FilterGraph.removeNode disconnectFilter g a e 1).1).children,
      ∀ cc, x.comp = .connector cc →
        cc.sourceFilterID = fc.filterID ∨ cc.destFilterID = fc.filterID →
        p.draggingConnector = some x.addr := by
    intro x hx cc hc href
    rw [← hdraft]
    refine updateComponents_no_reference _ _ fc.filterID ?_ x hx cc hc href
    rw [hdel]
    exact hcas fc.filterID
  refine ⟨hcas n, removeNode_of_none g n, hdel, hview, ?_⟩
  intro hidle cc hcc
  obtain ⟨x, hx, hc⟩ := (mem_connectorViews _ _).mp hcc
  constructor
  · intro h
    have := hview x hx cc hc (Or.inl h)
    rw [hidle] at this
    exact absurd this (by simp)
  · intro h
    have := hview x hx cc hc (Or.inr h)
    rw [hidle] at this
    exact absurd this (by simp)

/-- Witness of C18: in the idle example panel, "Delete this filter" on the view of node 1
removes node 1 and its connection, and the reconciliation pass leaves no connector view. -/
theorem removeNode_cascade_witness :
    (exampleIdlePanel.filterMouseDown FilterGraph.removeNode exampleNoOp exampleGraph 1
        { pos := ⟨200, 150⟩, isPopupMenu := true } 1).1 = exampleGraph.removeNode 1
      ∧ connectorViews
          ((exampleIdlePanel.filterMouseDown FilterGraph.removeNode exampleNoOp exampleGraph 1
              { pos := ⟨200, 150⟩, isPopupMenu := true } 1).2.updateComponents
            (exampleIdlePanel.filterMouseDown FilterGraph.removeNode exampleNoOp exampleGraph 1
              { pos := ⟨200, 150⟩, isPopupMenu := true } 1).1).children = [] := by
  refine ⟨(removeNode_cascade exampleNoOp exampleGraph 1 exampleIdlePanel 1 exampleViewA
    { pos := ⟨200, 150⟩, isPopupMenu := true } (by decide) (by rfl) (by rfl)).2.2.1, ?_⟩
  decide!


/-! ## The legality of a connection: one writer for each input -/

theorem canConnect_single_writer (g : FilterGraph) (s : Nat) (sc : Int) (d : Nat) (dc : Int)
    (h : g.canConnect s sc d dc = true) (c : Connection) (hc : c ∈ g.connections)
    (hd : c.destNodeId = d) (hdc : c.destChannelIndex = dc) :
    c.sourceNodeId = s ∧ c.sourceChannelIndex = sc := by
  unfold FilterGraph.canConnect at h
  split at h
  · simp only [Bool.and_eq_true, Bool.not_eq_true', List.any_eq_false] at h
    have h4 := h.1.2 c hc
    simpa [hd, hdc] using h4
  · exact absurd h (by simp)

theorem canConnect_of_other_source (g : FilterGraph) (s t : Nat) (sc : Int) (d : Nat) (dc : Int)
    (hst : t ≠ s)
    (hmem : ({ sourceNodeId := s, sourceChannelIndex := sc, destNodeId := d,
               destChannelIndex := dc } : Connection) ∈ g.connections) :
    g.canConnect t sc d dc = false := by
  by_contra hne
  have h : g.canConnect t sc d dc = true := by
    cases hv : g.canConnect t sc d dc with
    | true => rfl
    | false => exact absurd hv hne
  have := (canConnect_single_writer g t sc d dc h _ hmem rfl rfl).1
  exact hst this.symm

theorem canConnect_congr (g g2 : FilterGraph) (hn : g2.nodes = g.nodes)
    (hc : g2.connections = g.connections) (s : Nat) (sc : Int) (d : Nat) (dc : Int) :
    g2.canConnect s sc d dc = g.canConnect s sc d dc := by
  unfold FilterGraph.canConnect FilterGraph.getNodeForId
  rw [hn, hc]

theorem getConnectionBetween_isNone_iff (g : FilterGraph) (c : Connection) :
    (g.getConnectionBetween c.sourceNodeId c.sourceChannelIndex c.destNodeId
        c.destChannelIndex).isNone ↔ c ∉ g.connections := by
  rw [← getConnectionBetween_isSome_iff g c]
  cases g.getConnectionBetween c.sourceNodeId c.sourceChannelIndex c.destNodeId
    c.destChannelIndex <;> simp

theorem addConnection_of_succeeds (g : FilterGraph) (s : Nat) (sc : Int) (d : Nat) (dc : Int)
    (h : g.addConnectionSucceeds s sc d dc = true) :
    (g.addConnection s sc d dc).nodes = g.nodes
      ∧ (g.addConnection s sc d dc).connections
          = g.connections ++ [{ sourceNodeId := s, sourceChannelIndex := sc, destNodeId := d,
                                destChannelIndex := dc }] := by
  unfold FilterGraph.addConnection
  rw [if_pos h]
  exact ⟨rfl, rfl⟩

theorem addConnection_of_rejected (g : FilterGraph) (s : Nat) (sc : Int) (d : Nat) (dc : Int)
    (h : g.addConnectionSucceeds s sc d dc = false) : g.addConnection s sc d dc = g := by
  unfold FilterGraph.addConnection
  rw [if_neg (by simp [h])]

theorem removeConnection_nodes (g : FilterGraph) (s : Nat) (sc : Int) (d : Nat) (dc : Int) :
    (g.removeConnection s sc d dc).nodes = g.nodes := rfl

theorem mem_removeConnection (g : FilterGraph) (s : Nat) (sc : Int) (d : Nat) (dc : Int)
    (c : Connection) :
    c ∈ (g.removeConnection s sc d dc).connections
      ↔ c ∈ g.connections ∧ c ≠ { sourceNodeId := s, sourceChannelIndex := sc, destNodeId := d,
                                   destChannelIndex := dc } := by
  unfold FilterGraph.removeConnection
  simp only [List.mem_filter]
  obtain ⟨cs, csc, cd, cdc⟩ := c
  simp only [Bool.not_eq_true', Bool.and_eq_false_iff, decide_eq_false_iff_not, ne_eq,
    Connection.mk.injEq]
  constructor
  · rintro ⟨h1, h2⟩
    refine ⟨h1, ?_⟩
    rintro ⟨e1, e2, e3, e4⟩
    rcases h2 with ((h | h) | h) | h
    · exact h e1
    · exact h e2
    · exact h e3
    · exact h e4
  · rintro ⟨h1, h2⟩
    refine ⟨h1, ?_⟩
    by_cases e1 : cs = s
    · by_cases e2 : csc = sc
      · by_cases e3 : cd = d
        · by_cases e4 : cdc = dc
          · exact absurd ⟨e1, e2, e3, e4⟩ h2
          · exact Or.inr e4
        · exact Or.inl (Or.inr e3)
      · exact Or.inl (Or.inl (Or.inr e2))
    · exact Or.inl (Or.inl (Or.inl e1))

theorem removeConnection_addConnection (g : FilterGraph) (s : Nat) (sc : Int) (d : Nat)
    (dc : Int) (h : g.addConnectionSucceeds s sc d dc = true) :
    (g.addConnection s sc d dc).removeConnection s sc d dc = g := by
  have hnew : (⟨s, sc, d, dc⟩ : Connection) ∉ g.connections := by
    unfold FilterGraph.addConnectionSucceeds at h
    simp only [Bool.and_eq_true] at h
    exact (getConnectionBetween_isNone_iff g ⟨s, sc, d, dc⟩).mp h.2
  unfold FilterGraph.addConnection
  rw [if_pos h]
  unfold FilterGraph.removeConnection
  simp only [List.filter_append]
  have h1 : g.connections.filter (fun c =>
      !(decide (c.sourceNodeId = s) && decide (c.sourceChannelIndex = sc)
        && decide (c.destNodeId = d) && decide (c.destChannelIndex = dc))) = g.connections := by
    rw [List.filter_eq_self]
    intro c hc
    have := (mem_removeConnection g s sc d dc c).mpr ⟨hc, fun he => hnew (he ▸ hc)⟩
    unfold FilterGraph.removeConnection at this
    exact (List.mem_filter.mp this).2
  rw [h1]
  simp

theorem addConnection_fanInFree (g : FilterGraph) (s : Nat) (sc : Int) (d : Nat) (dc : Int)
    (hg : g.fanInFree) : (g.addConnection s sc d dc).fanInFree := by
  cases h : g.addConnectionSucceeds s sc d dc with
  | false => rw [addConnection_of_rejected g s sc d dc h]; exact hg
  | true =>
    unfold FilterGraph.fanInFree
    rw [(addConnection_of_succeeds g s sc d dc h).2, List.pairwise_append]
    refine ⟨hg, List.pairwise_singleton _ _, ?_⟩
    intro c hc t ht
    rw [List.mem_singleton] at ht
    subst ht
    rintro ⟨e1, e2⟩
    unfold FilterGraph.addConnectionSucceeds at h
    simp only [Bool.and_eq_true] at h
    obtain ⟨k1, k2⟩ := canConnect_single_writer g s sc d dc h.1 c hc e1 e2
    have hnew := (getConnectionBetween_isNone_iff g ⟨s, sc, d, dc⟩).mp h.2
    apply hnew
    obtain ⟨cs, csc, cd, cdc⟩ := c
    simp only at k1 k2 e1 e2
    rw [← k1, ← k2, ← e1, ← e2]
    exact hc

theorem endDraggingConnector_graph_cases
    (addConnection : FilterGraph → Nat → Int → Nat → Int → FilterGraph)
    (g : FilterGraph) (p : GraphEditorPanel) (e2 : MouseEvent) :
    (p.endDraggingConnector addConnection g e2).1 = g
      ∨ ∃ s sc d dc, (p.endDraggingConnector addConnection g e2).1 = addConnection g s sc d dc := by
  unfold GraphEditorPanel.endDraggingConnector
  split
  · exact Or.inl rfl
  · simp only
    split
    · exact Or.inl rfl
    · split
      · split
        · split
          · exact Or.inl rfl
          · exact Or.inr ⟨_, _, _, _, rfl⟩
        · split
          · exact Or.inl rfl
          · exact Or.inr ⟨_, _, _, _, rfl⟩
      · exact Or.inl rfl

/-- C19: fan-in exclusion. When `addConnection (A, 0, X, 0)` succeeds on a graph in which
`(B, 0, X, 0)` is a legal request, with `B` different from `A`: the connection is in the
graph afterwards; in every graph that holds the connection `(A, 0, X, 0)`, the request
`addConnection (B, 0, X, 0)` is rejected and leaves the graph as it is; once the first
connection is removed the request succeeds and the connection `(B, 0, X, 0)` is in the
graph. The release handler `endDraggingConnector`, run with this `addConnection`, takes a
graph in which no two connections enter the same destination input to such a graph. -/
theorem addConnection_fan_in (g : FilterGraph) (A B X : Nat) (p : GraphEditorPanel)
    (e2 : MouseEvent) (hAB : B ≠ A) (hA : g.addConnectionSucceeds A 0 X 0 = true)
    (hB : g.canConnect B 0 X 0 = true) :
    ({ sourceNodeId := A, sourceChannelIndex := 0, destNodeId := X, destChannelIndex := 0 }
        : Connection) ∈ (g.addConnection A 0 X 0).connections
      ∧ (∀ g2 : FilterGraph,
          ({ sourceNodeId := A, sourceChannelIndex := 0, destNodeId := X, destChannelIndex := 0 }
            : Connection) ∈ g2.connections →
          g2.addConnectionSucceeds B 0 X 0 = false ∧ g2.addConnection B 0 X 0 = g2)
      ∧ ((g.addConnection A 0 X 0).removeConnection A 0 X 0).addConnectionSucceeds B 0 X 0 = true
      ∧ ({ sourceNodeId := B, sourceChannelIndex := 0, destNodeId := X, destChannelIndex := 0 }
          : Connection)
          ∈ (((g.addConnection A 0 X 0).removeConnection A 0 X 0).addConnection B 0 X
              0).connections
      ∧ (g.fanInFree →
          (p.endDraggingConnector FilterGraph.addConnection g e2).1.fanInFree) := by
  have h1 := (addConnection_of_succeeds g A 0 X 0 hA).2
  have hrej : ∀ g2 : FilterGraph,
      ({ sourceNodeId := A, sourceChannelIndex := 0, destNodeId := X, destChannelIndex := 0 }
        : Connection) ∈ g2.connections →
      g2.addConnectionSucceeds B 0 X 0 = false ∧ g2.addConnection B 0 X 0 = g2 := by
    intro g2 hmem
    have hc := canConnect_of_other_source g2 A B 0 X 0 hAB hmem
    have hs : g2.addConnectionSucceeds B 0 X 0 = false := by
      unfold FilterGraph.addConnectionSucceeds
      rw [hc]
      rfl
    exact ⟨hs, addConnection_of_rejected g2 B 0 X 0 hs⟩
  have hback := removeConnection_addConnection g A 0 X 0 hA
  have hsB : g.addConnectionSucceeds B 0 X 0 = true := by
    unfold FilterGraph.addConnectionSucceeds at hA ⊢
    simp only [Bool.and_eq_true] at hA ⊢
    refine ⟨hB, ?_⟩
    rw [getConnectionBetween_isNone_iff g ⟨B, 0, X, 0⟩]
    intro hmem
    have := (canConnect_single_writer g A 0 X 0 hA.1 _ hmem rfl rfl).1
    exact hAB this
  refine ⟨?_, hrej, ?_, ?_, ?_⟩
  · rw [h1]
    simp
  · rw [hback]
    exact hsB
  · rw [hback, (addConnection_of_succeeds g B 0 X 0 hsB).2]
    simp
  · intro hg
    rcases endDraggingConnector_graph_cases FilterGraph.addConnection g p e2 with h | ⟨s, sc, d, dc, h⟩
    · rw [h]
      exact hg
    · rw [h]
      exact addConnection_fanInFree g s sc d dc hg

/-- Witness of C19: in `exampleFanInGraph`, after (1, 0, 2, 0) is added, (3, 0, 2, 0) is
rejected, and it is accepted once (1, 0, 2, 0) is removed. -/
theorem addConnection_fan_in_witness :
    ((exampleFanInGraph.addConnection 1 0 2 0).addConnectionSucceeds 3 0 2 0 = false
        ∧ (exampleFanInGraph.addConnection 1 0 2 0).addConnection 3 0 2 0
            = exampleFanInGraph.addConnection 1 0 2 0)
      ∧ ((exampleFanInGraph.addConnection 1 0 2 0).removeConnection 1 0 2
            0).addConnectionSucceeds 3 0 2 0 = true := by
  have h := addConnection_fan_in exampleFanInGraph 1 3 2 exampleIdlePanel ⟨580, 425⟩
    (by decide) (by decide) (by decide)
  exact ⟨h.2.1 _ h.1, h.2.2.1⟩


/-! ## Counting the connector views of one 4-tuple -/

theorem afterCalls_fields (calls : List (Nat × ℚ × ℚ)) (f : Node) :
    (f.afterCalls calls).nodeId = f.nodeId ∧ (f.afterCalls calls).processor = f.processor := by
  unfold Node.afterCalls
  induction calls generalizing f with
  | nil => exact ⟨rfl, rfl⟩
  | cons c rest ih =>
    rw [List.foldl_cons]
    obtain ⟨h1, h2⟩ := ih (if f.nodeId = c.1 then { f with x := c.2.1, y := c.2.2 } else f)
    rw [h1, h2]
    split <;> exact ⟨rfl, rfl⟩

theorem afterCalls_of_not_mem (calls : List (Nat × ℚ × ℚ)) (f : Node)
    (h : f.nodeId ∉ calls.map Prod.fst) : f.afterCalls calls = f := by
  unfold Node.afterCalls
  induction calls generalizing f with
  | nil => rfl
  | cons c rest ih =>
    rw [List.map_cons, List.mem_cons, not_or] at h
    rw [List.foldl_cons, if_neg h.1]
    exact ih f h.2

theorem afterCalls_congr (calls : List (Nat × ℚ × ℚ)) (f f2 : Node)
    (hid : f2.nodeId = f.nodeId) (hpr : f2.processor = f.processor)
    (h : f2 = f ∨ f.nodeId ∈ calls.map Prod.fst) : f2.afterCalls calls = f.afterCalls calls := by
  unfold Node.afterCalls
  induction calls generalizing f f2 with
  | nil =>
    cases h with
    | inl h => rw [h]
    | inr h => exact absurd h (List.not_mem_nil _)
  | cons c rest ih =>
    rw [List.foldl_cons, List.foldl_cons]
    by_cases hc : f.nodeId = c.1
    · have hc2 : f2.nodeId = c.1 := hid.trans hc
      rw [if_pos hc, if_pos hc2]
      apply ih
      · exact hid
      · exact hpr
      · left
        obtain ⟨i1, p1, x1, y1⟩ := f
        obtain ⟨i2, p2, x2, y2⟩ := f2
        simp only at hid hpr
        rw [hid, hpr]
    · have hc2 : ¬ f2.nodeId = c.1 := fun h2 => hc (hid.symm.trans h2)
      rw [if_neg hc, if_neg hc2]
      apply ih f f2 hid hpr
      cases h with
      | inl h => exact Or.inl h
      | inr h =>
        rw [List.map_cons, List.mem_cons] at h
        cases h with
        | inl h => exact absurd h hc
        | inr h => exact Or.inr h

theorem applyCalls_eq (g : FilterGraph) (calls : List (Nat × ℚ × ℚ)) :
    applyCalls FilterGraph.setNodePosition g calls
      = { g with nodes := g.nodes.map (Node.afterCalls calls) } := by
  unfold applyCalls
  induction calls generalizing g with
  | nil =>
    have : Node.afterCalls [] = id := by funext f; rfl
    rw [this, List.map_id]
    rfl
  | cons c rest ih =>
    rw [List.foldl_cons, ih]
    unfold FilterGraph.setNodePosition
    simp only [List.map_map]
    rfl

theorem sameApartFrom_refl (ids : List Nat) (g : FilterGraph) : g.sameApartFrom ids g := by
  refine ⟨⟨rfl, rfl⟩, ?_⟩
  generalize g.nodes = l
  induction l with
  | nil => exact List.Forall₂.nil
  | cons f t ih => exact List.Forall₂.cons ⟨rfl, rfl, fun _ => rfl⟩ ih

theorem sameApartFrom_applyCalls (ids : List Nat) (g g2 : FilterGraph)
    (calls : List (Nat × ℚ × ℚ)) (h : g.sameApartFrom ids g2)
    (hc : ∀ n ∈ calls.map Prod.fst, n ∈ ids) :
    g.sameApartFrom ids (applyCalls FilterGraph.setNodePosition g2 calls) := by
  rw [applyCalls_eq]
  refine ⟨h.1, ?_⟩
  simp only
  rw [List.forall₂_map_right_iff]
  refine List.Forall₂.imp ?_ h.2
  intro f f2 hr
  obtain ⟨h1, h2, h3⟩ := hr
  obtain ⟨k1, k2⟩ := afterCalls_fields calls f2
  refine ⟨k1.trans h1, k2.trans h2, ?_⟩
  intro hnot
  rw [h3 hnot]
  apply afterCalls_of_not_mem
  intro hmem
  exact hnot (hc _ hmem)

theorem applyCalls_sameApartFrom (ids : List Nat) (g g2 : FilterGraph)
    (calls : List (Nat × ℚ × ℚ)) (h : g.sameApartFrom ids g2)
    (hc : ∀ n ∈ ids, n ∈ calls.map Prod.fst) :
    applyCalls FilterGraph.setNodePosition g2 calls
      = applyCalls FilterGraph.setNodePosition g calls := by
  rw [applyCalls_eq, applyCalls_eq]
  obtain ⟨gn, gc, gl⟩ := g
  obtain ⟨gn2, gc2, gl2⟩ := g2
  obtain ⟨⟨h1, h1b⟩, h2⟩ := h
  simp only at h1 h1b h2 ⊢
  rw [h1, h1b]
  congr 1
  induction h2 with
  | nil => rfl
  | @cons f f2 t t2 hr _ ih =>
    rw [List.map_cons, List.map_cons, ih]
    congr 1
    apply afterCalls_congr calls f f2 hr.1 hr.2.1
    by_cases hin : f.nodeId ∈ ids
    · exact Or.inr (hc _ hin)
    · exact Or.inl (hr.2.2 hin)

theorem sameApartFrom_getNodeForId (ids : List Nat) (g g2 : FilterGraph)
    (h : g.sameApartFrom ids g2) (n : Nat) (f : Node) (hf : g.getNodeForId n = some f) :
    ∃ f2, g2.getNodeForId n = some f2 ∧ f2.nodeId = f.nodeId ∧ f2.processor = f.processor := by
  unfold FilterGraph.getNodeForId at hf ⊢
  obtain ⟨gn, gc⟩ := g
  obtain ⟨gn2, gc2⟩ := g2
  have h2 := h.2
  clear h
  simp only at h2 hf ⊢
  induction h2 with
  | nil => exact absurd hf (by simp)
  | @cons f1 f12 t t2 hr _ ih =>
    rw [List.find?_cons] at hf ⊢
    by_cases hn : f1.nodeId = n
    · have hn2 : f12.nodeId = n := hr.1.trans hn
      simp only [hn, beq_self_eq_true, Option.some.injEq] at hf
      simp only [hn2, beq_self_eq_true]
      subst hf
      exact ⟨f12, rfl, hr.1, hr.2.1⟩
    · have hn2 : ¬ f12.nodeId = n := fun h2 => hn (hr.1.symm.trans h2)
      have e1 : (f1.nodeId == n) = false := by simpa using hn
      have e2 : (f12.nodeId == n) = false := by simpa using hn2
      rw [e1] at hf
      rw [e2]
      exact ih hf

theorem mem_of_filterAt (p : GraphEditorPanel) (b : Nat) (v : FilterComponent)
    (h : p.filterAt b = some v) : (⟨b, .filter v⟩ : Child) ∈ p.children := by
  unfold GraphEditorPanel.filterAt at h
  obtain ⟨c, hc, hf⟩ := List.exists_of_findSome?_eq_some h
  obtain ⟨ca, comp⟩ := c
  cases comp with
  | filter fc =>
    simp only at hf
    split at hf
    · rename_i hb
      simp only [Option.some.injEq] at hf
      rw [← hb, ← hf]
      exact hc
    · exact absurd hf (by simp)
  | connector cc => exact absurd hf (by simp)
  | other r => exact absurd hf (by simp)

theorem filterAt_of_mem (p : GraphEditorPanel) (hwf : p.WellFormed) (b : Nat)
    (v : FilterComponent) (h : (⟨b, .filter v⟩ : Child) ∈ p.children) :
    p.filterAt b = some v := by
  cases hv : p.filterAt b with
  | some v2 =>
    have h2 := mem_of_filterAt p b v2 hv
    have := wellFormed_unique p hwf _ _ h h2 rfl
    simp only [Child.mk.injEq, Component.filter.injEq, true_and] at this
    rw [this]
  | none =>
    unfold GraphEditorPanel.filterAt at hv
    rw [List.findSome?_eq_none_iff] at hv
    have := hv _ h
    simp at this

theorem filterAt_modifyFilterAt (p : GraphEditorPanel) (a b : Nat)
    (f : FilterComponent → FilterComponent) :
    (p.modifyFilterAt a f).filterAt b
      = (p.filterAt b).map (fun v => if b = a then f v else v) := by
  unfold GraphEditorPanel.modifyFilterAt GraphEditorPanel.filterAt
  simp only
  rw [List.findSome?_map, ← findSome?_map_option]
  congr 1
  funext c
  obtain ⟨ca, comp⟩ := c
  simp only [Function.comp]
  cases comp with
  | connector cc => simp
  | filter fc =>
    by_cases hb : ca = b
    · subst hb
      by_cases ha : ca = a
      · subst ha
        simp
      · simp [ha]
    · by_cases ha : ca = a
      · subst ha
        simp [hb]
      · simp [ha, hb]
  | other r => simp

theorem modifyFilterAt_addrs (p : GraphEditorPanel) (a : Nat)
    (f : FilterComponent → FilterComponent) :
    (p.modifyFilterAt a f).children.map Child.addr = p.children.map Child.addr := by
  unfold GraphEditorPanel.modifyFilterAt
  simp only [List.map_map]
  apply List.map_congr_left
  intro c _
  obtain ⟨ca, comp⟩ := c
  simp only [Function.comp]
  cases comp with
  | connector cc => rfl
  | filter fc =>
    simp only
    by_cases ha : ca = a
    · rw [if_pos ha]
    · rw [if_neg ha]
  | other r => rfl

theorem modifyFilterAt_wellFormed (p : GraphEditorPanel) (a : Nat)
    (f : FilterComponent → FilterComponent) (hwf : p.WellFormed) :
    (p.modifyFilterAt a f).WellFormed := by
  unfold GraphEditorPanel.WellFormed
  rw [modifyFilterAt_addrs]
  refine ⟨hwf.1, ?_⟩
  intro c hc
  have hmem : c.addr ∈ (p.modifyFilterAt a f).children.map Child.addr :=
    List.mem_map_of_mem _ hc
  rw [modifyFilterAt_addrs] at hmem
  obtain ⟨c0, hc0, he⟩ := List.mem_map.mp hmem
  rw [← he]
  exact hwf.2 c0 hc0

theorem placed_gesture_fields (g : FilterGraph) (w h : Int) (f : Node) (fc : FilterComponent) :
    (fc.placed g w h f).filterIsPartofSelectedGroup = fc.filterIsPartofSelectedGroup
      ∧ (fc.placed g w h f).originalPos = fc.originalPos := by
  have hs : ∀ (v : FilterComponent) (a b : Int),
      (v.setSize a b).filterIsPartofSelectedGroup = v.filterIsPartofSelectedGroup
        ∧ (v.setSize a b).originalPos = v.originalPos := by
    intro v a b
    unfold FilterComponent.setSize
    split <;> exact ⟨rfl, rfl⟩
  obtain ⟨h1, h2⟩ := hs
    { fc with numIns := f.processor.totalIns, numOuts := f.processor.totalOuts }
    f.processor.viewWidth f.processor.viewHeight
  unfold FilterComponent.placed FilterComponent.setCentreRelative
  exact ⟨h1, h2⟩

theorem update_gesture_fields (g : FilterGraph) (w h : Int) (fc fc1 : FilterComponent)
    (hu : fc.update g w h = some fc1) :
    fc1.filterIsPartofSelectedGroup = fc.filterIsPartofSelectedGroup
      ∧ fc1.originalPos = fc.originalPos := by
  cases hf : g.getNodeForId fc.filterID with
  | none =>
    have := (update_eq_none_iff g w h fc).mpr hf
    rw [this] at hu
    exact absurd hu (by simp)
  | some f =>
    rw [update_of_node g w h fc f hf] at hu
    injection hu with hu
    obtain ⟨h1, h2⟩ := placed_gesture_fields g w h f fc
    subst hu
    split
    · exact ⟨h1, h2⟩
    · exact ⟨h1, h2⟩

theorem addAndMakeVisible_perm (cs : List Child) (c : Child) :
    (addAndMakeVisible cs c).Perm (c :: cs) := by
  unfold addAndMakeVisible
  split
  · exact List.perm_append_singleton c cs
  · simp only
    conv_rhs => rw [children_split cs]
    exact List.perm_middle

theorem addAndMakeVisible_wellFormed (q : GraphEditorPanel) (comp : Component)
    (hwf : q.WellFormed) :
    GraphEditorPanel.WellFormed
      { q with
        children := addAndMakeVisible q.children { addr := q.nextAddr, comp := comp }
        nextAddr := q.nextAddr + 1 } := by
  unfold GraphEditorPanel.WellFormed
  simp only
  have hperm := (addAndMakeVisible_perm q.children { addr := q.nextAddr, comp := comp }).map
    Child.addr
  constructor
  · rw [hperm.nodup_iff, List.map_cons, List.nodup_cons]
    refine ⟨?_, hwf.1⟩
    intro hmem
    obtain ⟨c0, hc0, he⟩ := List.mem_map.mp hmem
    have := hwf.2 c0 hc0
    simp only at he
    omega
  · intro c hc
    rw [mem_addAndMakeVisible] at hc
    cases hc with
    | inl h => exact Nat.lt_succ_of_lt (hwf.2 c h)
    | inr h => rw [h]; exact Nat.lt_succ_self _

theorem wellFormed_of_nextAddr (q : GraphEditorPanel) (hwf : q.WellFormed) :
    GraphEditorPanel.WellFormed { q with nextAddr := q.nextAddr + 1 } :=
  ⟨hwf.1, fun c hc => Nat.lt_succ_of_lt (hwf.2 c hc)⟩

theorem addFilterComponent_wellFormed (g : FilterGraph) (f : Node) (q : GraphEditorPanel)
    (hwf : q.WellFormed) : (q.addFilterComponent g f).WellFormed := by
  unfold GraphEditorPanel.addFilterComponent
  split
  · split
    · exact addAndMakeVisible_wellFormed q _ hwf
    · exact wellFormed_of_nextAddr q hwf
  · exact hwf

theorem addConnectorComponent_wellFormed (c : Connection) (q : GraphEditorPanel)
    (hwf : q.WellFormed) : (q.addConnectorComponent c).WellFormed := by
  unfold GraphEditorPanel.addConnectorComponent
  split
  · exact addAndMakeVisible_wellFormed q _ hwf
  · exact hwf

theorem filterMap_addr_sublist (f : Child → Option Child)
    (hf : ∀ c x, f c = some x → x.addr = c.addr) (l : List Child) :
    ((l.filterMap f).map Child.addr).Sublist (l.map Child.addr) := by
  induction l with
  | nil => exact List.Sublist.slnil
  | cons c t ih =>
    cases hc : f c with
    | none =>
      rw [List.filterMap_cons_none hc, List.map_cons]
      exact List.Sublist.cons _ ih
    | some x =>
      rw [List.filterMap_cons_some hc, List.map_cons, List.map_cons, hf c x hc]
      exact List.Sublist.cons₂ _ ih

theorem kept_wellFormed (g : FilterGraph) (p : GraphEditorPanel) (hwf : p.WellFormed) :
    ((p.updateFilterComponents g).updateConnectorComponents g).WellFormed := by
  unfold GraphEditorPanel.WellFormed
  rw [children_kept]
  constructor
  · exact List.Nodup.sublist
      (filterMap_addr_sublist (p.keptChild g) (fun c x h => keptChild_addr g p c x h) p.children)
      hwf.1
  · intro x hx
    obtain ⟨c, hc, hk⟩ := List.mem_filterMap.mp hx
    rw [keptChild_addr g p c x hk]
    exact hwf.2 c hc

theorem updateComponents_wellFormed (g : FilterGraph) (p : GraphEditorPanel)
    (hwf : p.WellFormed) : (p.updateComponents g).WellFormed := by
  unfold GraphEditorPanel.updateComponents
  have h3 : ∀ ns : List Node, (ns.foldr (GraphEditorPanel.addFilterComponent g)
      ((p.updateFilterComponents g).updateConnectorComponents g)).WellFormed := by
    intro ns
    induction ns with
    | nil => exact kept_wellFormed g p hwf
    | cons n ns ih =>
      rw [List.foldr_cons]
      exact addFilterComponent_wellFormed g n _ ih
  generalize g.connections = cs
  induction cs with
  | nil => exact h3 g.nodes
  | cons c cs ih =>
    rw [List.foldr_cons]
    exact addConnectorComponent_wellFormed c _ ih

theorem updateComponents_selection (g : FilterGraph) (p : GraphEditorPanel) :
    (p.updateComponents g).selectedFilters = p.selectedFilters
      ∧ (p.updateComponents g).selectedFilterCoordinates = p.selectedFilterCoordinates
      ∧ (p.updateComponents g).screenX = p.screenX
      ∧ (p.updateComponents g).screenY = p.screenY := by
  unfold GraphEditorPanel.updateComponents
  have h3 : ∀ ns : List Node,
      (ns.foldr (GraphEditorPanel.addFilterComponent g)
          ((p.updateFilterComponents g).updateConnectorComponents g)).selectedFilters
          = p.selectedFilters
        ∧ (ns.foldr (GraphEditorPanel.addFilterComponent g)
            ((p.updateFilterComponents g).updateConnectorComponents
              g)).selectedFilterCoordinates = p.selectedFilterCoordinates
        ∧ (ns.foldr (GraphEditorPanel.addFilterComponent g)
            ((p.updateFilterComponents g).updateConnectorComponents g)).screenX = p.screenX
        ∧ (ns.foldr (GraphEditorPanel.addFilterComponent g)
            ((p.updateFilterComponents g).updateConnectorComponents g)).screenY = p.screenY := by
    intro ns
    induction ns with
    | nil => exact ⟨rfl, rfl, rfl, rfl⟩
    | cons n ns ih =>
      rw [List.foldr_cons]
      obtain ⟨h1, h2, h3, h4⟩ := ih
      unfold GraphEditorPanel.addFilterComponent
      split
      · split
        · exact ⟨h1, h2, h3, h4⟩
        · exact ⟨h1, h2, h3, h4⟩
      · exact ⟨h1, h2, h3, h4⟩
  generalize g.connections = cs
  induction cs with
  | nil => exact h3 g.nodes
  | cons c cs ih =>
    rw [List.foldr_cons]
    obtain ⟨h1, h2, h3, h4⟩ := ih
    unfold GraphEditorPanel.addConnectorComponent
    split
    · exact ⟨h1, h2, h3, h4⟩
    · exact ⟨h1, h2, h3, h4⟩

theorem filterAt_updateComponents (g : FilterGraph) (p : GraphEditorPanel) (hwf : p.WellFormed)
    (b : Nat) (v v1 : FilterComponent) (hv : p.filterAt b = some v)
    (hu : v.update g p.width p.height = some v1) :
    (p.updateComponents g).filterAt b = some v1 := by
  apply filterAt_of_mem _ (updateComponents_wellFormed g p hwf)
  apply mem_kept g p ⟨b, .filter v⟩ _ (mem_of_filterAt p b v hv)
  rw [keptChild_filter, hu]
  rfl

theorem getSelectedItems_ids (p q : GraphEditorPanel)
    (hs : q.selectedFilters = p.selectedFilters)
    (hv : ∀ b ∈ p.selectedFilters,
      (q.filterAt b).map FilterComponent.filterID = (p.filterAt b).map FilterComponent.filterID) :
    q.getSelectedItems.map FilterComponent.filterID
      = p.getSelectedItems.map FilterComponent.filterID := by
  unfold GraphEditorPanel.getSelectedItems
  rw [List.map_filterMap, List.map_filterMap, hs]
  apply List.filterMap_congr
  intro b hb
  exact hv b hb

theorem groupFlag_eq (p : GraphEditorPanel) (fc : FilterComponent) :
    p.groupFlag fc
      = (fc.filterIsPartofSelectedGroup
          || (p.getSelectedItems.map FilterComponent.filterID).any (fun n => n == fc.filterID)) := by
  unfold GraphEditorPanel.groupFlag
  congr 1
  induction p.getSelectedItems with
  | nil => rfl
  | cons x t ih => simp only [List.any_cons, List.map_cons, ih]

theorem enumFrom_map_snd {α β γ : Type} (f : α → β) (H : β → Nat → γ) (l : List α) (n : Nat) :
    (l.enumFrom n).map (fun it => H (f it.2) it.1)
      = ((l.map f).enumFrom n).map (fun it => H it.2 it.1) := by
  induction l generalizing n with
  | nil => rfl
  | cons x t ih =>
    simp only [List.enumFrom_cons, List.map_cons]
    rw [ih]

theorem filterDragPixels_eq (p : GraphEditorPanel) (fc : FilterComponent) (inGroup : Bool)
    (e : GestureEvent) :
    p.filterDragPixels fc inGroup e
      = if inGroup then
          ((p.getSelectedItems.map FilterComponent.filterID).enumFrom 0).map (fun it =>
            (it.2,
             (p.selectedFilterCoordinates.getD it.1 (0, 0)).1 + e.distanceFromDragStartX
               + fc.bounds.w / 2,
             (p.selectedFilterCoordinates.getD it.1 (0, 0)).2 + e.distanceFromDragStartY
               + fc.bounds.h / 2))
        else
          [(fc.filterID,
            fc.originalPos.1 + e.distanceFromDragStartX - p.screenX + fc.bounds.w / 2,
            fc.originalPos.2 + e.distanceFromDragStartY - p.screenY + fc.bounds.h / 2)] := by
  unfold GraphEditorPanel.filterDragPixels
  cases inGroup with
  | false => rfl
  | true =>
    simp only [if_true]
    exact enumFrom_map_snd FilterComponent.filterID
      (fun n i =>
        (n,
         (p.selectedFilterCoordinates.getD i (0, 0)).1 + e.distanceFromDragStartX
           + fc.bounds.w / 2,
         (p.selectedFilterCoordinates.getD i (0, 0)).2 + e.distanceFromDragStartY
           + fc.bounds.h / 2))
      p.getSelectedItems 0

theorem filterDragCalls_congr (p q : GraphEditorPanel) (v0 v : FilterComponent)
    (inGroup : Bool) (e e2 : GestureEvent)
    (hw : q.width = p.width) (hh : q.height = p.height)
    (hc : q.selectedFilterCoordinates = p.selectedFilterCoordinates)
    (hx : q.screenX = p.screenX) (hy : q.screenY = p.screenY)
    (hids : q.getSelectedItems.map FilterComponent.filterID
      = p.getSelectedItems.map FilterComponent.filterID)
    (hid : v.filterID = v0.filterID) (hbw : v.bounds.w = v0.bounds.w)
    (hbh : v.bounds.h = v0.bounds.h) (hop : v.originalPos = v0.originalPos)
    (hdx : e2.distanceFromDragStartX = e.distanceFromDragStartX)
    (hdy : e2.distanceFromDragStartY = e.distanceFromDragStartY) :
    q.filterDragCalls v inGroup e2 = p.filterDragCalls v0 inGroup e := by
  unfold GraphEditorPanel.filterDragCalls
  rw [filterDragPixels_eq, filterDragPixels_eq, hw, hh, hc, hx, hy, hids, hid, hbw, hbh, hop,
    hdx, hdy]

theorem filterDragCalls_ids (p : GraphEditorPanel) (fc : FilterComponent) (e : GestureEvent) :
    (p.filterDragCalls fc (p.groupFlag fc) e).map Prod.fst = p.filterDragIds fc := by
  unfold GraphEditorPanel.filterDragCalls GraphEditorPanel.filterDragIds
    GraphEditorPanel.filterDragPixels
  rw [List.map_map]
  cases p.groupFlag fc with
  | false => rfl
  | true =>
    simp only [if_true, List.map_map]
    have h : ∀ (l : List FilterComponent) (n : Nat),
        (l.enumFrom n).map (fun it => it.2.filterID) = l.map FilterComponent.filterID := by
      intro l
      induction l with
      | nil => intro n; rfl
      | cons x t ih => intro n; simp only [List.enumFrom_cons, List.map_cons, ih]
    exact h p.getSelectedItems 0

theorem filterAt_step (g1 : FilterGraph) (q : GraphEditorPanel) (a b : Nat)
    (vb : FilterComponent) (flag : Bool) (f2 : Node) (hwf : q.WellFormed)
    (hvb : q.filterAt b = some vb) (hn : g1.getNodeForId vb.filterID = some f2) :
    ∃ v2, ((q.modifyFilterAt a (fun v =>
          { v with filterIsPartofSelectedGroup := flag })).updateComponents g1).filterAt b
        = some v2
      ∧ v2.filterID = vb.filterID ∧ v2.bounds.w = f2.processor.viewWidth
      ∧ v2.bounds.h = f2.processor.viewHeight ∧ v2.originalPos = vb.originalPos
      ∧ (b = a → v2.filterIsPartofSelectedGroup = flag) := by
  have h1 := filterAt_modifyFilterAt q a b (fun v => { v with filterIsPartofSelectedGroup := flag })
  rw [hvb, Option.map_some'] at h1
  have hwf1 := modifyFilterAt_wellFormed q a
    (fun v => { v with filterIsPartofSelectedGroup := flag }) hwf
  have hid1 : (if b = a then { vb with filterIsPartofSelectedGroup := flag } else vb).filterID
      = vb.filterID := by split <;> rfl
  have hop1 : (if b = a then { vb with filterIsPartofSelectedGroup := flag } else vb).originalPos
      = vb.originalPos := by split <;> rfl
  have hn1 : g1.getNodeForId
      (if b = a then { vb with filterIsPartofSelectedGroup := flag } else vb).filterID
      = some f2 := by rw [hid1]; exact hn
  cases hu : FilterComponent.update g1 q.width q.height
      (if b = a then { vb with filterIsPartofSelectedGroup := flag } else vb) with
  | none =>
    rw [update_eq_none_iff, hn1] at hu
    exact absurd hu (by simp)
  | some v2 =>
    have hres := filterAt_updateComponents g1 _ hwf1 b _ v2 h1 hu
    obtain ⟨k1, _, _, _, _, _, k7⟩ := update_fields g1 _ _ _ v2 f2 hn1 hu
    obtain ⟨m1, m2⟩ := update_gesture_fields g1 _ _ _ v2 hu
    refine ⟨v2, hres, k1.trans hid1, by rw [k7], by rw [k7], m2.trans hop1, ?_⟩
    intro hba
    rw [m1, if_pos hba]

theorem sameForDrag_refl (a : Nat) (p : GraphEditorPanel) (fc : FilterComponent)
    (hfc : p.filterAt a = some fc) : p.sameForDrag a p :=
  ⟨rfl, rfl, rfl, rfl, rfl, rfl, fun _ _ => rfl, fc, fc, hfc, hfc, rfl, rfl, rfl, rfl, rfl⟩

/-- One drag event of a gesture: the graph it leaves is the graph at the start of the
gesture with the calls of this event alone, and the panel it leaves gives the next event
what the panel at the start gives it. -/
theorem filterMouseDrag_step (g0 g : FilterGraph) (p q : GraphEditorPanel) (a : Nat)
    (fc : FilterComponent) (f : Node) (e : GestureEvent)
    (hfc : p.filterAt a = some fc) (hnode : g0.getNodeForId fc.filterID = some f)
    (hsize : fc.bounds.w = f.processor.viewWidth ∧ fc.bounds.h = f.processor.viewHeight)
    (hsel : ∀ b ∈ p.selectedFilters,
      ∃ v, p.filterAt b = some v ∧ (g0.getNodeForId v.filterID).isSome)
    (he : e.isPopupMenu = false)
    (hg : g0.sameApartFrom (p.filterDragIds fc) g) (hwf : q.WellFormed)
    (hq : p.sameForDrag a q) :
    (q.filterMouseDrag FilterGraph.setNodePosition g a e).1
        = applyCalls FilterGraph.setNodePosition g0 (p.filterDragCalls fc (p.groupFlag fc) e)
      ∧ g0.sameApartFrom (p.filterDragIds fc)
          (q.filterMouseDrag FilterGraph.setNodePosition g a e).1
      ∧ (q.filterMouseDrag FilterGraph.setNodePosition g a e).2.WellFormed
      ∧ p.sameForDrag a (q.filterMouseDrag FilterGraph.setNodePosition g a e).2 := by
  obtain ⟨hw, hh, hs, hc, hx, hy, hitems, v, v0, hv, hv0, hid, hbw, hbh, hop, hflag⟩ := hq
  rw [hfc] at hv0
  injection hv0 with hv0
  subst hv0
  have hids := getSelectedItems_ids p q hs hitems
  have hcalls : q.filterDragCalls v (q.groupFlag v) e
      = p.filterDragCalls fc (p.groupFlag fc) e := by
    rw [hflag]
    exact filterDragCalls_congr p q fc v _ e e hw hh hc hx hy hids hid hbw hbh hop rfl rfl
  have hstep : q.filterMouseDrag FilterGraph.setNodePosition g a e
      = (applyCalls FilterGraph.setNodePosition g (p.filterDragCalls fc (p.groupFlag fc) e),
         (q.modifyFilterAt a (fun v =>
            { v with filterIsPartofSelectedGroup := p.groupFlag fc })).updateComponents
           (applyCalls FilterGraph.setNodePosition g
             (p.filterDragCalls fc (p.groupFlag fc) e))) := by
    unfold GraphEditorPanel.filterMouseDrag
    simp only [hv, he, Bool.false_eq_true, if_false]
    rw [hcalls, hflag]
  have hg1 : g0.sameApartFrom (p.filterDragIds fc)
      (applyCalls FilterGraph.setNodePosition g (p.filterDragCalls fc (p.groupFlag fc) e)) := by
    apply sameApartFrom_applyCalls _ _ _ _ hg
    intro n hn
    rw [filterDragCalls_ids] at hn
    exact hn
  have hwf1 : ((q.modifyFilterAt a (fun v =>
      { v with filterIsPartofSelectedGroup := p.groupFlag fc })).updateComponents
      (applyCalls FilterGraph.setNodePosition g
        (p.filterDragCalls fc (p.groupFlag fc) e))).WellFormed :=
    updateComponents_wellFormed _ _ (modifyFilterAt_wellFormed q a _ hwf)
  obtain ⟨u1, u2, _, _⟩ := updateComponents_frame
    (applyCalls FilterGraph.setNodePosition g (p.filterDragCalls fc (p.groupFlag fc) e))
    (q.modifyFilterAt a (fun v => { v with filterIsPartofSelectedGroup := p.groupFlag fc }))
  obtain ⟨s1, s2, s3, s4⟩ := updateComponents_selection
    (applyCalls FilterGraph.setNodePosition g (p.filterDragCalls fc (p.groupFlag fc) e))
    (q.modifyFilterAt a (fun v => { v with filterIsPartofSelectedGroup := p.groupFlag fc }))
  have hitems1 : ∀ b ∈ p.selectedFilters,
      (((q.modifyFilterAt a (fun v =>
        { v with filterIsPartofSelectedGroup := p.groupFlag fc })).updateComponents
        (applyCalls FilterGraph.setNodePosition g
          (p.filterDragCalls fc (p.groupFlag fc) e))).filterAt b).map FilterComponent.filterID
        = (p.filterAt b).map FilterComponent.filterID := by
    intro b hb
    obtain ⟨vb0, hvb0, hnb⟩ := hsel b hb
    have hqb := hitems b hb
    rw [hvb0, Option.map_some'] at hqb
    cases hvb : q.filterAt b with
    | none => rw [hvb] at hqb; exact absurd hqb (by simp)
    | some vb =>
      rw [hvb, Option.map_some'] at hqb
      injection hqb with hqb
      cases hfb : g0.getNodeForId vb0.filterID with
      | none => rw [hfb] at hnb; exact absurd hnb (by simp)
      | some fb =>
        obtain ⟨fb2, hfb2, _, _⟩ := sameApartFrom_getNodeForId _ _ _ hg1 _ fb hfb
        rw [← hqb] at hfb2
        obtain ⟨v2, hv2, hid2, _⟩ := filterAt_step _ q a b vb (p.groupFlag fc) fb2 hwf hvb hfb2
        rw [hv2, hvb0, Option.map_some', Option.map_some', hid2, hqb]
  have hdragged : ∃ v2 v0, ((q.modifyFilterAt a (fun v =>
        { v with filterIsPartofSelectedGroup := p.groupFlag fc })).updateComponents
        (applyCalls FilterGraph.setNodePosition g
          (p.filterDragCalls fc (p.groupFlag fc) e))).filterAt a = some v2
      ∧ p.filterAt a = some v0 ∧ v2.filterID = v0.filterID ∧ v2.bounds.w = v0.bounds.w
      ∧ v2.bounds.h = v0.bounds.h ∧ v2.originalPos = v0.originalPos
      ∧ ((q.modifyFilterAt a (fun v =>
          { v with filterIsPartofSelectedGroup := p.groupFlag fc })).updateComponents
          (applyCalls FilterGraph.setNodePosition g
            (p.filterDragCalls fc (p.groupFlag fc) e))).groupFlag v2 = p.groupFlag v0 := by
    obtain ⟨f2, hf2, _, hpr⟩ := sameApartFrom_getNodeForId _ _ _ hg1 _ f hnode
    rw [← hid] at hf2
    obtain ⟨v2, hv2, hid2, hw2, hh2, hop2, hfl2⟩ :=
      filterAt_step _ q a a v (p.groupFlag fc) f2 hwf hv hf2
    refine ⟨v2, fc, hv2, hfc, hid2.trans hid, ?_, ?_, hop2.trans hop, ?_⟩
    · rw [hw2, hpr, hsize.1]
    · rw [hh2, hpr, hsize.2]
    · rw [groupFlag_eq, hfl2 rfl, getSelectedItems_ids p _ (s1.trans hs) hitems1, hid2, hid]
      rw [groupFlag_eq p fc]
      cases fc.filterIsPartofSelectedGroup <;>
        cases (p.getSelectedItems.map FilterComponent.filterID).any
          (fun n => n == fc.filterID) <;> rfl
  rw [hstep]
  refine ⟨?_, hg1, hwf1, ?_⟩
  · apply applyCalls_sameApartFrom _ _ _ _ hg
    intro n hn
    rw [filterDragCalls_ids]
    exact hn
  · exact ⟨u1.trans hw, u2.trans hh, s1.trans hs, s2.trans hc, s3.trans hx, s4.trans hy,
      hitems1, hdragged⟩

/-! ## The ids of the nodes -/

theorem addNodes_spec (descs : List (AudioProcessor × ℚ × ℚ)) (g : FilterGraph)
    (acc : List Nat) :
    (descs.foldl (fun s d => ((s.1.addNode d.1 d.2.1 d.2.2).1,
          s.2 ++ [(s.1.addNode d.1 d.2.1 d.2.2).2])) (g, acc)).2
        = acc ++ (List.range descs.length).map (fun i => g.lastNodeId + 1 + i)
      ∧ (descs.foldl (fun s d => ((s.1.addNode d.1 d.2.1 d.2.2).1,
          s.2 ++ [(s.1.addNode d.1 d.2.1 d.2.2).2])) (g, acc)).1.lastNodeId
        = g.lastNodeId + descs.length
      ∧ (descs.foldl (fun s d => ((s.1.addNode d.1 d.2.1 d.2.2).1,
          s.2 ++ [(s.1.addNode d.1 d.2.1 d.2.2).2])) (g, acc)).1.nodes.map Node.nodeId
        = g.nodes.map Node.nodeId
            ++ (List.range descs.length).map (fun i => g.lastNodeId + 1 + i)
      ∧ (descs.foldl (fun s d => ((s.1.addNode d.1 d.2.1 d.2.2).1,
          s.2 ++ [(s.1.addNode d.1 d.2.1 d.2.2).2])) (g, acc)).1.connections
        = g.connections := by
  induction descs generalizing g acc with
  | nil => simp
  | cons d rest ih =>
    rw [List.foldl_cons]
    obtain ⟨h1, h2, h3, h4⟩ := ih (g.addNode d.1 d.2.1 d.2.2).1
      (acc ++ [(g.addNode d.1 d.2.1 d.2.2).2])
    rw [h1, h2, h3, h4]
    have hl : (g.addNode d.1 d.2.1 d.2.2).1.lastNodeId = g.lastNodeId + 1 := rfl
    have hr : (g.addNode d.1 d.2.1 d.2.2).2 = g.lastNodeId + 1 := rfl
    have hn : (g.addNode d.1 d.2.1 d.2.2).1.nodes.map Node.nodeId
        = g.nodes.map Node.nodeId ++ [g.lastNodeId + 1] := by
      simp [FilterGraph.addNode]
    have hc : (g.addNode d.1 d.2.1 d.2.2).1.connections = g.connections := rfl
    rw [hl, hr, hn, hc]
    have hrange : (List.range (rest.length + 1)).map (fun i => g.lastNodeId + 1 + i)
        = [g.lastNodeId + 1]
            ++ (List.range rest.length).map (fun i => g.lastNodeId + 1 + 1 + i) := by
      rw [List.range_succ_eq_map, List.map_cons, List.map_map]
      simp only [Nat.add_zero, List.singleton_append, List.cons.injEq, true_and]
      apply List.map_congr_left
      intro i _
      simp only [Function.comp]
      omega
    simp only [List.length_cons]
    rw [hrange]
    refine ⟨by simp, by omega, by simp, trivial⟩

theorem getNodeForId_eq_none_iff (g : FilterGraph) (n : Nat) :
    g.getNodeForId n = none ↔ n ∉ g.nodes.map Node.nodeId := by
  unfold FilterGraph.getNodeForId
  rw [List.find?_eq_none]
  simp only [List.mem_map, not_exists, not_and, beq_iff_eq, Bool.not_eq_true]

theorem construct_eq_addNodes (g : FilterGraph) (a b c : AudioProcessor) :
    GraphEditorPanel.construct (fun g pr x y => (g.addNode pr x y).1) g a b c
      = (g.addNodes [(a, 1 / 2, 1 / 5), (b, 3 / 10, 1 / 5), (c, 1 / 2, 4 / 5)]).1 := rfl

/-- C21: node id uniqueness. For every sequence of `addNode` calls, on a graph whose node
ids are not above the last id given out, the ids returned are pairwise distinct, none is
zero, and none is the id of a node that the graph had before. The three nodes that the
constructor of `GraphEditorPanel` adds have the three ids that follow the last id given
out, which are distinct and not zero; and when the graph had no node with the id 0, it has
none after the calls and none after the constructor. -/
theorem addNode_ids (g : FilterGraph) (descs : List (AudioProcessor × ℚ × ℚ))
    (audioInputFilter midiInputFilter audioOutputFilter : AudioProcessor)
    (halloc : g.idsAllocated) :
    (g.addNodes descs).2.Nodup
      ∧ 0 ∉ (g.addNodes descs).2
      ∧ (∀ i ∈ (g.addNodes descs).2, g.getNodeForId i = none)
      ∧ (g.addNodes descs).1.nodes.map Node.nodeId
          = g.nodes.map Node.nodeId ++ (g.addNodes descs).2
      ∧ (GraphEditorPanel.construct (fun g pr x y => (g.addNode pr x y).1) g audioInputFilter
            midiInputFilter audioOutputFilter).nodes.map Node.nodeId
          = g.nodes.map Node.nodeId
              ++ [g.lastNodeId + 1, g.lastNodeId + 2, g.lastNodeId + 3]
      ∧ (g.getNodeForId 0 = none →
          (g.addNodes descs).1.getNodeForId 0 = none
            ∧ (GraphEditorPanel.construct (fun g pr x y => (g.addNode pr x y).1) g
                audioInputFilter midiInputFilter audioOutputFilter).getNodeForId 0 = none) := by
  have hspec : ∀ ds : List (AudioProcessor × ℚ × ℚ),
      (g.addNodes ds).2 = (List.range ds.length).map (fun i => g.lastNodeId + 1 + i)
        ∧ (g.addNodes ds).1.nodes.map Node.nodeId
            = g.nodes.map Node.nodeId
                ++ (List.range ds.length).map (fun i => g.lastNodeId + 1 + i) := by
    intro ds
    obtain ⟨h1, _, h3, _⟩ := addNodes_spec ds g []
    exact ⟨by rw [FilterGraph.addNodes, h1, List.nil_append], h3⟩
  obtain ⟨h1, h3⟩ := hspec descs
  have hmem : ∀ i ∈ (g.addNodes descs).2, g.lastNodeId < i := by
    intro i hi
    rw [h1, List.mem_map] at hi
    obtain ⟨k, _, hk⟩ := hi
    omega
  have hzero : ∀ ds : List (AudioProcessor × ℚ × ℚ), g.getNodeForId 0 = none →
      (g.addNodes ds).1.getNodeForId 0 = none := by
    intro ds h0
    rw [getNodeForId_eq_none_iff] at h0 ⊢
    rw [(hspec ds).2, List.mem_append, not_or]
    refine ⟨h0, ?_⟩
    rw [List.mem_map]
    rintro ⟨k, _, hk⟩
    omega
  refine ⟨?_, ?_, ?_, ?_, ?_, ?_⟩
  · rw [h1]
    apply List.Nodup.map _ (List.nodup_range _)
    intro i j hij
    simp only at hij
    omega
  · intro h0
    have := hmem 0 h0
    omega
  · intro i hi
    rw [getNodeForId_eq_none_iff, List.mem_map]
    rintro ⟨f, hf, he⟩
    have h2 := halloc f hf
    have h4 := hmem i hi
    omega
  · rw [h3, h1]
  · rw [construct_eq_addNodes, (hspec _).2]
    rfl
  · intro h0
    refine ⟨hzero descs h0, ?_⟩
    rw [construct_eq_addNodes]
    exact hzero _ h0

/-- Witness of C21: on the empty graph the constructor adds the nodes 1, 2 and 3. -/
theorem addNode_ids_witness :
    (GraphEditorPanel.construct (fun g pr x y => (g.addNode pr x y).1) {}
        { numOutputChannels := 2, name := "Audio Input" }
        { producesMidi := true, name := "Midi Input" }
        { numInputChannels := 2, name := "Audio Output" }).nodes.map Node.nodeId
      = [] ++ [0 + 1, 0 + 2, 0 + 3] :=
  (addNode_ids {} [] { numOutputChannels := 2, name := "Audio Input" }
    { producesMidi := true, name := "Midi Input" }
    { numInputChannels := 2, name := "Audio Output" }
    (fun f hf => absurd hf (List.not_mem_nil f))).2.2.2.2.1


/-! ## A draft over a pin of the same direction, and the free end of a draft -/

theorem canConnect_zero (g : FilterGraph) (h0 : g.getNodeForId 0 = none)
    (s : Nat) (sc : Int) (d : Nat) (dc : Int) (h : s = 0 ∨ d = 0) :
    g.canConnect s sc d dc = false := by
  unfold FilterGraph.canConnect
  cases h with
  | inl h =>
    subst h
    rw [h0]
  | inr h =>
    subst h
    rw [h0]
    cases g.getNodeForId s <;> rfl

/-- C22: no snap onto a pin of the same direction. For a draft whose destination is free
(id 0) with the pointer over an output pin, and for a draft whose source is free (id 0)
with the pointer over an input pin, in a panel with no node view of id 0 and for a
`canConnect` that rejects every 4-tuple with a node id 0, `dragConnector` leaves the
draft with the pointer position as its floating endpoint and with an empty tooltip. The
`canConnect` modelled from the spec rejects these 4-tuples in every graph that has no
node with the id 0. -/
theorem dragConnector_same_direction (canConnect : FilterGraph → Nat → Int → Nat → Int → Bool)
    (g : FilterGraph) (p : GraphEditorPanel) (e2 : MouseEvent) (cc : ConnectorComponent)
    (parent : FilterComponent) (pin : PinComponent)
    (hdraft : p.getDraggingConnector = some cc)
    (hpin : p.findPinAt e2.x e2.y = some (parent, pin))
    (hsame : (cc.destFilterID = 0 ∧ pin.isInput = false)
      ∨ (cc.sourceFilterID = 0 ∧ pin.isInput = true))
    (hview : p.getComponentForFilter 0 = none)
    (hcan : ∀ s sc d dc, s = 0 ∨ d = 0 → canConnect g s sc d dc = false) :
    (p.dragConnector canConnect g e2).getDraggingConnector.map
        (fun d => (d.floatingEnd, d.tooltip))
        = some (((e2.x : ℚ), (e2.y : ℚ)), "")
      ∧ ∀ (g2 : FilterGraph) (s : Nat) (sc : Int) (d : Nat) (dc : Int),
          g2.getNodeForId 0 = none → s = 0 ∨ d = 0 → g2.canConnect s sc d dc = false := by
  refine ⟨?_, fun g2 s sc d dc h0 h => canConnect_zero g2 h0 s sc d dc h⟩
  have hfree : cc.sourceFilterID = 0 ∨ cc.destFilterID = 0 := by
    cases hsame with
    | inl h => exact Or.inr h.1
    | inr h => exact Or.inl h.1
  rw [getDraggingConnector_dragConnector, hdraft, Option.map_some', Option.map_some']
  obtain ⟨h1, h2⟩ := dragDraft_result canConnect g p e2 cc hfree hview
  rw [h1, h2]
  have hincompatible : isCompatiblePin canConnect g cc pin = false := by
    unfold isCompatiblePin
    cases hsame with
    | inl h =>
      by_cases hs : cc.sourceFilterID = 0
      · simp [hs, h.1, h.2, hcan]
      · simp [hs, h.2]
    | inr h => simp [h.1, h.2]
  have ht : p.dragTarget canConnect g e2 cc = ((e2.x, e2.y), "") := by
    unfold GraphEditorPanel.dragTarget
    rw [hpin]
    simp only
    rw [canConnect_dragTuple canConnect g cc pin hfree hcan, hincompatible]
    rfl
  rw [ht]

/-- Witness of C22: the draft from the output pin (1, 1) dragged to (180, 170), over the
output pin (1, 0), keeps the pointer position and has no tooltip. -/
theorem dragConnector_same_direction_witness :
    ((examplePanel exampleDraftFromOutput).dragConnector FilterGraph.canConnect exampleGraph
        ⟨180, 170⟩).getDraggingConnector.map (fun d => (d.floatingEnd, d.tooltip))
      = some (((180 : ℚ), (170 : ℚ)), "") := by
  have h := (dragConnector_same_direction FilterGraph.canConnect exampleGraph
    (examplePanel exampleDraftFromOutput) ⟨180, 170⟩ exampleDraftFromOutput exampleViewA
    { filterID := 1, index := 0, isInput := false, tooltip := "Output 1",
      bounds := ⟨25, 44, 16, 16⟩ }
    (by decide) (by decide) (by decide) (by decide)
    (canConnect_zero exampleGraph (by decide))).1
  exact h

theorem hasOneFreeEnd_of_tuple (cc : ConnectorComponent) (s : Nat) (sc : Int) (d : Nat)
    (dc : Int)
    (ht : cc.tuple = { sourceNodeId := s, sourceChannelIndex := sc, destNodeId := d,
                       destChannelIndex := dc })
    (h : (s = 0 ∧ d ≠ 0) ∨ (s ≠ 0 ∧ d = 0)) : cc.hasOneFreeEnd = true := by
  unfold ConnectorComponent.tuple at ht
  injection ht with h1 h2 h3 h4
  unfold ConnectorComponent.hasOneFreeEnd
  rw [h1, h3]
  cases h with
  | inl h => simp [h.1, h.2]
  | inr h => simp [h.1, h.2]

/-- C24: the free end of a draft. After the press on a pin of a node with a non-zero id,
and after the first moved drag event on a pressed connector view whose two node ids are
not zero, a draft is in progress and exactly one of its `sourceFilterID` and
`destFilterID` is 0, the other being the id of the anchored node; and `dragConnector`
leaves the four endpoint fields of the draft as they are. -/
theorem draft_one_free_end
    (removeConnection : FilterGraph → Nat → Int → Nat → Int → FilterGraph)
    (canConnect : FilterGraph → Nat → Int → Nat → Int → Bool) (g : FilterGraph)
    (p : GraphEditorPanel) (pin : PinComponent) (e2 : MouseEvent) (a : Nat)
    (cc : ConnectorComponent) (e : GestureEvent)
    (hwf : p.WellFormed) (hpin : pin.filterID ≠ 0)
    (hcc : p.connectorAt a = some cc) (hs : cc.sourceFilterID ≠ 0) (hd : cc.destFilterID ≠ 0)
    (hdrag : e.mouseWasClicked = false) :
    (p.pinMouseDown canConnect g pin e2).getDraggingConnector.map
        (fun d => (d.hasOneFreeEnd, d.sourceFilterID + d.destFilterID))
        = some (true, pin.filterID)
      ∧ (((p.connectorMouseDown a).connectorMouseDrag removeConnection canConnect g a
            e).2.getDraggingConnector.map ConnectorComponent.hasOneFreeEnd = some true
          ∧ (((p.connectorMouseDown a).connectorMouseDrag removeConnection canConnect g a
                e).2.getDraggingConnector.map ConnectorComponent.tuple
                = some { sourceNodeId := 0, sourceChannelIndex := cc.sourceFilterChannel,
                         destNodeId := cc.destFilterID,
                         destChannelIndex := cc.destFilterChannel }
              ∨ ((p.connectorMouseDown a).connectorMouseDrag removeConnection canConnect g a
                  e).2.getDraggingConnector.map ConnectorComponent.tuple
                = some { sourceNodeId := cc.sourceFilterID,
                         sourceChannelIndex := cc.sourceFilterChannel,
                         destNodeId := 0, destChannelIndex := cc.destFilterChannel }))
      ∧ ∀ (q : GraphEditorPanel) (e3 : MouseEvent),
          (q.dragConnector canConnect g e3).getDraggingConnector.map ConnectorComponent.tuple
            = q.getDraggingConnector.map ConnectorComponent.tuple := by
  refine ⟨?_, ?_, ?_⟩
  · have h := beginConnectorDrag_draft canConnect g p
      (if pin.isInput then 0 else pin.filterID) pin.index
      (if pin.isInput then pin.filterID else 0) pin.index none e2 hwf
    unfold GraphEditorPanel.pinMouseDown
    cases hdr : (p.beginConnectorDrag canConnect g (if pin.isInput then 0 else pin.filterID)
        pin.index (if pin.isInput then pin.filterID else 0) pin.index none
        e2).getDraggingConnector with
    | none => rw [hdr] at h; exact absurd h (by simp)
    | some d =>
      rw [hdr, Option.map_some'] at h
      injection h with h
      rw [Option.map_some']
      have hone := hasOneFreeEnd_of_tuple d _ _ _ _ h (by
        cases pin.isInput with
        | true => exact Or.inl ⟨rfl, hpin⟩
        | false => exact Or.inr ⟨hpin, rfl⟩)
      unfold ConnectorComponent.tuple at h
      injection h with h1 h2 h3 h4
      rw [hone, h1, h3]
      cases pin.isInput <;> simp
  · have h0 : (p.connectorMouseDown a).connectorAt a = some { cc with dragging := false } := by
      unfold GraphEditorPanel.connectorMouseDown
      rw [connectorAt_modifyConnectorAt, hcc]
      rfl
    obtain ⟨_, k2, w, k3, _, k5⟩ := connectorMouseDrag_first removeConnection canConnect g
      (p.connectorMouseDown a) a e { cc with dragging := false } h0 rfl hdrag
    rw [getDraggingConnector_eq, k2]
    simp only [Option.some_bind]
    rw [k3]
    simp only [Option.map_some']
    constructor
    · congr 1
      split at k5
      · exact hasOneFreeEnd_of_tuple w _ _ _ _ k5 (Or.inl ⟨rfl, hd⟩)
      · exact hasOneFreeEnd_of_tuple w _ _ _ _ k5 (Or.inr ⟨hs, rfl⟩)
    · split at k5
      · exact Or.inl (congrArg some k5)
      · exact Or.inr (congrArg some k5)
  · intro q e3
    rw [getDraggingConnector_dragConnector, Option.map_map]
    congr 1
    funext d
    exact (dragDraft_fields canConnect g q e3 d).1

/-- Witness of C24: the press on the input pin (2, 0) in the idle example panel leaves a
draft with exactly one free end, anchored at node 2. -/
theorem draft_one_free_end_witness :
    (exampleIdlePanel.pinMouseDown exampleCanConnect exampleGraph examplePinB0
        ⟨580, 425⟩).getDraggingConnector.map
        (fun d => (d.hasOneFreeEnd, d.sourceFilterID + d.destFilterID))
      = some (true, 2) :=
  (draft_one_free_end FilterGraph.removeConnection exampleCanConnect exampleGraph
    exampleIdlePanel examplePinB0 ⟨580, 425⟩ 2
    { sourceFilterID := 1, destFilterID := 2, lastInputX := 183, lastInputY := 172,
      lastOutputX := 583, lastOutputY := 428, bounds := ⟨179, 168, 408, 264⟩ }
    { pos := ⟨200, 180⟩ }
    (by unfold GraphEditorPanel.WellFormed; decide) (by decide) (by rfl) (by decide)
    (by decide) (by rfl)).1


/-! ## The hit test of a connector view -/

/-- C23, evaluated: during a lasso drag over the view of node 1, with the lasso overlay
below the connector view, `findLassoItemsInArea` leaves the last child (the connector
view) out, and puts the pointer to the lasso overlay itself, which is no node view, into
`results` and into the selection, next to the pointer to the view of node 1. -/
theorem findLassoItemsInArea_selects_overlay :
    (exampleLassoPanel.findLassoItemsInArea [] ⟨100, 100, 200, 100⟩).1 = [1, 3]
      ∧ (exampleLassoPanel.findLassoItemsInArea [] ⟨100, 100, 200, 100⟩).2.selectedFilters
          = [1, 3]
      ∧ (exampleLassoPanel.findLassoItemsInArea [] ⟨100, 100, 200, 100⟩).2.filterAt 3 = none
      ∧ (exampleLassoPanel.findLassoItemsInArea [] ⟨100, 100, 200, 100⟩).2.children.filter
            (fun c => decide (c.addr = 3))
          = [{ addr := 3, comp := .other ⟨100, 100, 200, 100⟩ }] := by
  decide


/-! ## The pins of a node view do not overlap -/

theorem roundToInt_near (q : ℚ) :
    q - 1 / 2 ≤ (roundToInt q : ℚ) ∧ (roundToInt q : ℚ) ≤ q + 1 / 2 := by
  have h1 : ((q.floor : Int) : ℚ) ≤ q := (Rat.le_floor).mp (le_refl _)
  have h2 : q < ((q.floor : Int) : ℚ) + 1 := by
    by_contra hne
    rw [not_lt] at hne
    have : q.floor + 1 ≤ q.floor := (Rat.le_floor).mpr (by push_cast; exact hne)
    omega
  unfold roundToInt
  simp only
  split
  · rename_i h
    constructor <;> linarith
  · split
    · rename_i h3 h
      push_cast
      constructor <;> linarith
    · rename_i h3 h4
      have he : q - (q.floor : ℚ) = 1 / 2 := le_antisymm (not_lt.mp h4) (not_lt.mp h3)
      split
      · constructor <;> linarith
      · push_cast
        constructor <;> linarith

theorem slot_centres_apart (w total s t : Int) (h0 : 0 ≤ total) (hw : 20 * (total + 1) ≤ w)
    (hst : s ≠ t) :
    16 ≤ |roundToInt ((((1 + s : Int) : ℚ) / ((total : ℚ) + 1)) * w)
          - roundToInt ((((1 + t : Int) : ℚ) / ((total : ℚ) + 1)) * w)| := by
  have hT : (0 : ℚ) < (total : ℚ) + 1 := by
    have : (0 : ℚ) ≤ (total : ℚ) := by exact_mod_cast h0
    linarith
  have hwq : 20 * ((total : ℚ) + 1) ≤ (w : ℚ) := by exact_mod_cast hw
  have hunit : (20 : ℚ) ≤ (w : ℚ) / ((total : ℚ) + 1) := by
    rw [le_div_iff₀ hT]
    exact hwq
  have key : ∀ a b : Int, a < b →
      roundToInt ((((1 + a : Int) : ℚ) / ((total : ℚ) + 1)) * w) + 16
        ≤ roundToInt ((((1 + b : Int) : ℚ) / ((total : ℚ) + 1)) * w) := by
    intro a b hab
    obtain ⟨_, ha⟩ := roundToInt_near ((((1 + a : Int) : ℚ) / ((total : ℚ) + 1)) * w)
    obtain ⟨hb, _⟩ := roundToInt_near ((((1 + b : Int) : ℚ) / ((total : ℚ) + 1)) * w)
    have hab2 : (a : ℚ) + 1 ≤ (b : ℚ) := by exact_mod_cast hab
    have hdiff : (((1 + b : Int) : ℚ) / ((total : ℚ) + 1)) * w
        - (((1 + a : Int) : ℚ) / ((total : ℚ) + 1)) * w
        = ((b : ℚ) - a) * ((w : ℚ) / ((total : ℚ) + 1)) := by
      push_cast
      field_simp
      ring
    have hge : (20 : ℚ) ≤ ((b : ℚ) - a) * ((w : ℚ) / ((total : ℚ) + 1)) := by
      have h1 : (1 : ℚ) ≤ (b : ℚ) - a := by linarith
      nlinarith
    have hq : ((roundToInt ((((1 + a : Int) : ℚ) / ((total : ℚ) + 1)) * w) : Int) : ℚ) + 16
        ≤ ((roundToInt ((((1 + b : Int) : ℚ) / ((total : ℚ) + 1)) * w) : Int) : ℚ) := by
      linarith
    exact_mod_cast hq
  rcases lt_or_gt_of_ne hst with h | h
  · have := key s t h
    rw [abs_sub_comm]
    exact le_trans (by omega) (le_abs_self _)
  · have := key t s h
    exact le_trans (by omega) (le_abs_self _)

theorem map_eq_self_mem {α : Type} (f : α → α) (l : List α) (h : l.map f = l) :
    ∀ a ∈ l, f a = a := by
  induction l with
  | nil => intro a ha; exact absurd ha (List.not_mem_nil a)
  | cons x t ih =>
    rw [List.map_cons] at h
    injection h with h1 h2
    intro a ha
    rcases List.mem_cons.mp ha with rfl | ha
    · exact h1
    · exact ih h2 a ha

theorem resized_pin_bounds (fc : FilterComponent) (h : fc.resized.pins = fc.pins)
    (pc : PinComponent) (hpc : pc ∈ fc.pins) :
    pc.bounds
      = { x := roundToInt
              ((((1 + pc.slot fc.numIns fc.numOuts : Int) : ℚ)
                / (((if pc.isInput then fc.numIns else fc.numOuts : Int) : ℚ) + 1))
                * fc.bounds.w) - 8
          y := if pc.isInput then 0 else fc.bounds.h - 16
          w := 16
          h := 16 } := by
  unfold FilterComponent.resized at h
  simp only at h
  have := map_eq_self_mem _ _ h pc hpc
  conv_lhs => rw [← this]
  unfold PinComponent.slot FilterComponent.proportionOfWidth pinSize
  simp only
  rfl

/-- In a view that is laid out, the pins of one direction are in different slots and their
bounds do not intersect. -/
theorem pins_disjoint_of_laidOut (fc : FilterComponent) (h : fc.pinsLaidOut) :
    fc.pins.Pairwise (fun a b =>
      a.isInput = b.isInput →
        a.slot fc.numIns fc.numOuts ≠ b.slot fc.numIns fc.numOuts
          ∧ a.bounds.intersects b.bounds = false) := by
  obtain ⟨_, _, hfix, hslots, hwide⟩ := h
  refine List.Pairwise.imp_of_mem ?_ hslots
  intro a b ha hb hab hdir
  have hne := hab hdir
  refine ⟨hne, ?_⟩
  obtain ⟨h0i, h0o, hw⟩ := hwide (List.ne_nil_of_mem ha)
  have hT0 : 0 ≤ (if a.isInput then fc.numIns else fc.numOuts : Int) := by
    split <;> assumption
  have hTw : 20 * ((if a.isInput then fc.numIns else fc.numOuts : Int) + 1) ≤ fc.bounds.w := by
    have h1 : fc.numIns ≤ max fc.numIns fc.numOuts := le_max_left _ _
    have h2 : fc.numOuts ≤ max fc.numIns fc.numOuts := le_max_right _ _
    split <;> omega
  have hfar := slot_centres_apart fc.bounds.w
    (if a.isInput then fc.numIns else fc.numOuts) (a.slot fc.numIns fc.numOuts)
    (b.slot fc.numIns fc.numOuts) hT0 hTw hne
  have hba := resized_pin_bounds fc hfix a ha
  have hbb := resized_pin_bounds fc hfix b hb
  rw [← hdir] at hbb
  rw [hba, hbb]
  unfold Rectangle.intersects
  simp only
  generalize roundToInt
      ((((1 + a.slot fc.numIns fc.numOuts : Int) : ℚ)
        / (((if a.isInput then fc.numIns else fc.numOuts : Int) : ℚ) + 1))
        * fc.bounds.w) = ra at hfar ⊢
  generalize roundToInt
      ((((1 + b.slot fc.numIns fc.numOuts : Int) : ℚ)
        / (((if a.isInput then fc.numIns else fc.numOuts : Int) : ℚ) + 1))
        * fc.bounds.w) = rb at hfar ⊢
  by_contra hcon
  rw [Bool.not_eq_false] at hcon
  simp only [Bool.and_eq_true, decide_eq_true_eq] at hcon
  rcases le_abs'.mp hfar with h | h <;> omega

theorem resized_pins_idem (fc : FilterComponent) : fc.resized.resized.pins = fc.resized.pins := by
  unfold FilterComponent.resized FilterComponent.proportionOfWidth
  simp only [List.map_map]
  apply List.map_congr_left
  intro pc _
  rfl

theorem resized_pins_congr (fc fc2 : FilterComponent) (h1 : fc2.numIns = fc.numIns)
    (h2 : fc2.numOuts = fc.numOuts) (hw : fc2.bounds.w = fc.bounds.w)
    (hh : fc2.bounds.h = fc.bounds.h) (hp : fc2.pins = fc.pins) :
    fc2.resized.pins = fc.resized.pins := by
  unfold FilterComponent.resized FilterComponent.proportionOfWidth
  simp only
  rw [h1, h2, hw, hh, hp]

theorem pairwise_slots_of_nodup (numIns numOuts : Int) (l : List PinComponent)
    (h : (l.map (fun p => (p.isInput, p.slot numIns numOuts))).Nodup) :
    l.Pairwise (fun a b =>
      a.isInput = b.isInput → a.slot numIns numOuts ≠ b.slot numIns numOuts) := by
  unfold List.Nodup at h
  rw [List.pairwise_map] at h
  refine List.Pairwise.imp ?_ h
  intro a b hab hdir hslot
  exact hab (by rw [hdir, hslot])

theorem slots_segment (g : FilterGraph) (uid : Nat) (n : Nat) (b midi : Bool)
    (numIns numOuts : Int) (hn : n ≤ 4096)
    (ht : (if b then numIns else numOuts) = (n : Int) + (if midi then 1 else 0)) :
    ((List.range n).map (fun (i : Nat) => PinComponent.new g uid (i : Int) b)
        ++ (if midi then [PinComponent.new g uid midiChannelNumber b] else [])).map
        (fun p => (p.isInput, p.slot numIns numOuts))
      = (List.range (n + (if midi then 1 else 0))).map (fun (i : Nat) => (b, (i : Int))) := by
  have haudio : (List.range n).map
      ((fun p : PinComponent => (p.isInput, p.slot numIns numOuts))
        ∘ (fun (i : Nat) => PinComponent.new g uid (i : Int) b))
      = (List.range n).map (fun (i : Nat) => (b, (i : Int))) := by
    apply List.map_congr_left
    intro i hi
    rw [List.mem_range] at hi
    have hne : ¬ ((i : Int) = midiChannelNumber) := by
      unfold midiChannelNumber
      omega
    simp only [Function.comp, PinComponent.slot, PinComponent.new, hne, if_false]
  rw [List.map_append, List.map_map, haudio]
  cases midi with
  | false => simp
  | true =>
    simp only [if_true, List.map_cons, List.map_nil]
    rw [List.range_succ, List.map_append, List.map_cons, List.map_nil]
    congr 1
    have hm : (PinComponent.new g uid midiChannelNumber b).slot numIns numOuts = (n : Int) := by
      simp only [PinComponent.slot, PinComponent.new, if_true]
      simp only [if_true] at ht
      omega
    rw [hm]
    rfl

theorem makePins_eq (g : FilterGraph) (uid : Nat) (pr : AudioProcessor) :
    FilterComponent.makePins g uid pr
      = ((List.range pr.numInputChannels).map (fun (i : Nat) => PinComponent.new g uid (i : Int) true)
          ++ (if pr.acceptsMidi then [PinComponent.new g uid midiChannelNumber true] else []))
        ++ ((List.range pr.numOutputChannels).map
              (fun (i : Nat) => PinComponent.new g uid (i : Int) false)
          ++ (if pr.producesMidi then [PinComponent.new g uid midiChannelNumber false] else [])) := by
  have hmap : ∀ n : Nat, ((List.range n).flatMap fun a => [(a : Int)])
      = (List.range n).map (fun (a : Nat) => (a : Int)) := fun n =>
    (List.map_eq_flatMap _ _).symm
  unfold FilterComponent.makePins
  simp [hmap, List.map_map, Function.comp_def]

theorem slots_makePins (g : FilterGraph) (uid : Nat) (pr : AudioProcessor)
    (hin : pr.numInputChannels ≤ 4096) (hout : pr.numOutputChannels ≤ 4096) :
    ((FilterComponent.makePins g uid pr).map
        (fun p => (p.isInput, p.slot pr.totalIns pr.totalOuts))).Nodup := by
  rw [makePins_eq, List.map_append,
    slots_segment g uid pr.numInputChannels true pr.acceptsMidi pr.totalIns pr.totalOuts hin
      (by unfold AudioProcessor.totalIns; rfl),
    slots_segment g uid pr.numOutputChannels false pr.producesMidi pr.totalIns pr.totalOuts hout
      (by unfold AudioProcessor.totalOuts; rfl)]
  rw [List.nodup_append]
  refine ⟨?_, ?_, ?_⟩
  · apply List.Nodup.map _ (List.nodup_range _)
    intro i j hij
    simp only [Prod.mk.injEq, true_and] at hij
    exact_mod_cast hij
  · apply List.Nodup.map _ (List.nodup_range _)
    intro i j hij
    simp only [Prod.mk.injEq, true_and] at hij
    exact_mod_cast hij
  · intro x hx hy
    rw [List.mem_map] at hx hy
    obtain ⟨_, _, h1⟩ := hx
    obtain ⟨_, _, h2⟩ := hy
    rw [← h1] at h2
    simp at h2

theorem pairwise_slots_resized (numIns numOuts : Int) (fc : FilterComponent)
    (h : fc.pins.Pairwise (fun a b =>
      a.isInput = b.isInput → a.slot numIns numOuts ≠ b.slot numIns numOuts)) :
    fc.resized.pins.Pairwise (fun a b =>
      a.isInput = b.isInput → a.slot numIns numOuts ≠ b.slot numIns numOuts) := by
  unfold FilterComponent.resized
  simp only
  rw [List.pairwise_map]
  exact h

theorem viewWidth_wide (pr : AudioProcessor) :
    0 ≤ pr.totalIns ∧ 0 ≤ pr.totalOuts
      ∧ 20 * (max pr.totalIns pr.totalOuts + 1) ≤ pr.viewWidth := by
  have h1 : 0 ≤ pr.totalIns := by
    unfold AudioProcessor.totalIns
    split <;> omega
  have h2 : 0 ≤ pr.totalOuts := by
    unfold AudioProcessor.totalOuts
    split <;> omega
  refine ⟨h1, h2, ?_⟩
  unfold AudioProcessor.viewWidth
  have h3 : (max pr.totalIns pr.totalOuts + 1) * 20
      ≤ max (max 100 ((max pr.totalIns pr.totalOuts + 1) * 20)) (16 + min pr.nameWidth 300) :=
    le_trans (le_max_right _ _) (le_max_left _ _)
  omega

theorem new_pinsLaidOut (filterID : Nat) : (FilterComponent.new filterID).pinsLaidOut :=
  ⟨rfl, rfl, rfl, List.Pairwise.nil, fun h => absurd rfl h⟩

/-- The method `update()` keeps a node view laid out, for a node whose audio channel
indices stay below the MIDI channel number. -/
theorem update_pinsLaidOut (g : FilterGraph) (parentWidth parentHeight : Int)
    (fc fc1 : FilterComponent) (f : Node) (hlaid : fc.pinsLaidOut)
    (hf : g.getNodeForId fc.filterID = some f)
    (hin : f.processor.numInputChannels ≤ 4096) (hout : f.processor.numOutputChannels ≤ 4096)
    (hu : fc.update g parentWidth parentHeight = some fc1) : fc1.pinsLaidOut := by
  obtain ⟨_, p2, p3, p4, p5, _, p7⟩ := placed_fields g parentWidth parentHeight f fc
  obtain ⟨w1, w2, w3⟩ := viewWidth_wide f.processor
  rw [update_of_node g parentWidth parentHeight fc f hf] at hu
  injection hu with hu
  subst hu
  by_cases hguard : f.processor.totalIns ≠ fc.numInputs ∨ f.processor.totalOuts ≠ fc.numOutputs
  · rw [if_pos hguard]
    refine ⟨p4, p5, resized_pins_idem _, ?_, fun _ => ⟨?_, ?_, ?_⟩⟩
    · apply pairwise_slots_resized
      apply pairwise_slots_of_nodup
      show ((FilterComponent.makePins g fc.filterID f.processor).map _).Nodup
      have h4 : (fc.placed g parentWidth parentHeight f).numIns = f.processor.totalIns := p4
      have h5 : (fc.placed g parentWidth parentHeight f).numOuts = f.processor.totalOuts := p5
      show ((FilterComponent.makePins g fc.filterID f.processor).map
        (fun p => (p.isInput, p.slot (fc.placed g parentWidth parentHeight f).numIns
          (fc.placed g parentWidth parentHeight f).numOuts))).Nodup
      rw [h4, h5]
      exact slots_makePins g fc.filterID f.processor hin hout
    · show 0 ≤ (fc.placed g parentWidth parentHeight f).numIns
      rw [p4]
      exact w1
    · show 0 ≤ (fc.placed g parentWidth parentHeight f).numOuts
      rw [p5]
      exact w2
    · show 20 * (max (fc.placed g parentWidth parentHeight f).numIns
          (fc.placed g parentWidth parentHeight f).numOuts + 1)
        ≤ (fc.placed g parentWidth parentHeight f).bounds.w
      rw [p4, p5, p7]
      exact w3
  · rw [if_neg hguard]
    obtain ⟨q1, q2, q3, q4, _⟩ := hlaid
    have hi : f.processor.totalIns = fc.numIns := by
      rw [q1]
      by_contra hne
      exact hguard (Or.inl hne)
    have ho : f.processor.totalOuts = fc.numOuts := by
      rw [q2]
      by_contra hne
      exact hguard (Or.inr hne)
    have hY : ({ fc with numIns := f.processor.totalIns, numOuts := f.processor.totalOuts }
        : FilterComponent) = fc := by
      rw [hi, ho]
    have hpins : (fc.placed g parentWidth parentHeight f).pins
        = (fc.setSize f.processor.viewWidth f.processor.viewHeight).pins := by
      unfold FilterComponent.placed
      rw [hY]
      rfl
    have hfix : (fc.placed g parentWidth parentHeight f).resized.pins
        = (fc.placed g parentWidth parentHeight f).pins
        ∧ (fc.placed g parentWidth parentHeight f).pins.Pairwise (fun a b =>
            a.isInput = b.isInput → a.slot fc.numIns fc.numOuts ≠ b.slot fc.numIns fc.numOuts) := by
      rw [hpins]
      unfold FilterComponent.setSize
      split
      · rename_i hsame
        refine ⟨?_, q4⟩
        rw [← q3]
        apply resized_pins_congr
        · rw [p4, hi]
        · rw [p5, ho]
        · rw [p7]
          exact hsame.1.symm
        · rw [p7]
          exact hsame.2.symm
        · rw [hpins]
          unfold FilterComponent.setSize
          rw [if_pos hsame]
      · rename_i hdiff
        refine ⟨?_, pairwise_slots_resized _ _ _ q4⟩
        refine Eq.trans ?_ (resized_pins_idem _)
        apply resized_pins_congr
        · rw [p4, hi]
          rfl
        · rw [p5, ho]
          rfl
        · rw [p7]
          rfl
        · rw [p7]
          rfl
        · rw [hpins]
          unfold FilterComponent.setSize
          rw [if_neg hdiff]
    refine ⟨?_, ?_, hfix.1, ?_, fun _ => ⟨?_, ?_, ?_⟩⟩
    · rw [p4, p2, hi, q1]
    · rw [p5, p3, ho, q2]
    · rw [p4, p5, hi, ho]
      exact hfix.2
    · rw [p4]
      exact w1
    · rw [p5]
      exact w2
    · rw [p4, p5, p7]
      exact w3

theorem intersects_self (x y : Int) :
    Rectangle.intersects { x := x, y := y, w := 16, h := 16 } { x := x, y := y, w := 16, h := 16 }
      = true := by
  unfold Rectangle.intersects
  simp

theorem dup_of_map {α β : Type} (f : α → β) (l1 l2 : List α) (x : α) (hx : x ∈ l1)
    (P : β → Prop) (hP : P (f x)) :
    ∃ a, [a, a].Sublist ((l1 ++ x :: l2).map f) ∧ P a := by
  refine ⟨f x, ?_, hP⟩
  rw [List.map_append, List.map_cons]
  show List.Sublist ([f x] ++ [f x]) (l1.map f ++ ([f x] ++ l2.map f))
  refine List.Sublist.append ?_ (List.sublist_append_left _ _)
  rw [List.singleton_sublist]
  exact List.mem_map_of_mem f hx

theorem wide_pins_twice :
    ∃ a, [a, a].Sublist
        (FilterComponent.resized
          { (FilterComponent.new 1).placed exampleWideGraph 800 600 exampleWideNode with
            numInputs := exampleWideNode.processor.totalIns
            numOutputs := exampleWideNode.processor.totalOuts
            pins := FilterComponent.makePins exampleWideGraph 1 exampleWideNode.processor }).pins
      ∧ a.bounds.intersects a.bounds = true := by
  unfold FilterComponent.resized
  simp only
  rw [makePins_eq, List.append_assoc]
  refine dup_of_map _ _ _ (PinComponent.new exampleWideGraph 1 4096 true) ?_
    (fun (a : PinComponent) => a.bounds.intersects a.bounds = true) ?_
  · refine List.mem_map.mpr ⟨4096, ?_, rfl⟩
    rw [List.mem_range]
    decide
  · exact intersects_self _ _

/-- C26, the claim as stated fails: the view of a node with 4097 audio inputs that accepts
MIDI has, after `update()`, two input pins one after the other in the same layout slot and
with intersecting bounds: the audio input with the index 4096 is laid out as the MIDI
pin. -/
theorem update_pins_overlap_at_midiChannelNumber :
    ∃ fc1 a b, (FilterComponent.new 1).update exampleWideGraph 800 600 = some fc1
      ∧ [a, b].Sublist fc1.pins
      ∧ a.isInput = b.isInput
      ∧ a.slot fc1.numIns fc1.numOuts = b.slot fc1.numIns fc1.numOuts
      ∧ a.bounds.intersects b.bounds = true := by
  have hf : exampleWideGraph.getNodeForId (FilterComponent.new 1).filterID
      = some exampleWideNode := rfl
  have hguard : exampleWideNode.processor.totalIns ≠ (FilterComponent.new 1).numInputs
      ∨ exampleWideNode.processor.totalOuts ≠ (FilterComponent.new 1).numOutputs :=
    Or.inl (by decide)
  rw [update_of_node exampleWideGraph 800 600 (FilterComponent.new 1) exampleWideNode hf,
    if_pos hguard]
  obtain ⟨a, hsub, hint⟩ := wide_pins_twice
  exact ⟨_, a, a, rfl, hsub, rfl, rfl, hint⟩

/-- C26, amended: the pins of one node do not overlap, for a node with at most 4096 audio
channels in each direction, so that every audio channel index is below the MIDI channel
number 4096. A newly constructed view is laid out; and when `update()` runs on a view that
is laid out and whose node exists, the view stays, it is laid out again, it is at least
20 * (max(numIns, numOuts) + 1) pixels wide, every pin has the bounds that `resized` gives
its slot (audio channel i takes slot i and the MIDI pin takes the last slot, total - 1),
and any two pins of the same direction are in different slots and have bounds that do not
intersect. -/
theorem update_pins_disjoint (g : FilterGraph) (parentWidth parentHeight : Int)
    (fc fc1 : FilterComponent) (f : Node) (hlaid : fc.pinsLaidOut)
    (hf : g.getNodeForId fc.filterID = some f)
    (hin : f.processor.numInputChannels ≤ 4096) (hout : f.processor.numOutputChannels ≤ 4096)
    (hu : fc.update g parentWidth parentHeight = some fc1) :
    (FilterComponent.new fc.filterID).pinsLaidOut
      ∧ fc1.pinsLaidOut
      ∧ 20 * (max fc1.numIns fc1.numOuts + 1) ≤ fc1.bounds.w
      ∧ (∀ pc ∈ fc1.pins,
          pc.slot fc1.numIns fc1.numOuts
              = (if pc.index = midiChannelNumber then
                  (if pc.isInput then fc1.numIns else fc1.numOuts) - 1
                else pc.index)
            ∧ pc.bounds
              = { x := fc1.proportionOfWidth
                        ((((1 + pc.slot fc1.numIns fc1.numOuts : Int) : ℚ))
                          / (((if pc.isInput then fc1.numIns else fc1.numOuts : Int) : ℚ) + 1))
                      - pinSize / 2
                  y := if pc.isInput then 0 else fc1.bounds.h - pinSize
                  w := pinSize
                  h := pinSize })
      ∧ fc1.pins.Pairwise (fun a b =>
          a.isInput = b.isInput →
            a.slot fc1.numIns fc1.numOuts ≠ b.slot fc1.numIns fc1.numOuts
              ∧ a.bounds.intersects b.bounds = false) := by
  have hl1 := update_pinsLaidOut g parentWidth parentHeight fc fc1 f hlaid hf hin hout hu
  obtain ⟨_, _, _, u4, u5, _, u7⟩ := update_fields g parentWidth parentHeight fc fc1 f hf hu
  obtain ⟨_, _, w3⟩ := viewWidth_wide f.processor
  refine ⟨new_pinsLaidOut _, hl1, ?_, ?_, pins_disjoint_of_laidOut fc1 hl1⟩
  · rw [u4, u5, u7]
    exact w3
  · intro pc hpc
    refine ⟨rfl, ?_⟩
    exact resized_pin_bounds fc1 hl1.2.2.1 pc hpc

theorem update_pins_disjoint_witness :
    (FilterComponent.new 1).pinsLaidOut
      ∧ exampleGraph.getNodeForId 1 = some exampleNodeA
      ∧ (FilterComponent.new 1).update exampleGraph 800 600 = some exampleViewA
      ∧ exampleViewA.pins.Pairwise (fun a b =>
          a.isInput = b.isInput →
            a.slot exampleViewA.numIns exampleViewA.numOuts
                ≠ b.slot exampleViewA.numIns exampleViewA.numOuts
              ∧ a.bounds.intersects b.bounds = false) :=
  ⟨new_pinsLaidOut 1, rfl, by decide!,
    (update_pins_disjoint exampleGraph 800 600 (FilterComponent.new 1) exampleViewA exampleNodeA
      (new_pinsLaidOut 1) rfl (by decide) (by decide) (by decide!)).2.2.2.2⟩


/-! ## Closing the windows of a node -/

theorem closeLoop_spec (nodeId : Nat) (pre : List PluginWindow) :
    ∀ post : List PluginWindow, ((pre ++ post).map (fun w => w.addr)).Nodup →
      PluginWindow.closeLoop nodeId pre.length (pre ++ post)
        = pre.filter (fun w => decide (w.owner ≠ nodeId)) ++ post := by
  induction pre using List.reverseRecOn with
  | nil =>
    intro post _
    rfl
  | append_singleton pre w ih =>
    intro post hnd
    have hget : (pre ++ [w] ++ post).get? pre.length = some w := by
      rw [List.append_assoc, List.get?_eq_getElem?, List.getElem?_append_right (le_refl _)]
      simp
    rw [List.length_append, List.length_singleton]
    unfold PluginWindow.closeLoop
    rw [hget]
    simp only
    have hnd2 : ((pre ++ (w :: post)).map (fun w => w.addr)).Nodup := by
      rw [List.append_assoc] at hnd
      exact hnd
    by_cases hw : w.owner = nodeId
    · rw [if_pos hw]
      have hdel : PluginWindow.delete (pre ++ [w] ++ post) w = pre ++ post := by
        unfold PluginWindow.delete
        rw [List.append_assoc, List.eraseP_append_right]
        · simp
        · intro b hb hbw
          rw [beq_iff_eq] at hbw
          rw [List.map_append, List.nodup_append] at hnd2
          have h1 : b.addr ∈ pre.map (fun w => w.addr) :=
            List.mem_map.mpr ⟨b, hb, rfl⟩
          have h2 : b.addr ∈ (w :: post).map (fun w => w.addr) :=
            List.mem_map.mpr ⟨w, List.mem_cons_self _ _, hbw.symm⟩
          exact hnd2.2.2 h1 h2
      rw [hdel, ih post]
      · rw [List.filter_append]
        simp [hw]
      · rw [List.map_append, List.nodup_append] at hnd2 ⊢
        refine ⟨hnd2.1, ?_, ?_⟩
        · rw [List.map_cons] at hnd2
          exact (List.nodup_cons.mp hnd2.2.1).2
        · intro a ha hb
          exact hnd2.2.2 ha (by rw [List.map_cons]; exact List.mem_cons_of_mem _ hb)
    · rw [if_neg hw, List.append_assoc]
      show PluginWindow.closeLoop nodeId pre.length (pre ++ (w :: post)) = _
      rw [ih (w :: post) hnd2, List.filter_append]
      simp [hw]

theorem exampleOpenWindows_wellFormed : exampleOpenWindows.WellFormed := by
  unfold PluginWindows.WellFormed
  decide

/-- C28: closing the windows of a node touches only that node. On a list of active
windows whose pointers are distinct, `closeCurrentlyOpenWindowsFor (id)` leaves exactly
the windows whose owner has another id, in the order they had: no window of the node
remains, every window of another node is still in the list, the list that remains is a
sublist of the list before, and the rest of the state is as it was. -/
theorem closeCurrentlyOpenWindowsFor_spec (st : PluginWindows) (nodeId : Nat)
    (hwf : st.WellFormed) :
    (PluginWindow.closeCurrentlyOpenWindowsFor st nodeId).activePluginWindows
        = st.activePluginWindows.filter (fun w => decide (w.owner ≠ nodeId))
      ∧ (∀ w ∈ (PluginWindow.closeCurrentlyOpenWindowsFor st nodeId).activePluginWindows,
          w.owner ≠ nodeId)
      ∧ (∀ w ∈ st.activePluginWindows, w.owner ≠ nodeId →
          w ∈ (PluginWindow.closeCurrentlyOpenWindowsFor st nodeId).activePluginWindows)
      ∧ (PluginWindow.closeCurrentlyOpenWindowsFor st nodeId).activePluginWindows.Sublist
          st.activePluginWindows
      ∧ (PluginWindow.closeCurrentlyOpenWindowsFor st nodeId).nextAddr = st.nextAddr
      ∧ (PluginWindow.closeCurrentlyOpenWindowsFor st nodeId).log = st.log := by
  have h := closeLoop_spec nodeId st.activePluginWindows []
    (by rw [List.append_nil]; exact hwf)
  rw [List.append_nil, List.append_nil] at h
  have heq : (PluginWindow.closeCurrentlyOpenWindowsFor st nodeId).activePluginWindows
      = st.activePluginWindows.filter (fun w => decide (w.owner ≠ nodeId)) := h
  rw [heq]
  refine ⟨rfl, ?_, ?_, List.filter_sublist _, rfl, rfl⟩
  · intro w hw
    have := (List.mem_filter.mp hw).2
    exact of_decide_eq_true this
  · intro w hw hne
    exact List.mem_filter.mpr ⟨hw, decide_eq_true hne⟩

theorem closeCurrentlyOpenWindowsFor_spec_witness :
    exampleOpenWindows.WellFormed
      ∧ (PluginWindow.closeCurrentlyOpenWindowsFor exampleOpenWindows 1).activePluginWindows
          = exampleOpenWindows.activePluginWindows.filter (fun w => decide (w.owner ≠ 1)) :=
  ⟨exampleOpenWindows_wellFormed,
    (closeCurrentlyOpenWindowsFor_spec exampleOpenWindows 1 exampleOpenWindows_wellFormed).1⟩

/-! ## The window of a node -/

/-- C27, the code at the failing input: for node 1 of `exampleGraph`, whose processor
creates no editor, and no window open, `getWindowFor (node, Normal)` stops at the null
pointer that the log line dereferences, and returns no window; for a type other than
`Normal` the generic editor is made, and a window that is open for the node and the type
is returned as it is, with no window added. -/
theorem getWindowFor_dereferences_missing_editor :
    PluginWindow.getWindowFor exampleNoEditor {} exampleNodeA .Normal
        = .error .nullPointerDereference
      ∧ PluginWindow.getWindowFor exampleNoEditor {} exampleNodeA .Generic
        = .ok (some { addr := 0, owner := 1, type := .Generic
                      editor := { editorClass := .GenericAudioProcessorEditor } },
               { activePluginWindows :=
                   [ { addr := 0, owner := 1, type := .Generic
                       editor := { editorClass := .GenericAudioProcessorEditor } } ]
                 nextAddr := 1 })
      ∧ PluginWindow.getWindowFor exampleNoEditor exampleOpenWindows exampleNodeA .Generic
        = .ok (some { addr := 0, owner := 1, type := .Generic
                      editor := { editorClass := .GenericAudioProcessorEditor } },
               exampleOpenWindows) := by
  refine ⟨rfl, rfl, rfl⟩


/-! ## The rectangle of a plant -/

theorem foldl_left_edge (xs : List Int) (b : Int) :
    (∀ v ∈ xs, xs.foldl (fun acc v => if v < acc then v else acc) b ≤ v)
      ∧ xs.foldl (fun acc v => if v < acc then v else acc) b ≤ b
      ∧ (xs.foldl (fun acc v => if v < acc then v else acc) b = b
          ∨ xs.foldl (fun acc v => if v < acc then v else acc) b ∈ xs) := by
  induction xs generalizing b with
  | nil => exact ⟨fun v hv => absurd hv (List.not_mem_nil v), le_refl _, Or.inl rfl⟩
  | cons a t ih =>
    rw [List.foldl_cons]
    obtain ⟨h1, h2, h3⟩ := ih (if a < b then a else b)
    refine ⟨?_, ?_, ?_⟩
    · intro v hv
      rcases List.mem_cons.mp hv with rfl | hv
      · refine le_trans h2 ?_
        split <;> omega
      · exact h1 v hv
    · refine le_trans h2 ?_
      split <;> omega
    · rcases h3 with h3 | h3
      · by_cases hab : a < b
        · rw [if_pos hab] at h3 ⊢
          right
          rw [h3]
          exact List.mem_cons_self _ _
        · rw [if_neg hab] at h3 ⊢
          left
          exact h3
      · right
        exact List.mem_cons_of_mem _ h3

theorem foldl_far_edge (xs : List Int) (b : Int) :
    (∀ v ∈ xs, v ≤ xs.foldl (fun acc v => if v > acc then v else acc) b)
      ∧ b ≤ xs.foldl (fun acc v => if v > acc then v else acc) b
      ∧ (xs.foldl (fun acc v => if v > acc then v else acc) b = b
          ∨ xs.foldl (fun acc v => if v > acc then v else acc) b ∈ xs) := by
  induction xs generalizing b with
  | nil => exact ⟨fun v hv => absurd hv (List.not_mem_nil v), le_refl _, Or.inl rfl⟩
  | cons a t ih =>
    rw [List.foldl_cons]
    obtain ⟨h1, h2, h3⟩ := ih (if a > b then a else b)
    refine ⟨?_, ?_, ?_⟩
    · intro v hv
      rcases List.mem_cons.mp hv with rfl | hv
      · refine le_trans ?_ h2
        split <;> omega
      · exact h1 v hv
    · refine le_trans ?_ h2
      split <;> omega
    · rcases h3 with h3 | h3
      · by_cases hab : a > b
        · rw [if_pos hab] at h3 ⊢
          right
          rw [h3]
          exact List.mem_cons_self _ _
        · rw [if_neg hab] at h3 ⊢
          left
          exact h3
      · right
        exact List.mem_cons_of_mem _ h3

theorem plant_loop_x (gx : String → Int) (l : List String) (b : Rectangle) :
    l.foldl (fun (bounds : Rectangle) t =>
        if gx t < bounds.x then { bounds with x := gx t } else bounds) b
      = { b with x := (l.map gx).foldl (fun acc v => if v < acc then v else acc) b.x } := by
  induction l generalizing b with
  | nil => rfl
  | cons a t ih =>
    rw [List.foldl_cons, ih, List.map_cons, List.foldl_cons]
    by_cases h : gx a < b.x
    · rw [if_pos h, if_pos h]
    · rw [if_neg h, if_neg h]

theorem plant_loop_y (gy : String → Int) (l : List String) (b : Rectangle) :
    l.foldl (fun (bounds : Rectangle) t =>
        if gy t < bounds.y then { bounds with y := gy t } else bounds) b
      = { b with y := (l.map gy).foldl (fun acc v => if v < acc then v else acc) b.y } := by
  induction l generalizing b with
  | nil => rfl
  | cons a t ih =>
    rw [List.foldl_cons, ih, List.map_cons, List.foldl_cons]
    by_cases h : gy a < b.y
    · rw [if_pos h, if_pos h]
    · rw [if_neg h, if_neg h]

theorem plant_loop_w (gw gx : String → Int) (l : List String) (b : Rectangle) :
    l.foldl (fun (bounds : Rectangle) t =>
        if gw t + gx t > bounds.x + bounds.w then { bounds with w := gw t + gx t - bounds.x }
        else bounds) b
      = { b with
          w := (l.map (fun t => gw t + gx t)).foldl (fun acc v => if v > acc then v else acc)
                (b.x + b.w) - b.x } := by
  induction l generalizing b with
  | nil =>
    obtain ⟨x, y, w, h⟩ := b
    simp
  | cons a t ih =>
    rw [List.foldl_cons, ih, List.map_cons, List.foldl_cons]
    by_cases h : gw a + gx a > b.x + b.w
    · rw [if_pos h, if_pos h]
      simp
    · rw [if_neg h, if_neg h]

theorem plant_loop_h (gh gy : String → Int) (l : List String) (b : Rectangle) :
    l.foldl (fun (bounds : Rectangle) t =>
        if gh t + gy t > bounds.y + bounds.h then { bounds with h := gh t + gy t - bounds.y }
        else bounds) b
      = { b with
          h := (l.map (fun t => gh t + gy t)).foldl (fun acc v => if v > acc then v else acc)
                (b.y + b.h) - b.y } := by
  induction l generalizing b with
  | nil =>
    obtain ⟨x, y, w, h⟩ := b
    simp
  | cons a t ih =>
    rw [List.foldl_cons, ih, List.map_cons, List.foldl_cons]
    by_cases h : gh a + gy a > b.y + b.h
    · rw [if_pos h, if_pos h]
      simp
    · rw [if_neg h, if_neg h]

theorem convertIntoPlant_bounds_eq (cAttr : String → CabbageGUIType) (l : List String) :
    convertIntoPlant_bounds cAttr l
      = { x := (l.map (fun t => (cAttr t).getBounds.x)).foldl
                (fun acc v => if v < acc then v else acc) 9999
          y := (l.map (fun t => (cAttr t).getBounds.y)).foldl
                (fun acc v => if v < acc then v else acc) 9999
          w := (l.map (fun t => (cAttr t).getBounds.w + (cAttr t).getBounds.x)).foldl
                (fun acc v => if v > acc then v else acc)
                ((l.map (fun t => (cAttr t).getBounds.x)).foldl
                  (fun acc v => if v < acc then v else acc) 9999 + -100)
              - (l.map (fun t => (cAttr t).getBounds.x)).foldl
                  (fun acc v => if v < acc then v else acc) 9999
          h := (l.map (fun t => (cAttr t).getBounds.h + (cAttr t).getBounds.y)).foldl
                (fun acc v => if v > acc then v else acc)
                ((l.map (fun t => (cAttr t).getBounds.y)).foldl
                  (fun acc v => if v < acc then v else acc) 9999 + -100)
              - (l.map (fun t => (cAttr t).getBounds.y)).foldl
                  (fun acc v => if v < acc then v else acc) 9999 } := by
  unfold convertIntoPlant_bounds
  simp only
  rw [plant_loop_x (fun t => (cAttr t).getBounds.x),
    plant_loop_y (fun t => (cAttr t).getBounds.y),
    plant_loop_w (fun t => (cAttr t).getBounds.w) (fun t => (cAttr t).getBounds.x),
    plant_loop_h (fun t => (cAttr t).getBounds.h) (fun t => (cAttr t).getBounds.y)]

theorem plant_edges (cAttr : String → CabbageGUIType) (l : List String) :
    (∀ t ∈ l,
        (convertIntoPlant_bounds cAttr l).x ≤ (cAttr t).getBounds.x
          ∧ (convertIntoPlant_bounds cAttr l).y ≤ (cAttr t).getBounds.y
          ∧ (cAttr t).getBounds.x + (cAttr t).getBounds.w
              ≤ (convertIntoPlant_bounds cAttr l).x + (convertIntoPlant_bounds cAttr l).w
          ∧ (cAttr t).getBounds.y + (cAttr t).getBounds.h
              ≤ (convertIntoPlant_bounds cAttr l).y + (convertIntoPlant_bounds cAttr l).h)
      ∧ ((convertIntoPlant_bounds cAttr l).x = 9999
          ∨ ∃ t ∈ l, (convertIntoPlant_bounds cAttr l).x = (cAttr t).getBounds.x)
      ∧ ((convertIntoPlant_bounds cAttr l).y = 9999
          ∨ ∃ t ∈ l, (convertIntoPlant_bounds cAttr l).y = (cAttr t).getBounds.y)
      ∧ ((convertIntoPlant_bounds cAttr l).w = -100
          ∨ ∃ t ∈ l, (convertIntoPlant_bounds cAttr l).x + (convertIntoPlant_bounds cAttr l).w
              = (cAttr t).getBounds.x + (cAttr t).getBounds.w)
      ∧ ((convertIntoPlant_bounds cAttr l).h = -100
          ∨ ∃ t ∈ l, (convertIntoPlant_bounds cAttr l).y + (convertIntoPlant_bounds cAttr l).h
              = (cAttr t).getBounds.y + (cAttr t).getBounds.h) := by
  rw [convertIntoPlant_bounds_eq]
  simp only
  obtain ⟨x1, _, x3⟩ := foldl_left_edge (l.map (fun t => (cAttr t).getBounds.x)) 9999
  obtain ⟨y1, _, y3⟩ := foldl_left_edge (l.map (fun t => (cAttr t).getBounds.y)) 9999
  generalize (l.map (fun t => (cAttr t).getBounds.x)).foldl
    (fun acc v => if v < acc then v else acc) 9999 = X at x1 x3 ⊢
  generalize (l.map (fun t => (cAttr t).getBounds.y)).foldl
    (fun acc v => if v < acc then v else acc) 9999 = Y at y1 y3 ⊢
  obtain ⟨r1, _, r3⟩ := foldl_far_edge
    (l.map (fun t => (cAttr t).getBounds.w + (cAttr t).getBounds.x)) (X + -100)
  obtain ⟨b1, _, b3⟩ := foldl_far_edge
    (l.map (fun t => (cAttr t).getBounds.h + (cAttr t).getBounds.y)) (Y + -100)
  generalize (l.map (fun t => (cAttr t).getBounds.w + (cAttr t).getBounds.x)).foldl
    (fun acc v => if v > acc then v else acc) (X + -100) = R at r1 r3 ⊢
  generalize (l.map (fun t => (cAttr t).getBounds.h + (cAttr t).getBounds.y)).foldl
    (fun acc v => if v > acc then v else acc) (Y + -100) = B at b1 b3 ⊢
  refine ⟨?_, ?_, ?_, ?_, ?_⟩
  · intro t ht
    have hx := x1 _ (List.mem_map.mpr ⟨t, ht, rfl⟩)
    have hy := y1 _ (List.mem_map.mpr ⟨t, ht, rfl⟩)
    have hr := r1 _ (List.mem_map.mpr ⟨t, ht, rfl⟩)
    have hb := b1 _ (List.mem_map.mpr ⟨t, ht, rfl⟩)
    refine ⟨hx, hy, ?_, ?_⟩ <;> omega
  · rcases x3 with h | h
    · exact Or.inl h
    · obtain ⟨t, ht, he⟩ := List.mem_map.mp h
      exact Or.inr ⟨t, ht, he.symm⟩
  · rcases y3 with h | h
    · exact Or.inl h
    · obtain ⟨t, ht, he⟩ := List.mem_map.mp h
      exact Or.inr ⟨t, ht, he.symm⟩
  · rcases r3 with h | h
    · left
      omega
    · obtain ⟨t, ht, he⟩ := List.mem_map.mp h
      exact Or.inr ⟨t, ht, by omega⟩
  · rcases b3 with h | h
    · left
      omega
    · obtain ⟨t, ht, he⟩ := List.mem_map.mp h
      exact Or.inr ⟨t, ht, by omega⟩

/-- C29, the code at the failing input: for one selected line whose rectangle is
(10000, 10, 80, 30), the loop under the comment "get left most point" leaves the x of the
plant at 9999, the value that `bounds` is created with, so that the plant rectangle is
(9999, 10, 81, 30): its x is not the leftmost x of the selection, its width is not the
width up to the rightmost edge from there, and the child is put at x = 1 of the plant, not
at its left edge. -/
theorem convertIntoPlant_bounds_not_leftmost :
    (exampleAttr "button bounds(10000, 10, 80, 30)").getBounds
        = { x := 10000, y := 10, w := 80, h := 30 }
      ∧ convertIntoPlant_bounds exampleAttr ["button bounds(10000, 10, 80, 30)"]
        = { x := 9999, y := 10, w := 81, h := 30 }
      ∧ convertIntoPlant_allNewBounds exampleAttr ["button bounds(10000, 10, 80, 30)"]
        = [{ x := 1, y := 0, w := 80, h := 30 }] := by
  decide

/-- What holds of the rectangle of the plant for every list of selected lines: the
rectangle that `convertIntoPlant` computes contains the rectangle of every line; its x is the leftmost x when some line has x at most 9999, and
its y the topmost y when some line has y at most 9999; its right edge is the rightmost
edge when some line has a width of at least -100, and its lower edge the lowest edge when
some line has a height of at least -100; and the new bounds of each child are its left and
top minus the x and y of the plant, with its width and height. -/
theorem convertIntoPlant_bounds_contains (cAttr : String → CabbageGUIType) (l : List String) :
    (∀ t ∈ l, (convertIntoPlant_bounds cAttr l).containsRectangle (cAttr t).getBounds = true)
      ∧ ((∃ t ∈ l, (cAttr t).getBounds.x ≤ 9999) →
          (∃ t ∈ l, (convertIntoPlant_bounds cAttr l).x = (cAttr t).getBounds.x)
            ∧ ∀ t ∈ l, (convertIntoPlant_bounds cAttr l).x ≤ (cAttr t).getBounds.x)
      ∧ ((∃ t ∈ l, (cAttr t).getBounds.y ≤ 9999) →
          (∃ t ∈ l, (convertIntoPlant_bounds cAttr l).y = (cAttr t).getBounds.y)
            ∧ ∀ t ∈ l, (convertIntoPlant_bounds cAttr l).y ≤ (cAttr t).getBounds.y)
      ∧ ((∃ t ∈ l, -100 ≤ (cAttr t).getBounds.w) →
          (∃ t ∈ l, (convertIntoPlant_bounds cAttr l).x + (convertIntoPlant_bounds cAttr l).w
              = (cAttr t).getBounds.x + (cAttr t).getBounds.w)
            ∧ ∀ t ∈ l, (cAttr t).getBounds.x + (cAttr t).getBounds.w
                ≤ (convertIntoPlant_bounds cAttr l).x + (convertIntoPlant_bounds cAttr l).w)
      ∧ ((∃ t ∈ l, -100 ≤ (cAttr t).getBounds.h) →
          (∃ t ∈ l, (convertIntoPlant_bounds cAttr l).y + (convertIntoPlant_bounds cAttr l).h
              = (cAttr t).getBounds.y + (cAttr t).getBounds.h)
            ∧ ∀ t ∈ l, (cAttr t).getBounds.y + (cAttr t).getBounds.h
                ≤ (convertIntoPlant_bounds cAttr l).y + (convertIntoPlant_bounds cAttr l).h)
      ∧ convertIntoPlant_allNewBounds cAttr l
          = l.map (fun t =>
              { x := (cAttr t).left - (convertIntoPlant_bounds cAttr l).x
                y := (cAttr t).top - (convertIntoPlant_bounds cAttr l).y
                w := (cAttr t).width
                h := (cAttr t).height }) := by
  obtain ⟨hall, hx, hy, hw, hh⟩ := plant_edges cAttr l
  refine ⟨?_, ?_, ?_, ?_, ?_, rfl⟩
  · intro t ht
    obtain ⟨h1, h2, h3, h4⟩ := hall t ht
    unfold Rectangle.containsRectangle
    simp only [Bool.and_eq_true, decide_eq_true_eq]
    exact ⟨⟨⟨h1, h2⟩, h3⟩, h4⟩
  · rintro ⟨t, ht, hle⟩
    refine ⟨?_, fun s hs => (hall s hs).1⟩
    rcases hx with h | h
    · exact ⟨t, ht, by have := (hall t ht).1; omega⟩
    · exact h
  · rintro ⟨t, ht, hle⟩
    refine ⟨?_, fun s hs => (hall s hs).2.1⟩
    rcases hy with h | h
    · exact ⟨t, ht, by have := (hall t ht).2.1; omega⟩
    · exact h
  · rintro ⟨t, ht, hle⟩
    refine ⟨?_, fun s hs => (hall s hs).2.2.1⟩
    rcases hw with h | h
    · refine ⟨t, ht, ?_⟩
      obtain ⟨h1, _, h3, _⟩ := hall t ht
      omega
    · exact h
  · rintro ⟨t, ht, hle⟩
    refine ⟨?_, fun s hs => (hall s hs).2.2.2⟩
    rcases hh with h | h
    · refine ⟨t, ht, ?_⟩
      obtain ⟨_, h2, _, h4⟩ := hall t ht
      omega
    · exact h

theorem convertIntoPlant_bounds_example :
    convertIntoPlant_bounds exampleAttr
          ["button bounds(10, 40, 80, 30)", "rslider bounds(120, 20, 60, 60)"]
        = { x := 10, y := 20, w := 170, h := 60 }
      ∧ convertIntoPlant_allNewBounds exampleAttr
          ["button bounds(10, 40, 80, 30)", "rslider bounds(120, 20, 60, 60)"]
        = ["button bounds(10, 40, 80, 30)", "rslider bounds(120, 20, 60, 60)"].map (fun t =>
              { x := (exampleAttr t).left
                  - (convertIntoPlant_bounds exampleAttr
                      ["button bounds(10, 40, 80, 30)", "rslider bounds(120, 20, 60, 60)"]).x
                y := (exampleAttr t).top
                  - (convertIntoPlant_bounds exampleAttr
                      ["button bounds(10, 40, 80, 30)", "rslider bounds(120, 20, 60, 60)"]).y
                w := (exampleAttr t).width
                h := (exampleAttr t).height }) :=
  ⟨by decide,
    (convertIntoPlant_bounds_contains exampleAttr
      ["button bounds(10, 40, 80, 30)", "rslider bounds(120, 20, 60, 60)"]).2.2.2.2.2⟩


/-! ## Sending a widget backwards twice -/

/-- C30, the code at the failing input: on `exampleCsdArray` with the button on line 2
selected, `sendBack (false)` moves the button line in front of the form line, and the text
is a permutation; the same call again, with the button now on line 1, starts its loop at
`i = 0`, which fails `i > 0`, and the button line is removed and not inserted again: four
lines remain. `sendBack (true)` on a text with no form line and `sendForward (true)` on a
text with no closing tag lose the line in the same way. With two lines selected the text is
left as it is. -/
theorem sendBack_loses_line :
    sendBack [2] exampleCsdArray false
        = [ "<Cabbage>",
            "button bounds(10, 10, 80, 30)",
            "form caption(\"Test\") size(400, 300)",
            "rslider bounds(120, 20, 60, 60)",
            "</Cabbage>" ]
      ∧ sendBack [1] (sendBack [2] exampleCsdArray false) false
        = [ "<Cabbage>",
            "form caption(\"Test\") size(400, 300)",
            "rslider bounds(120, 20, 60, 60)",
            "</Cabbage>" ]
      ∧ sendBack [1] ["<Cabbage>", "button bounds(10, 10, 80, 30)", "</Cabbage>"] true
        = ["<Cabbage>", "</Cabbage>"]
      ∧ sendForward [1] ["<Cabbage>", "button bounds(10, 10, 80, 30)"] true
        = ["<Cabbage>"]
      ∧ sendForward [2] exampleCsdArray true
        = [ "<Cabbage>",
            "form caption(\"Test\") size(400, 300)",
            "rslider bounds(120, 20, 60, 60)",
            "button bounds(10, 10, 80, 30)",
            "</Cabbage>" ]
      ∧ sendBack [2, 3] exampleCsdArray false = exampleCsdArray
      ∧ sendForward [2, 3] exampleCsdArray true = exampleCsdArray := by
  refine ⟨?_, ?_, ?_, ?_, ?_, ?_, ?_⟩ <;> decide


/-! ## The positions stored in the graph are not clamped -/

theorem getNodeForId_map_afterCalls (calls : List (Nat × ℚ × ℚ)) (g : FilterGraph) (n : Nat) :
    (applyCalls FilterGraph.setNodePosition g calls).getNodeForId n
      = (g.getNodeForId n).map (Node.afterCalls calls) := by
  rw [applyCalls_eq]
  unfold FilterGraph.getNodeForId
  simp only
  induction g.nodes with
  | nil => rfl
  | cons f t ih =>
    rw [List.map_cons, List.find?_cons, List.find?_cons, (afterCalls_fields calls f).1]
    cases hfn : (f.nodeId == n) with
    | true => rfl
    | false => exact ih

theorem afterCalls_pos (calls : List (Nat × ℚ × ℚ)) (f : Node)
    (hnd : (calls.map Prod.fst).Nodup) (c : Nat × ℚ × ℚ) (hc : c ∈ calls)
    (hid : f.nodeId = c.1) :
    (f.afterCalls calls).x = c.2.1 ∧ (f.afterCalls calls).y = c.2.2 := by
  induction calls generalizing f with
  | nil => exact absurd hc (List.not_mem_nil c)
  | cons c0 rest ih =>
    rw [List.map_cons, List.nodup_cons] at hnd
    have hstep : f.afterCalls (c0 :: rest)
        = Node.afterCalls rest (if f.nodeId = c0.1 then { f with x := c0.2.1, y := c0.2.2 } else f) := by
      unfold Node.afterCalls
      rw [List.foldl_cons]
    rw [hstep]
    rcases List.mem_cons.mp hc with rfl | hc
    · rw [if_pos hid, afterCalls_of_not_mem]
      · exact ⟨rfl, rfl⟩
      · show f.nodeId ∉ rest.map Prod.fst
        rw [hid]
        exact hnd.1
    · have hne : ¬ f.nodeId = c0.1 := by
        intro h
        apply hnd.1
        rw [← h, hid]
        exact List.mem_map_of_mem Prod.fst hc
      rw [if_neg hne]
      exact ih f hnd.2 hc hid

theorem getNodePosition_applyCalls (calls : List (Nat × ℚ × ℚ)) (g : FilterGraph)
    (hnd : (calls.map Prod.fst).Nodup) (c : Nat × ℚ × ℚ) (hc : c ∈ calls)
    (hnode : (g.getNodeForId c.1).isSome) :
    (applyCalls FilterGraph.setNodePosition g calls).getNodePosition c.1 = (c.2.1, c.2.2) := by
  unfold FilterGraph.getNodePosition
  rw [getNodeForId_map_afterCalls]
  cases hf : g.getNodeForId c.1 with
  | none => rw [hf] at hnode; exact absurd hnode (by simp)
  | some f =>
    have hid : f.nodeId = c.1 := by
      unfold FilterGraph.getNodeForId at hf
      have := List.find?_some hf
      exact beq_iff_eq.mp this
    obtain ⟨h1, h2⟩ := afterCalls_pos calls f hnd c hc hid
    rw [Option.map_some']
    simp only
    rw [h1, h2]

theorem getNodePosition_addNode (g : FilterGraph) (pr : AudioProcessor) (x y : ℚ)
    (halloc : g.idsAllocated) :
    (g.addNode pr x y).1.getNodePosition (g.lastNodeId + 1) = (x, y) := by
  unfold FilterGraph.getNodePosition FilterGraph.getNodeForId FilterGraph.addNode
  simp only
  have hnone : g.nodes.find? (fun n => n.nodeId == g.lastNodeId + 1) = none := by
    rw [List.find?_eq_none]
    intro f hf
    have := halloc f hf
    simp only [beq_iff_eq]
    omega
  rw [List.find?_append, hnone]
  simp

theorem inNormalizedRange_iff (cx cy w h : Int) (hw : 0 < w) (hh : 0 < h) :
    inNormalizedRange ((cx : ℚ) / (w : ℚ), (cy : ℚ) / (h : ℚ))
      ↔ (0 ≤ cx ∧ cx ≤ w ∧ 0 ≤ cy ∧ cy ≤ h) := by
  have h1 := normalized_in_range_iff cx w hw
  have h2 := normalized_in_range_iff cy h hh
  unfold inNormalizedRange
  constructor
  · rintro ⟨a1, a2, a3, a4⟩
    exact ⟨(h1.mp ⟨a1, a2⟩).1, (h1.mp ⟨a1, a2⟩).2, (h2.mp ⟨a3, a4⟩).1, (h2.mp ⟨a3, a4⟩).2⟩
  · rintro ⟨a1, a2, a3, a4⟩
    exact ⟨(h1.mpr ⟨a1, a2⟩).1, (h1.mpr ⟨a1, a2⟩).2, (h2.mpr ⟨a3, a4⟩).1, (h2.mpr ⟨a3, a4⟩).2⟩

/-- C17, as amended: the positions stored are not clamped. On a panel of positive width
`W` and height `H`, with the graph model storing a position as it is given: after
`FilterComponent::mouseDrag` in the single-node branch, the stored position of the node
of the dragged view is `(cx / W, cy / H)` for the pixel `(cx, cy)` that is `originalPos`
plus the distance from the start of the drag, taken to the coordinates of the panel, plus
half the size of the view; after `mouseDrag` in the group branch, on a selection of views
of different nodes, the stored position of the node of the selected item `i` is
`(cx / W, cy / H)` for the pixel that is the recorded entry `i` plus the distance plus
half the size of the dragged view; after `createNewPlugin`, the stored position of the new
node is `(x / W, y / H)`; and each of these stored positions satisfies `0 ≤ x ≤ 1` and
`0 ≤ y ≤ 1` exactly when the pixel satisfies `0 ≤ cx ≤ W` and `0 ≤ cy ≤ H`. -/
theorem positions_stored_unclamped (instantiate : PluginDescription → AudioProcessor)
    (g : FilterGraph) (p : GraphEditorPanel) (a : Nat) (fc : FilterComponent) (e : GestureEvent)
    (desc : PluginDescription) (x y : Int) (isNative : Bool) (fileName baseName : String)
    (hfc : p.filterAt a = some fc) (he : e.isPopupMenu = false)
    (hW : 0 < p.width) (hH : 0 < p.height)
    (hnode : (g.getNodeForId fc.filterID).isSome)
    (hsel : ∀ it ∈ p.getSelectedItems, (g.getNodeForId it.filterID).isSome)
    (hnodup : (p.getSelectedItems.map FilterComponent.filterID).Nodup)
    (halloc : g.idsAllocated) :
    (p.groupFlag fc = false →
        (p.filterMouseDrag FilterGraph.setNodePosition g a e).1.getNodePosition fc.filterID
            = (((fc.originalPos.1 + e.distanceFromDragStartX - p.screenX + fc.bounds.w / 2 : Int)
                  : ℚ) / (p.width : ℚ),
               ((fc.originalPos.2 + e.distanceFromDragStartY - p.screenY + fc.bounds.h / 2 : Int)
                  : ℚ) / (p.height : ℚ))
          ∧ (inNormalizedRange
              ((p.filterMouseDrag FilterGraph.setNodePosition g a e).1.getNodePosition
                fc.filterID)
            ↔ (0 ≤ fc.originalPos.1 + e.distanceFromDragStartX - p.screenX + fc.bounds.w / 2
                ∧ fc.originalPos.1 + e.distanceFromDragStartX - p.screenX + fc.bounds.w / 2
                    ≤ p.width
                ∧ 0 ≤ fc.originalPos.2 + e.distanceFromDragStartY - p.screenY + fc.bounds.h / 2
                ∧ fc.originalPos.2 + e.distanceFromDragStartY - p.screenY + fc.bounds.h / 2
                    ≤ p.height)))
      ∧ (p.groupFlag fc = true →
          ∀ (i : Nat) (it : FilterComponent), p.getSelectedItems.get? i = some it →
            (p.filterMouseDrag FilterGraph.setNodePosition g a e).1.getNodePosition it.filterID
                = ((((p.selectedFilterCoordinates.getD i (0, 0)).1 + e.distanceFromDragStartX
                      + fc.bounds.w / 2 : Int) : ℚ) / (p.width : ℚ),
                   (((p.selectedFilterCoordinates.getD i (0, 0)).2 + e.distanceFromDragStartY
                      + fc.bounds.h / 2 : Int) : ℚ) / (p.height : ℚ))
              ∧ (inNormalizedRange
                  ((p.filterMouseDrag FilterGraph.setNodePosition g a e).1.getNodePosition
                    it.filterID)
                ↔ (0 ≤ (p.selectedFilterCoordinates.getD i (0, 0)).1 + e.distanceFromDragStartX
                        + fc.bounds.w / 2
                    ∧ (p.selectedFilterCoordinates.getD i (0, 0)).1 + e.distanceFromDragStartX
                        + fc.bounds.w / 2 ≤ p.width
                    ∧ 0 ≤ (p.selectedFilterCoordinates.getD i (0, 0)).2
                        + e.distanceFromDragStartY + fc.bounds.h / 2
                    ∧ (p.selectedFilterCoordinates.getD i (0, 0)).2 + e.distanceFromDragStartY
                        + fc.bounds.h / 2 ≤ p.height)))
      ∧ (p.createNewPlugin (FilterGraph.addFilter instantiate) g desc x y isNative fileName
            baseName).getNodePosition (g.lastNodeId + 1)
          = ((x : ℚ) / (p.width : ℚ), (y : ℚ) / (p.height : ℚ))
      ∧ (inNormalizedRange
          ((p.createNewPlugin (FilterGraph.addFilter instantiate) g desc x y isNative fileName
            baseName).getNodePosition (g.lastNodeId + 1))
        ↔ (0 ≤ x ∧ x ≤ p.width ∧ 0 ≤ y ∧ y ≤ p.height)) := by
  have hgraph := filterMouseDrag_graph FilterGraph.setNodePosition g p a fc e hfc he
  have hids := filterDragCalls_ids p fc e
  have hnew : (p.createNewPlugin (FilterGraph.addFilter instantiate) g desc x y isNative
      fileName baseName).getNodePosition (g.lastNodeId + 1)
        = ((x : ℚ) / (p.width : ℚ), (y : ℚ) / (p.height : ℚ)) := by
    unfold GraphEditorPanel.createNewPlugin FilterGraph.addFilter
    split <;> exact getNodePosition_addNode g _ _ _ halloc
  refine ⟨?_, ?_, hnew, ?_⟩
  · intro hflag
    have hpos : (p.filterMouseDrag FilterGraph.setNodePosition g a e).1.getNodePosition
        fc.filterID
          = (((fc.originalPos.1 + e.distanceFromDragStartX - p.screenX + fc.bounds.w / 2 : Int)
                : ℚ) / (p.width : ℚ),
             ((fc.originalPos.2 + e.distanceFromDragStartY - p.screenY + fc.bounds.h / 2 : Int)
                : ℚ) / (p.height : ℚ)) := by
      rw [hgraph]
      rw [hflag] at hids ⊢
      exact getNodePosition_applyCalls (p.filterDragCalls fc false e) g
        (by
          rw [hids]
          unfold GraphEditorPanel.filterDragIds
          rw [hflag]
          simp)
        (fc.filterID, _, _)
        (by
          unfold GraphEditorPanel.filterDragCalls GraphEditorPanel.filterDragPixels
          simp)
        hnode
    refine ⟨hpos, ?_⟩
    rw [hpos]
    exact inNormalizedRange_iff _ _ _ _ hW hH
  · intro hflag i it hit
    have hpos : (p.filterMouseDrag FilterGraph.setNodePosition g a e).1.getNodePosition
        it.filterID
          = ((((p.selectedFilterCoordinates.getD i (0, 0)).1 + e.distanceFromDragStartX
                + fc.bounds.w / 2 : Int) : ℚ) / (p.width : ℚ),
             (((p.selectedFilterCoordinates.getD i (0, 0)).2 + e.distanceFromDragStartY
                + fc.bounds.h / 2 : Int) : ℚ) / (p.height : ℚ)) := by
      rw [hgraph]
      rw [hflag] at hids ⊢
      exact getNodePosition_applyCalls (p.filterDragCalls fc true e) g
        (by
          rw [hids]
          unfold GraphEditorPanel.filterDragIds
          rw [hflag]
          simpa using hnodup)
        (it.filterID, _, _)
        (by
          unfold GraphEditorPanel.filterDragCalls GraphEditorPanel.filterDragPixels
          rw [if_pos rfl, List.map_map]
          refine List.mem_map.mpr ⟨(i, it), ?_, rfl⟩
          rw [List.mk_mem_enum_iff_getElem?, ← List.get?_eq_getElem?]
          exact hit)
        (hsel it (List.get?_mem hit))
    refine ⟨hpos, ?_⟩
    rw [hpos]
    exact inNormalizedRange_iff _ _ _ _ hW hH
  · rw [hnew]
    exact inNormalizedRange_iff _ _ _ _ hW hH

/-- Witness of C17: on the pressed example panel, where the view of node 1 is selected, a
drag of 40 pixels to the right stores the position (240 / 800, 150 / 600) for node 1, and
`createNewPlugin` at the pixel (900, 300) stores (900 / 800, 300 / 600) for the new node 3,
which is out of range. -/
theorem positions_stored_unclamped_witness :
    (examplePressedPanel.filterMouseDrag FilterGraph.setNodePosition exampleGraph 1
        { pos := ⟨240, 150⟩, distanceFromDragStartX := 40 }).1.getNodePosition 1
        = (240 / 800, 150 / 600)
      ∧ (examplePressedPanel.createNewPlugin (FilterGraph.addFilter (fun _ => {})) exampleGraph
          {} 900 300 false "" "").getNodePosition 3 = (900 / 800, 300 / 600) := by
  have h := positions_stored_unclamped (fun _ => {}) exampleGraph examplePressedPanel 1
    { exampleViewA with
      colour := selectedColour, filterIsPartofSelectedGroup := true, originalPos := (150, 120) }
    { pos := ⟨240, 150⟩, distanceFromDragStartX := 40 } {} 900 300 false "" ""
    (by decide!) (by rfl) (by decide) (by decide) (by decide!) (by decide!) (by decide!)
    (by unfold FilterGraph.idsAllocated; decide!)
  refine ⟨?_, ?_⟩
  · have h2 := (h.2.1 (by decide!) 0
      { exampleViewA with
        colour := selectedColour, filterIsPartofSelectedGroup := true,
        originalPos := (150, 120) } (by decide!)).1
    refine Eq.trans h2 ?_
    decide!
  · have h3 := h.2.2.1
    refine Eq.trans h3 ?_
    decide!


/-! ## A gesture of drag events and repaints on a node view -/

theorem paint_fields (fc : FilterComponent) :
    fc.paint.filterID = fc.filterID ∧ fc.paint.bounds = fc.bounds
      ∧ fc.paint.originalPos = fc.originalPos
      ∧ (fc.paint.filterIsPartofSelectedGroup = true → fc.filterIsPartofSelectedGroup = true) := by
  unfold FilterComponent.paint
  split
  · exact ⟨rfl, rfl, rfl, fun h => h⟩
  · exact ⟨rfl, rfl, rfl, fun h => absurd h (by simp)⟩

theorem filterAt_paintNodeViews (p : GraphEditorPanel) (b : Nat) :
    p.paintNodeViews.filterAt b = (p.filterAt b).map FilterComponent.paint := by
  unfold GraphEditorPanel.paintNodeViews GraphEditorPanel.filterAt
  simp only
  rw [List.findSome?_map, ← findSome?_map_option]
  congr 1
  funext c
  obtain ⟨ca, comp⟩ := c
  simp only [Function.comp]
  cases comp with
  | connector cc => simp
  | filter fc =>
    by_cases hb : ca = b
    · simp [hb]
    · simp [hb]
  | other r => simp

theorem paintNodeViews_addrs (p : GraphEditorPanel) :
    p.paintNodeViews.children.map Child.addr = p.children.map Child.addr := by
  unfold GraphEditorPanel.paintNodeViews
  simp only [List.map_map]
  apply List.map_congr_left
  intro c _
  obtain ⟨ca, comp⟩ := c
  simp only [Function.comp]
  cases comp <;> rfl

theorem paintNodeViews_wellFormed (p : GraphEditorPanel) (hwf : p.WellFormed) :
    p.paintNodeViews.WellFormed := by
  unfold GraphEditorPanel.WellFormed
  rw [paintNodeViews_addrs]
  refine ⟨hwf.1, ?_⟩
  intro c hc
  have hmem : c.addr ∈ p.paintNodeViews.children.map Child.addr := List.mem_map_of_mem _ hc
  rw [paintNodeViews_addrs] at hmem
  obtain ⟨c0, hc0, he⟩ := List.mem_map.mp hmem
  rw [← he]
  exact hwf.2 c0 hc0

/-- A repaint during a gesture that started with the group flag of the dragged view in
step with the selection: the panel it leaves gives the next drag event what the panel at
the start gives it. -/
theorem paintNodeViews_step (p q : GraphEditorPanel) (a : Nat) (fc : FilterComponent)
    (hfc : p.filterAt a = some fc)
    (hflag : fc.filterIsPartofSelectedGroup = true →
      (p.getSelectedItems.map FilterComponent.filterID).any (fun n => n == fc.filterID) = true)
    (hq : p.sameForDrag a q) : p.sameForDrag a q.paintNodeViews := by
  obtain ⟨hw, hh, hs, hc, hx, hy, hitems, v, v0, hv, hv0, hid, hbw, hbh, hop, hfl⟩ := hq
  rw [hfc] at hv0
  injection hv0 with hv0
  subst hv0
  obtain ⟨f1, f2, f3, f4⟩ := paint_fields v
  have hitems1 : ∀ b ∈ p.selectedFilters,
      (q.paintNodeViews.filterAt b).map FilterComponent.filterID
        = (p.filterAt b).map FilterComponent.filterID := by
    intro b hb
    rw [filterAt_paintNodeViews, ← hitems b hb]
    cases q.filterAt b with
    | none => rfl
    | some vb => simp [(paint_fields vb).1]
  refine ⟨hw, hh, hs, hc, hx, hy, hitems1, v.paint, fc, ?_, hfc, f1.trans hid, ?_, ?_,
    f3.trans hop, ?_⟩
  · rw [filterAt_paintNodeViews, hv]
    rfl
  · rw [f2, hbw]
  · rw [f2, hbh]
  · have hs1 : q.paintNodeViews.selectedFilters = p.selectedFilters := hs
    rw [groupFlag_eq, getSelectedItems_ids p _ hs1 hitems1, f1, hid, groupFlag_eq p fc]
    rw [groupFlag_eq, getSelectedItems_ids p q hs hitems, hid, groupFlag_eq p fc] at hfl
    cases hany : (p.getSelectedItems.map FilterComponent.filterID).any
        (fun n => n == fc.filterID) with
    | true => simp
    | false =>
      rw [hany] at hfl hflag
      simp only [Bool.or_false] at hfl ⊢
      cases hfc1 : fc.filterIsPartofSelectedGroup with
      | true => exact absurd (hflag hfc1) (by simp)
      | false =>
        rw [hfc1] at hfl
        cases hp : v.paint.filterIsPartofSelectedGroup with
        | false => rfl
        | true => rw [f4 hp] at hfl; exact absurd hfl (by simp)

theorem filterGesture_invariant (g0 : FilterGraph) (p : GraphEditorPanel) (a : Nat)
    (fc : FilterComponent) (f : Node) (steps : List GestureStep)
    (hfc : p.filterAt a = some fc) (hnode : g0.getNodeForId fc.filterID = some f)
    (hsize : fc.bounds.w = f.processor.viewWidth ∧ fc.bounds.h = f.processor.viewHeight)
    (hsel : ∀ b ∈ p.selectedFilters,
      ∃ v, p.filterAt b = some v ∧ (g0.getNodeForId v.filterID).isSome)
    (hflag : fc.filterIsPartofSelectedGroup = true →
      (p.getSelectedItems.map FilterComponent.filterID).any (fun n => n == fc.filterID) = true)
    (hes : ∀ e, GestureStep.mouseDrag e ∈ steps → e.isPopupMenu = false) (g : FilterGraph)
    (q : GraphEditorPanel)
    (hg : g0.sameApartFrom (p.filterDragIds fc) g) (hwf : q.WellFormed)
    (hq : p.sameForDrag a q) :
    g0.sameApartFrom (p.filterDragIds fc)
        (GraphEditorPanel.filterGesture FilterGraph.setNodePosition g q a steps).1
      ∧ (GraphEditorPanel.filterGesture FilterGraph.setNodePosition g q a steps).2.WellFormed
      ∧ p.sameForDrag a
          (GraphEditorPanel.filterGesture FilterGraph.setNodePosition g q a steps).2 := by
  unfold GraphEditorPanel.filterGesture
  induction steps generalizing g q with
  | nil => exact ⟨hg, hwf, hq⟩
  | cons st steps ih =>
    rw [List.foldl_cons]
    have hrest : ∀ e, GestureStep.mouseDrag e ∈ steps → e.isPopupMenu = false :=
      fun e2 he2 => hes e2 (List.mem_cons_of_mem _ he2)
    cases st with
    | mouseDrag e =>
      obtain ⟨_, k2, k3, k4⟩ := filterMouseDrag_step g0 g p q a fc f e hfc hnode hsize hsel
        (hes e (List.mem_cons_self _ _)) hg hwf hq
      have key := ih hrest
        (q.filterMouseDrag FilterGraph.setNodePosition g a e).1
        (q.filterMouseDrag FilterGraph.setNodePosition g a e).2 k2 k3 k4
      rw [Prod.mk.eta] at key
      exact key
    | paint =>
      exact ih hrest g q.paintNodeViews hg (paintNodeViews_wellFormed q hwf)
        (paintNodeViews_step p q a fc hfc hflag hq)

theorem filterGesture_last (g0 : FilterGraph) (p : GraphEditorPanel) (a : Nat)
    (fc : FilterComponent) (f : Node) (steps : List GestureStep) (e : GestureEvent)
    (hwf : p.WellFormed)
    (hfc : p.filterAt a = some fc) (hnode : g0.getNodeForId fc.filterID = some f)
    (hsize : fc.bounds.w = f.processor.viewWidth ∧ fc.bounds.h = f.processor.viewHeight)
    (hsel : ∀ b ∈ p.selectedFilters,
      ∃ v, p.filterAt b = some v ∧ (g0.getNodeForId v.filterID).isSome)
    (hflag : fc.filterIsPartofSelectedGroup = true →
      (p.getSelectedItems.map FilterComponent.filterID).any (fun n => n == fc.filterID) = true)
    (hes : ∀ e, GestureStep.mouseDrag e ∈ steps → e.isPopupMenu = false)
    (he : e.isPopupMenu = false) :
    (GraphEditorPanel.filterGesture FilterGraph.setNodePosition g0 p a
        (steps ++ [.mouseDrag e])).1
      = applyCalls FilterGraph.setNodePosition g0 (p.filterDragCalls fc (p.groupFlag fc) e) := by
  obtain ⟨k1, k2, k3⟩ := filterGesture_invariant g0 p a fc f steps hfc hnode hsize hsel hflag
    hes g0 p (sameApartFrom_refl _ g0) hwf (sameForDrag_refl a p fc hfc)
  have hstep := (filterMouseDrag_step g0
    (GraphEditorPanel.filterGesture FilterGraph.setNodePosition g0 p a steps).1 p
    (GraphEditorPanel.filterGesture FilterGraph.setNodePosition g0 p a steps).2 a fc f e hfc
    hnode hsize hsel he k1 k2 k3).1
  unfold GraphEditorPanel.filterGesture at hstep ⊢
  rw [List.foldl_append, List.foldl_cons, List.foldl_nil]
  exact hstep

/-- The group move does not accumulate in a gesture that starts with the group flag of the
dragged view in step with the selection (the flag is set only if the view is selected).
The gesture starts on a panel with distinct child addresses, on a node view whose node
exists and which has the size `update()` gives it, with every selected pointer at a node
view whose node exists. After any drag events and repaints followed by the drag event
`e1`, the graph is the graph from the start of the gesture with the calls of
`setNodePosition` that `e1` alone makes from the recorded coordinates, its distance from
the start of the drag and the size of the panel; so that two sequences of drag events and
repaints whose last drag events have the same distance leave the same graph. -/
theorem filterGesture_no_accumulation (g : FilterGraph) (p : GraphEditorPanel) (a : Nat)
    (fc : FilterComponent) (f : Node) (steps1 steps2 : List GestureStep) (e1 e2 : GestureEvent)
    (hwf : p.WellFormed)
    (hfc : p.filterAt a = some fc) (hnode : g.getNodeForId fc.filterID = some f)
    (hsize : fc.bounds.w = f.processor.viewWidth ∧ fc.bounds.h = f.processor.viewHeight)
    (hsel : ∀ b ∈ p.selectedFilters,
      ∃ v, p.filterAt b = some v ∧ (g.getNodeForId v.filterID).isSome)
    (hflag : fc.filterIsPartofSelectedGroup = true →
      (p.getSelectedItems.map FilterComponent.filterID).any (fun n => n == fc.filterID) = true)
    (hes1 : ∀ e, GestureStep.mouseDrag e ∈ steps1 → e.isPopupMenu = false)
    (hes2 : ∀ e, GestureStep.mouseDrag e ∈ steps2 → e.isPopupMenu = false)
    (he1 : e1.isPopupMenu = false) (he2 : e2.isPopupMenu = false)
    (hdx : e2.distanceFromDragStartX = e1.distanceFromDragStartX)
    (hdy : e2.distanceFromDragStartY = e1.distanceFromDragStartY) :
    (GraphEditorPanel.filterGesture FilterGraph.setNodePosition g p a
          (steps1 ++ [.mouseDrag e1])).1
        = applyCalls FilterGraph.setNodePosition g
            (p.filterDragCalls fc (p.groupFlag fc) e1)
      ∧ (GraphEditorPanel.filterGesture FilterGraph.setNodePosition g p a
            (steps1 ++ [.mouseDrag e1])).1
          = (GraphEditorPanel.filterGesture FilterGraph.setNodePosition g p a
              (steps2 ++ [.mouseDrag e2])).1 := by
  have h1 := filterGesture_last g p a fc f steps1 e1 hwf hfc hnode hsize hsel hflag hes1 he1
  have h2 := filterGesture_last g p a fc f steps2 e2 hwf hfc hnode hsize hsel hflag hes2 he2
  refine ⟨h1, ?_⟩
  rw [h1, h2]
  rw [filterDragCalls_congr p p fc fc _ e1 e2 rfl rfl rfl rfl rfl rfl rfl rfl rfl rfl hdx hdy]

/-- An example of `filterGesture_no_accumulation`: on the pressed example panel, the drag
events at the distances 10 then 40 with a repaint between them, and the drag events at the
distances 70, 20 then 40, leave the same graph. -/
theorem filterGesture_no_accumulation_example :
    (GraphEditorPanel.filterGesture FilterGraph.setNodePosition exampleGraph
        examplePressedPanel 1
        ([.mouseDrag { pos := ⟨210, 150⟩, distanceFromDragStartX := 10 }, .paint]
          ++ [.mouseDrag { pos := ⟨240, 150⟩, distanceFromDragStartX := 40 }])).1
      = (GraphEditorPanel.filterGesture FilterGraph.setNodePosition exampleGraph
          examplePressedPanel 1
          ([.mouseDrag { pos := ⟨270, 150⟩, distanceFromDragStartX := 70 },
            .mouseDrag { pos := ⟨220, 150⟩, distanceFromDragStartX := 20 }]
            ++ [.mouseDrag { pos := ⟨240, 150⟩, distanceFromDragStartX := 40 }])).1 :=
  (filterGesture_no_accumulation exampleGraph examplePressedPanel 1
    { exampleViewA with
      colour := selectedColour, filterIsPartofSelectedGroup := true, originalPos := (150, 120) }
    exampleNodeA _ _ _ _
    (by unfold GraphEditorPanel.WellFormed; decide!) (by decide!) (by rfl) (by decide!)
    (by
      intro b hb
      have hsel : examplePressedPanel.selectedFilters = [1] := by decide!
      rw [hsel, List.mem_singleton] at hb
      subst hb
      exact ⟨{ exampleViewA with
        colour := selectedColour, filterIsPartofSelectedGroup := true,
        originalPos := (150, 120) }, by decide!, by decide!⟩)
    (by intro _; decide!)
    (by
      intro e he
      simp at he
      subst he
      rfl)
    (by
      intro e he
      simp at he
      rcases he with rfl | rfl <;> rfl)
    (by rfl) (by rfl) (by rfl) (by rfl)).2

/-- C14, the code at the failing input: a gesture on the view of node 1 that starts with
the member `filterIsPartofSelectedGroup` of the view left set by an earlier gesture, the
view of node 2 being the selection. A drag event at the distance 40 takes the group
branch and moves node 2 to (4/5, 3/4), and so do the drag events at the distances 10 and
40 with no repaint between them. With the repaint that the first `mouseDrag` asks for run
between the two drag events, `paint` clears the member, the drag event at the distance 40
takes the single-node branch, and node 2 is left at (61/80, 3/4), where the first event
put it, while node 1 moves to (3/10, 1/4). After the presses of `exampleStaleFlagGesture`,
where the selection is empty, the drag event at the distance 40 writes nothing, or moves
node 1 to (3/10, 1/4) when a repaint has run since the first drag event. -/
theorem filterGesture_depends_on_repaint :
    (GraphEditorPanel.filterGesture FilterGraph.setNodePosition exampleGraph
          exampleStaleGroupPressedPanel 1
          [.mouseDrag { pos := ⟨240, 150⟩, distanceFromDragStartX := 40 }]).1.nodes.map
          (fun f => (f.nodeId, f.x, f.y))
        = [(1, 1 / 4, 1 / 4), (2, 4 / 5, 3 / 4)]
      ∧ (GraphEditorPanel.filterGesture FilterGraph.setNodePosition exampleGraph
          exampleStaleGroupPressedPanel 1
          [.mouseDrag { pos := ⟨210, 150⟩, distanceFromDragStartX := 10 },
           .mouseDrag { pos := ⟨240, 150⟩, distanceFromDragStartX := 40 }]).1.nodes.map
          (fun f => (f.nodeId, f.x, f.y))
        = [(1, 1 / 4, 1 / 4), (2, 4 / 5, 3 / 4)]
      ∧ (GraphEditorPanel.filterGesture FilterGraph.setNodePosition exampleGraph
          exampleStaleGroupPressedPanel 1
          [.mouseDrag { pos := ⟨210, 150⟩, distanceFromDragStartX := 10 }, .paint,
           .mouseDrag { pos := ⟨240, 150⟩, distanceFromDragStartX := 40 }]).1.nodes.map
          (fun f => (f.nodeId, f.x, f.y))
        = [(1, 3 / 10, 1 / 4), (2, 61 / 80, 3 / 4)]
      ∧ (GraphEditorPanel.filterGesture FilterGraph.setNodePosition exampleGraph
          exampleStalePressedPanel 1
          [.mouseDrag { pos := ⟨210, 150⟩, distanceFromDragStartX := 10 },
           .mouseDrag { pos := ⟨240, 150⟩, distanceFromDragStartX := 40 }]).1.nodes.map
          (fun f => (f.nodeId, f.x, f.y))
        = [(1, 1 / 4, 1 / 4), (2, 3 / 4, 3 / 4)]
      ∧ (GraphEditorPanel.filterGesture FilterGraph.setNodePosition exampleGraph
          exampleStalePressedPanel 1
          [.mouseDrag { pos := ⟨210, 150⟩, distanceFromDragStartX := 10 }, .paint,
           .mouseDrag { pos := ⟨240, 150⟩, distanceFromDragStartX := 40 }]).1.nodes.map
          (fun f => (f.nodeId, f.x, f.y))
        = [(1, 3 / 10, 1 / 4), (2, 3 / 4, 3 / 4)] := by
  refine ⟨?_, ?_, ?_, ?_, ?_⟩ <;> decide!


end Cabbage
